import Mathlib

/-!
# Verification development for the AWS provider glue code

Shallow embedding of

* `internal/service/xray/tags_gen.go` (`Tags`, `KeyValueTags`, `UpdateTags`), together
  with the part of the `tftags` package it calls,
* `internal/service/servicecatalog/resource_aws_servicecatalog_budget_resource_association.go`
  (create, read, delete and the composite identifier),
* `aws/resource_aws_redshift_parameter_group.go` (read, update, delete, the hash of a
  parameter and the validator of `name`),
* `aws/data_source_aws_ec2_transit_gateway_route_table.go` (read),
* `internal/service/cloudcontrol/data_source_aws_cloudcontrolapi_resource.go` (the
  validator of `type_name`), and
* `aws/resource_aws_dynamodb_global_table_test.go` (`testAccDynamoDBGlobalTablePreCheck`
  and `testAccCheckAwsDynamoDbGlobalTableDestroy`).

A Go `map[string]string` is an association list with pairwise distinct keys; the
iteration order of a Go map is unspecified, so every statement about the content of a
request is a statement about membership, never about positions.  A remote call is a
function from the request to its outcome (`none` is success), and a run of
`UpdateTags` returns the calls it issued, in order, next to the error it returns.  A
callback of a resource returns the resource data it leaves, the remote operations it
started and its error.  A regular expression is the list of its items, matched by
trying every position of the text.  A `*schema.Set` is the list of its elements, and
membership goes by the key that the hash function of the set gives an element.
-/

set_option autoImplicit false

/-! ## Go errors -/

/-- A Go `error` value: an error with a message and nothing wrapped (made by
`errors.New` or by `fmt.Errorf` without `%w`); the result of `fmt.Errorf` with a `%w`
verb, which carries a message and the wrapped error; an `awserr.Error` of the AWS SDK,
with its code and its message; a `*resource.NotFoundError` of the plugin SDK; a
`*resource.TimeoutError` of the plugin SDK that carries no last error. -/
inductive GoError where
  | message (msg : String)
  | wrapped (msg : String) (inner : GoError)
  | aws (code : String) (msg : String)
  | notFound (msg : String)
  | timeout (msg : String)
  deriving DecidableEq, Repr

namespace GoError

/-- The method `Error()`: the message of the error. -/
def Error : GoError → String
  | message msg => msg
  | wrapped msg _ => msg
  | aws code msg => code ++ ": " ++ msg
  | notFound msg => msg
  | timeout msg => msg

/-- The method `Unwrap()`: the error wrapped with `%w`, if any. -/
def Unwrap : GoError → Option GoError
  | message _ => none
  | wrapped _ inner => some inner
  | aws _ _ => none
  | notFound _ => none
  | timeout _ => none

end GoError

/-- The call `fmt.Errorf(pre + "(%s): %w", identifier, err)`, the only shape of
`fmt.Errorf` in `UpdateTags`: the message is `pre`, the identifier in parentheses,
a colon and the message of `err`; the result wraps `err`. -/
def Errorf (pre identifier : String) (err : GoError) : GoError :=
  GoError.wrapped (pre ++ "(" ++ identifier ++ "): " ++ err.Error) err

/-- Go's `strings.HasPrefix(s, p)`. -/
def HasPrefix (s p : String) : Bool :=
  p.toList.isPrefixOf s.toList

/-! ## The `tftags` package -/

namespace tftags

/-- Modelled from the spec: the type `KeyValueTags` of package `internal/tags` is not
among the sources.  The spec speaks of a "tag set" with keys and values, a mapping
type "with equality and set-difference operations"; as in a Go map, no key occurs
twice. -/
structure KeyValueTags where
  entries : List (String × String)
  nodup : (entries.map Prod.fst).Nodup

/-- Modelled from the spec: the constant `AwsTagKeyPrefix` of package `internal/tags`
is not among the sources; it is the "reserved prefix" of the spec, `aws:`. -/
def AwsTagKeyPrefix : String := "aws:"

namespace KeyValueTags

/-- Go's `tags[k]` with the "comma ok" idiom: the value stored under `k`, if any. -/
def get (tags : KeyValueTags) (k : String) : Option String :=
  tags.entries.lookup k

/-- Go's `len(tags)`. -/
def len (tags : KeyValueTags) : Nat :=
  tags.entries.length

/-- Modelled from the spec: method `Keys` of `KeyValueTags` (package `internal/tags`,
not among the sources): the keys of the tag set. -/
def Keys (tags : KeyValueTags) : List String :=
  tags.entries.map Prod.fst

/-- Modelled from the spec: method `Map` of `KeyValueTags` (package `internal/tags`,
not among the sources): the key/value pairs of the tag set. -/
def Map (tags : KeyValueTags) : List (String × String) :=
  tags.entries

/-- Modelled from the spec: method `IgnoreAWS` of `KeyValueTags` (package
`internal/tags`, not among the sources): "reserved-prefix keys ... are excluded". -/
def IgnoreAWS (tags : KeyValueTags) : KeyValueTags :=
  ⟨tags.entries.filter (fun kv => !HasPrefix kv.1 AwsTagKeyPrefix),
    tags.nodup.sublist ((List.filter_sublist _).map Prod.fst)⟩

/-- Modelled from the spec: method `Removed` of `KeyValueTags` (package
`internal/tags`, not among the sources): "`removed`: keys present in old set, absent
in new set", `removed = keys(oldTags) - keys(newTags)`. -/
def Removed (tags newTags : KeyValueTags) : KeyValueTags :=
  ⟨tags.entries.filter (fun kv => (newTags.get kv.1).isNone),
    tags.nodup.sublist ((List.filter_sublist _).map Prod.fst)⟩

/-- Modelled from the spec: method `Updated` of `KeyValueTags` (package
`internal/tags`, not among the sources): "`added/updated`: keys present in new set with
a different or absent value in old set",
`changed = {k: newTags[k] for k in newTags if oldTags.get(k) != newTags[k]}`. -/
def Updated (tags newTags : KeyValueTags) : KeyValueTags :=
  ⟨newTags.entries.filter (fun kv => decide (tags.get kv.1 ≠ some kv.2)),
    newTags.nodup.sublist ((List.filter_sublist _).map Prod.fst)⟩

end KeyValueTags

/-- Modelled from the spec: function `New` of package `internal/tags` is not among the
sources; it turns the value it is given into a `KeyValueTags`.  The reconciler of the
spec receives the two tag sets as they are. -/
def New (tagsMap : KeyValueTags) : KeyValueTags :=
  tagsMap

end tftags

/-! ## `internal/service/xray/tags_gen.go` -/

namespace xray

open tftags

/-- The SDK type `xray.Tag`. -/
structure Tag where
  Key : String
  Value : String
  deriving DecidableEq, Repr

/-- The SDK type `xray.UntagResourceInput`. -/
structure UntagResourceInput where
  ResourceARN : String
  TagKeys : List String
  deriving DecidableEq, Repr

/-- The SDK type `xray.TagResourceInput`. -/
structure TagResourceInput where
  ResourceARN : String
  Tags : List Tag
  deriving DecidableEq, Repr

/-- The connection `*xray.XRay`, as far as `UpdateTags` uses it: the outcome of each
of the two remote calls, `none` for success and `some err` for the error returned. -/
structure XRay where
  UntagResource : UntagResourceInput → Option GoError
  TagResource : TagResourceInput → Option GoError

/-- A remote call issued through the connection. -/
inductive Call where
  | untag (input : UntagResourceInput)
  | tag (input : TagResourceInput)
  deriving DecidableEq, Repr

/-- The function `Tags`: one `xray.Tag` for each pair of `tags.Map()`. -/
def Tags (tags : KeyValueTags) : List Tag :=
  tags.Map.map (fun kv => { Key := kv.1, Value := kv.2 })

/-- The function `UpdateTags`.  The result is the list of the remote calls issued, in
the order they were issued, and the returned error (`none` for `nil`). -/
def UpdateTags (conn : XRay) (identifier : String) (oldTagsMap newTagsMap : KeyValueTags) :
    List Call × Option GoError :=
  let oldTags := New oldTagsMap
  let newTags := New newTagsMap
  -- the second `if` of the source, reached after the calls `issued`
  let tagPart (issued : List Call) : List Call × Option GoError :=
    let updatedTags := oldTags.Updated newTags
    if updatedTags.len > 0 then
      let input : TagResourceInput :=
        { ResourceARN := identifier, Tags := Tags updatedTags.IgnoreAWS }
      match conn.TagResource input with
      | some err => (issued ++ [Call.tag input], some (Errorf "error tagging resource " identifier err))
      | none => (issued ++ [Call.tag input], none)
    else
      (issued, none)
  let removedTags := oldTags.Removed newTags
  if removedTags.len > 0 then
    let input : UntagResourceInput :=
      { ResourceARN := identifier, TagKeys := removedTags.IgnoreAWS.Keys }
    match conn.UntagResource input with
    | some err => ([Call.untag input], some (Errorf "error untagging resource " identifier err))
    | none => tagPart [Call.untag input]
  else
    tagPart []

/-- The outcome the connection gives to a call. -/
def outcome (conn : XRay) : Call → Option GoError
  | Call.untag input => conn.UntagResource input
  | Call.tag input => conn.TagResource input

/-- Whether a call is an untag call. -/
def Call.isUntag : Call → Bool
  | Call.untag _ => true
  | Call.tag _ => false

/-- Whether a call is a tag call. -/
def Call.isTag : Call → Bool
  | Call.untag _ => false
  | Call.tag _ => true

/-- The tag set held by the remote resource: the value of each key, if it has one. -/
abbrev RemoteTags := String → Option String

/-- The effect of an untag request on the remote tag set: the listed keys are deleted. -/
def applyUntag (remote : RemoteTags) (input : UntagResourceInput) : RemoteTags :=
  fun k => if k ∈ input.TagKeys then none else remote k

/-- The effect of a tag request on the remote tag set: each pair is set, in order. -/
def applyTag (remote : RemoteTags) (input : TagResourceInput) : RemoteTags :=
  input.Tags.foldl (fun r t k => if k = t.Key then some t.Value else r k) remote

/-- The effect of one call on the remote tag set. -/
def applyCall (remote : RemoteTags) : Call → RemoteTags
  | Call.untag input => applyUntag remote input
  | Call.tag input => applyTag remote input

/-- The effect of a sequence of calls: the `apply(old, diff)` of the spec. -/
def applyCalls (remote : RemoteTags) (calls : List Call) : RemoteTags :=
  calls.foldl applyCall remote

end xray

/-! ## The composite identifier of a Service Catalog budget resource association -/

namespace tfservicecatalog

/-- Modelled from the spec: the separator of the composite identifier; the package
`internal/service/servicecatalog` that declares it is not among the sources.  The spec
gives the identifier as `budgetName + "," + resourceID`. -/
def budgetResourceAssociationIDSeparator : Char := ','

/-- Modelled from the spec: function `BudgetResourceAssociationID` (its file is not
among the sources, only its call in `resourceBudgetResourceAssociationCreate` is): the
"composite" identity `budgetName + "," + resourceID`. -/
def BudgetResourceAssociationID (budgetName resourceID : String) : String :=
  budgetName ++ String.singleton budgetResourceAssociationIDSeparator ++ resourceID

/-- Modelled from the spec: function `BudgetResourceAssociationParseID` (its file is not
among the sources, only its calls in read and delete are): the identifier is "parseable
back into its components", the two fields on either side of the separator.  The
identifier is cut at the first separator; without a separator there are no two
components and the result is an error. -/
def BudgetResourceAssociationParseID (id : String) : Except GoError (String × String) :=
  match id.toList.dropWhile (fun c => c != budgetResourceAssociationIDSeparator) with
  | [] => Except.error (GoError.message ("unexpected format of ID (" ++ id ++ ")"))
  | _ :: rest =>
    Except.ok
      (String.mk (id.toList.takeWhile (fun c => c != budgetResourceAssociationIDSeparator)),
        String.mk rest)

end tfservicecatalog

/-! ## Helper packages: `strings`, `tfawserr`, `tfresource`, `resource` -/

/-- Go's `strings.Contains(s, substr)`. -/
def Contains (s substr : String) : Bool :=
  s.toList.tails.any (fun t => substr.toList.isPrefixOf t)

/-- An error returned by a call of the AWS SDK: every such error is an `awserr.Error`,
with the methods `Code()` and `Message()`. -/
structure AwsErr where
  Code : String
  Message : String
  deriving DecidableEq, Repr

/-- An SDK error as a Go `error` value. -/
def AwsErr.toError (e : AwsErr) : GoError :=
  GoError.aws e.Code e.Message

/-- Go's `errors.As(err, &awsErr)` for the target type `awserr.Error`: the first error
of the chain of `Unwrap` that is an `awserr.Error`. -/
def asAwsErr : GoError → Option AwsErr
  | GoError.aws code msg => some ⟨code, msg⟩
  | GoError.wrapped _ inner => asAwsErr inner
  | GoError.message _ => none
  | GoError.notFound _ => none
  | GoError.timeout _ => none

namespace tfawserr

/-- The function `tfawserr.ErrMessageContains` of `aws-sdk-go-base`: `err` holds an
`awserr.Error` with the given code whose message contains `message`. -/
def ErrMessageContains (err : Option GoError) (code message : String) : Bool :=
  match err with
  | none => false
  | some e =>
    match asAwsErr e with
    | some awsErr => decide (awsErr.Code = code) && Contains awsErr.Message message
    | none => false

/-- The function `tfawserr.ErrCodeEquals` of `aws-sdk-go-base`: `err` holds an
`awserr.Error` with the given code. -/
def ErrCodeEquals (err : Option GoError) (code : String) : Bool :=
  match err with
  | none => false
  | some e =>
    match asAwsErr e with
    | some awsErr => decide (awsErr.Code = code)
    | none => false

end tfawserr

namespace tfresource

/-- Modelled from the spec: function `NotFound` of package `internal/tfresource` is not
among the sources.  It recognises the `NotFound` of the error taxonomy, "remote object
absent": the error is, or wraps, a `*resource.NotFoundError`. -/
def NotFoundError : GoError → Bool
  | GoError.notFound _ => true
  | GoError.wrapped _ inner => NotFoundError inner
  | GoError.message _ => false
  | GoError.aws _ _ => false
  | GoError.timeout _ => false

/-- Modelled from the spec: `tfresource.NotFound(err)` for an `err` that may be `nil`;
see `NotFoundError`. -/
def NotFound (err : Option GoError) : Bool :=
  match err with
  | none => false
  | some e => NotFoundError e

/-- Modelled from the spec: function `TimedOut` of package `internal/tfresource` is not
among the sources.  It recognises the `Timeout` of the error taxonomy, "polling budget
exhausted": the error itself is a `*resource.TimeoutError` without a last error. -/
def TimedOut (err : Option GoError) : Bool :=
  match err with
  | some (GoError.timeout _) => true
  | _ => false

end tfresource

namespace resource

/-- The type `resource.RetryError` of the plugin SDK. -/
structure RetryError where
  Err : GoError
  Retryable : Bool
  deriving DecidableEq, Repr

/-- The function `resource.RetryableError` for an error that is not `nil`. -/
def RetryableError (err : GoError) : RetryError :=
  { Err := err, Retryable := true }

/-- The function `resource.NonRetryableError` for an error that is not `nil`. -/
def NonRetryableError (err : GoError) : RetryError :=
  { Err := err, Retryable := false }

/-- The loop of `resource.Retry`.  `polls` is the number of calls of `f` that the
timeout still leaves room for, `s` the state `f` works on (the variables it captures
and the remote end), `resultErr` the error of the last call.  A call that returns
`nil` ends the loop with `nil`; a call that returns an error that is not retryable
ends it with that error; when no call is left the loop ends with `onTimeout resultErr`,
the error `resource.Retry` returns for a timeout after the last error `resultErr`. -/
def retryLoop {σ : Type} (onTimeout : Option GoError → GoError)
    (f : σ → σ × Option RetryError) : Nat → σ → Option GoError → σ × Option GoError
  | 0, s, resultErr => (s, some (onTimeout resultErr))
  | polls + 1, s, _ =>
    match f s with
    | (s', none) => (s', none)
    | (s', some rerr) =>
      if rerr.Retryable then retryLoop onTimeout f polls s' (some rerr.Err)
      else (s', some rerr.Err)

/-- The function `resource.Retry(timeout, f)` of the plugin SDK: `f` is called again
and again as long as it returns a retryable error and the timeout has not passed.  The
timeout is given as the number `polls` of calls it leaves room for. -/
def Retry {σ : Type} (polls : Nat) (onTimeout : Option GoError → GoError)
    (f : σ → σ × Option RetryError) (s : σ) : σ × Option GoError :=
  retryLoop onTimeout f polls s none

end resource

/-! ## `resource_aws_servicecatalog_budget_resource_association.go` -/

namespace servicecatalog

open tfservicecatalog

/-- The SDK constant `servicecatalog.ErrCodeInvalidParametersException`. -/
def ErrCodeInvalidParametersException : String := "InvalidParametersException"

/-- The SDK constant `servicecatalog.ErrCodeResourceNotFoundException`. -/
def ErrCodeResourceNotFoundException : String := "ResourceNotFoundException"

/-- The SDK type `servicecatalog.AssociateBudgetWithResourceInput`. -/
structure AssociateBudgetWithResourceInput where
  BudgetName : String
  ResourceId : String
  deriving DecidableEq, Repr

/-- The SDK type `servicecatalog.AssociateBudgetWithResourceOutput`, which has no
field. -/
structure AssociateBudgetWithResourceOutput where
  deriving DecidableEq, Repr

/-- The SDK type `servicecatalog.DisassociateBudgetFromResourceInput`. -/
structure DisassociateBudgetFromResourceInput where
  ResourceId : String
  BudgetName : String
  deriving DecidableEq, Repr

/-- The SDK type `servicecatalog.BudgetDetail`, the output of the wait for readiness,
as far as read uses it. -/
structure BudgetDetail where
  BudgetName : String
  deriving DecidableEq, Repr

/-- The `*schema.ResourceData` of the resource: its ID, whether it is marked as new,
and the two attributes of the schema. -/
structure ResourceData where
  id : String
  isNewResource : Bool
  budget_name : String
  resource_id : String
  deriving DecidableEq, Repr

namespace ResourceData

/-- The method `d.Id()`. -/
def Id (d : ResourceData) : String := d.id

/-- The method `d.SetId(v)`. -/
def SetId (d : ResourceData) (v : String) : ResourceData := { d with id := v }

/-- The method `d.IsNewResource()`. -/
def IsNewResource (d : ResourceData) : Bool := d.isNewResource

end ResourceData

/-- The `meta` of the callbacks, as far as they use it.  The connection answers the
`n`-th call of `AssociateBudgetWithResource` (counted from 0) with an output that may be
`nil` and an error that may be `nil`, and a call of `DisassociateBudgetFromResource`
with an error that may be `nil`.  The two waiters of package `tfservicecatalog` are not
among the sources: their results are given.  `polls` and `onTimeout` are those of
`resource.Retry` for the timeout `tfiam.PropagationTimeout`. -/
structure AWSClient where
  AssociateBudgetWithResource :
    Nat → AssociateBudgetWithResourceInput →
      Option AssociateBudgetWithResourceOutput × Option AwsErr
  DisassociateBudgetFromResource : DisassociateBudgetFromResourceInput → Option AwsErr
  WaitBudgetResourceAssociationReady : String → String → Option BudgetDetail × Option GoError
  WaitBudgetResourceAssociationDeleted : String → String → Option GoError
  polls : Nat
  onTimeout : Option GoError → GoError

/-- A remote operation started by a callback. -/
inductive Call where
  | associate (input : AssociateBudgetWithResourceInput)
  | disassociate (input : DisassociateBudgetFromResourceInput)
  | waitReady (budgetName resourceID : String)
  | waitDeleted (budgetName resourceID : String)
  deriving DecidableEq, Repr

/-- Whether a call is an `AssociateBudgetWithResource` call. -/
def Call.isAssociate : Call → Bool
  | Call.associate _ => true
  | _ => false

/-- The outcome of a callback: the resource data it leaves, the remote operations it
started, in order, and the error it returns (`none` for `nil`). -/
structure Run where
  d : ResourceData
  calls : List Call
  err : Option GoError
  deriving DecidableEq, Repr

/-- The function `resourceBudgetResourceAssociationRead`. -/
def resourceBudgetResourceAssociationRead (m : AWSClient) (d : ResourceData) : Run :=
  match BudgetResourceAssociationParseID d.Id with
  | Except.error err =>
    { d := d, calls := [], err := some (Errorf "could not parse ID " d.Id err) }
  | Except.ok (budgetName, resourceID) =>
    let (output, err) := m.WaitBudgetResourceAssociationReady budgetName resourceID
    let calls := [Call.waitReady budgetName resourceID]
    if !d.IsNewResource && tfresource.NotFound err then
      { d := d.SetId "", calls := calls, err := none }
    else
      match err with
      | some e =>
        { d := d, calls := calls,
          err := some (Errorf
            "error describing Service Catalog Budget Resource Association " d.Id e) }
      | none =>
        match output with
        | none =>
          { d := d, calls := calls,
            err := some (GoError.message
              ("error getting Service Catalog Budget Resource Association (" ++ d.Id ++
                "): empty response")) }
        | some out =>
          { d := { d with resource_id := resourceID, budget_name := out.BudgetName },
            calls := calls, err := none }

/-- The variables of `resourceBudgetResourceAssociationCreate` that the function handed
to `resource.Retry` works on: the calls made so far and the variable `output`. -/
structure CreateState where
  calls : List Call
  output : Option AssociateBudgetWithResourceOutput
  deriving DecidableEq, Repr

/-- One call of `conn.AssociateBudgetWithResource(input)` with the assignment
`output, err = ...`. -/
def associate (m : AWSClient) (input : AssociateBudgetWithResourceInput)
    (s : CreateState) : CreateState × Option GoError :=
  let (output, err) := m.AssociateBudgetWithResource s.calls.length input
  ({ calls := s.calls ++ [Call.associate input], output := output },
    err.map AwsErr.toError)

/-- The function that `resourceBudgetResourceAssociationCreate` hands to
`resource.Retry` (lines 155 to 169). -/
def associateRetryFunc (m : AWSClient) (input : AssociateBudgetWithResourceInput)
    (s : CreateState) : CreateState × Option resource.RetryError :=
  let (s', err) := associate m input s
  if tfawserr.ErrMessageContains err ErrCodeInvalidParametersException
      "profile does not exist" then
    match err with
    | some e => (s', some (resource.RetryableError e))
    | none => (s', none)
  else
    match err with
    | some e => (s', some (resource.NonRetryableError e))
    | none => (s', none)

/-- The function `resourceBudgetResourceAssociationCreate`. -/
def resourceBudgetResourceAssociationCreate (m : AWSClient) (d : ResourceData) : Run :=
  let input : AssociateBudgetWithResourceInput :=
    { BudgetName := d.budget_name, ResourceId := d.resource_id }
  let (s1, err1) :=
    resource.Retry m.polls m.onTimeout (associateRetryFunc m input)
      { calls := [], output := none }
  let (s2, err2) :=
    if tfresource.TimedOut err1 then associate m input s1 else (s1, err1)
  match err2 with
  | some err =>
    { d := d, calls := s2.calls,
      err := some (GoError.wrapped
        ("error associating Service Catalog Budget with Resource: " ++ err.Error) err) }
  | none =>
    match s2.output with
    | none =>
      { d := d, calls := s2.calls,
        err := some (GoError.message
          "error creating Service Catalog Budget Resource Association: empty response") }
    | some _ =>
      let r := resourceBudgetResourceAssociationRead m
        (d.SetId (BudgetResourceAssociationID d.budget_name d.resource_id))
      { r with calls := s2.calls ++ r.calls }

/-- The function `resourceBudgetResourceAssociationDelete`. -/
def resourceBudgetResourceAssociationDelete (m : AWSClient) (d : ResourceData) : Run :=
  match BudgetResourceAssociationParseID d.Id with
  | Except.error err =>
    { d := d, calls := [], err := some (Errorf "could not parse ID " d.Id err) }
  | Except.ok (budgetName, resourceID) =>
    let input : DisassociateBudgetFromResourceInput :=
      { ResourceId := resourceID, BudgetName := budgetName }
    let err := (m.DisassociateBudgetFromResource input).map AwsErr.toError
    if tfawserr.ErrCodeEquals err ErrCodeResourceNotFoundException then
      { d := d, calls := [Call.disassociate input], err := none }
    else
      match err with
      | some e =>
        { d := d, calls := [Call.disassociate input],
          err := some (Errorf
            "error disassociating Service Catalog Budget from Resource " d.Id e) }
      | none =>
        let err := m.WaitBudgetResourceAssociationDeleted budgetName resourceID
        let calls := [Call.disassociate input, Call.waitDeleted budgetName resourceID]
        match err with
        | some e =>
          if !tfresource.NotFound (some e) then
            { d := d, calls := calls,
              err := some (Errorf
                "error waiting for Service Catalog Budget Resource Disassociation "
                d.Id e) }
          else
            { d := d, calls := calls, err := none }
        | none => { d := d, calls := calls, err := none }

end servicecatalog

namespace servicecatalog

/-- Whether a message identifies the resource, in the words of the spec "its ID, or its
budget name and resource ID": the message holds the ID in parentheses, as the messages
of read and delete do, or it holds both the budget name and the resource ID. -/
def identifiesResource (msg id budgetName resourceID : String) : Bool :=
  Contains msg ("(" ++ id ++ ")") || (Contains msg budgetName && Contains msg resourceID)

end servicecatalog

/-! ## `resource_aws_redshift_parameter_group.go`: delete -/

namespace redshift

/-- The SDK type `redshift.DeleteClusterParameterGroupInput`. -/
structure DeleteClusterParameterGroupInput where
  ParameterGroupName : String
  deriving DecidableEq, Repr

/-- The connection `*redshift.Redshift`, as far as delete uses it: the error of the
call `DeleteClusterParameterGroup`, `none` for `nil`. -/
structure Redshift where
  DeleteClusterParameterGroup : DeleteClusterParameterGroupInput → Option AwsErr

/-- The function `resourceAwsRedshiftParameterGroupDelete`; the resource data enters
through `d.Id()` only, which is `id`. -/
def resourceAwsRedshiftParameterGroupDelete (conn : Redshift) (id : String) :
    Option GoError :=
  let err := (conn.DeleteClusterParameterGroup { ParameterGroupName := id }).map
    AwsErr.toError
  if err.isSome && tfawserr.ErrMessageContains err "RedshiftParameterGroupNotFoundFault" ""
  then none
  else err

end redshift

/-! ## Package `regexp`, for the expressions of the validators -/

namespace regexp

/-- An item of a regular expression, for the items that the expressions of the
validators are made of: the anchors `^` and `$` (without the flag `m`: the beginning and
the end of the text), one character of a class (a literal is the class of one
character), and the repetition of a class, `[...]+` or `[...]{min,max}`. -/
inductive Item where
  | bol
  | eol
  | cls (p : Char → Bool)
  | rep (p : Char → Bool) (min : Nat) (max : Option Nat)

/-- A regular expression: the concatenation of its items. -/
abbrev Regexp := List Item

/-- Whether a repetition of the class `p`, of at least `min` and (with `some max`) at
most `max` characters, followed by what `k` accepts, matches at the beginning of the
characters `cs`.  `atStart` says whether `cs` is the whole text. -/
def matchRep (p : Char → Bool) (k : Bool → List Char → Bool) :
    Nat → Option Nat → Bool → List Char → Bool
  | min, _, atStart, [] => min == 0 && k atStart []
  | min, max, atStart, c :: cs =>
    (min == 0 && k atStart (c :: cs)) ||
      (decide (max ≠ some 0) && p c &&
        matchRep p k (min - 1) (max.map (fun n => n - 1)) false cs)

/-- Whether the expression matches at the beginning of the characters `cs`. -/
def matchHere : Regexp → Bool → List Char → Bool
  | [], _, _ => true
  | Item.bol :: rest, atStart, cs => atStart && matchHere rest atStart cs
  | Item.eol :: rest, atStart, cs => cs.isEmpty && matchHere rest atStart cs
  | Item.cls _ :: _, _, [] => false
  | Item.cls p :: rest, _, c :: cs => p c && matchHere rest false cs
  | Item.rep p min max :: rest, atStart, cs => matchRep p (matchHere rest) min max atStart cs

/-- Whether the expression matches at some position of the characters `cs`. -/
def matchFrom (re : Regexp) : Bool → List Char → Bool
  | atStart, [] => matchHere re atStart []
  | atStart, c :: cs => matchHere re atStart (c :: cs) || matchFrom re false cs

/-- The method `MatchString`: whether the text contains a match of the expression. -/
def MatchString (re : Regexp) (s : String) : Bool :=
  matchFrom re true s.toList

end regexp

/-! ## Package `validation` of the plugin SDK -/

namespace validation

/-- The type `schema.SchemaValidateFunc` for a value that is a string: the errors for the
value `v` of the attribute `k` (the warnings are always empty). -/
abbrev SchemaValidateFunc := String → String → List String

/-- The function `validation.StringLenBetween`; `len(v)` counts the bytes of `v`. -/
def StringLenBetween (min max : Nat) : SchemaValidateFunc :=
  fun v k =>
    if v.utf8ByteSize < min || v.utf8ByteSize > max then
      ["expected length of " ++ k ++ " to be in the range (" ++ toString min ++ " - " ++
        toString max ++ "), got " ++ v]
    else []

/-- The function `validation.StringMatch` with a message that is not empty. -/
def StringMatch (r : regexp.Regexp) (message : String) : SchemaValidateFunc :=
  fun v k =>
    if !regexp.MatchString r v then ["invalid value for " ++ k ++ " (" ++ message ++ ")"]
    else []

/-- The function `validation.StringDoesNotMatch` with a message that is not empty. -/
def StringDoesNotMatch (r : regexp.Regexp) (message : String) : SchemaValidateFunc :=
  fun v k =>
    if regexp.MatchString r v then ["invalid value for " ++ k ++ " (" ++ message ++ ")"]
    else []

/-- The function `validation.All`: the errors of all the validators, in order. -/
def All (validators : List SchemaValidateFunc) : SchemaValidateFunc :=
  fun v k => validators.flatMap (fun validator => validator v k)

end validation

/-! ## The validators of the `name` of a Redshift parameter group and of the `type_name`
of the Cloud Control data source -/

namespace redshift

/-- The class `[0-9a-z-]`. -/
def lowerAlnumHyphen (c : Char) : Bool :=
  ('0' ≤ c && c ≤ '9') || ('a' ≤ c && c ≤ 'z') || c == '-'

/-- The class `[a-z]` under the flag `i`: the letters of both cases and the two other
characters that fold to one of them, U+017F (long s) and U+212A (Kelvin sign). -/
def letterFold (c : Char) : Bool :=
  ('a' ≤ c && c ≤ 'z') || ('A' ≤ c && c ≤ 'Z') || c == Char.ofNat 0x17F ||
    c == Char.ofNat 0x212A

/-- The literal `-`. -/
def hyphen (c : Char) : Bool :=
  c == '-'

/-- The `ValidateFunc` of the attribute `name` in `resourceAwsRedshiftParameterGroup`
(lines 40 to 46): the expressions are `^[0-9a-z-]+$`, `(?i)^[a-z]`, `--` and `-$`. -/
def nameValidateFunc : validation.SchemaValidateFunc :=
  validation.All [
    validation.StringLenBetween 1 255,
    validation.StringMatch
      [regexp.Item.bol, regexp.Item.rep lowerAlnumHyphen 1 none, regexp.Item.eol]
      "must contain only lowercase alphanumeric characters and hyphens",
    validation.StringMatch [regexp.Item.bol, regexp.Item.cls letterFold]
      "first character must be a letter",
    validation.StringDoesNotMatch [regexp.Item.cls hyphen, regexp.Item.cls hyphen]
      "cannot contain two consecutive hyphens",
    validation.StringDoesNotMatch [regexp.Item.cls hyphen, regexp.Item.eol]
      "cannot end with a hyphen"]

end redshift

namespace cloudcontrol

/-- The class `[A-Za-z0-9]`. -/
def alnum (c : Char) : Bool :=
  ('A' ≤ c && c ≤ 'Z') || ('a' ≤ c && c ≤ 'z') || ('0' ≤ c && c ≤ '9')

/-- The literal `:`. -/
def colon (c : Char) : Bool :=
  c == ':'

/-- The `ValidateFunc` of the attribute `type_name` in `DataSourceResource` (line 40):
the expression is `[A-Za-z0-9]{2,64}::[A-Za-z0-9]{2,64}::[A-Za-z0-9]{2,64}`. -/
def typeNameValidateFunc : validation.SchemaValidateFunc :=
  validation.StringMatch
    [regexp.Item.rep alnum 2 (some 64), regexp.Item.cls colon, regexp.Item.cls colon,
      regexp.Item.rep alnum 2 (some 64), regexp.Item.cls colon, regexp.Item.cls colon,
      regexp.Item.rep alnum 2 (some 64)]
    "must be three alphanumeric sections separated by double colons (::)"

end cloudcontrol

/-! ## `resource_aws_dynamodb_global_table_test.go`: the region check -/

/-- Go's `a < b` for lists of characters: the lexicographic order. -/
def lessChars : List Char → List Char → Bool
  | [], [] => false
  | [], _ :: _ => true
  | _ :: _, [] => false
  | a :: as, b :: bs => a.toNat < b.toNat || (a.toNat == b.toNat && lessChars as bs)

/-- Go's `a < b` for strings.  Go compares the bytes of the strings, which orders them
as their characters do. -/
def stringLess (a b : String) : Bool :=
  lessChars a.toList b.toList

namespace sort

/-- The loop of Go's `sort.Search`: the binary search between `i` and `j`.  The first
argument bounds the number of rounds; a bound of at least `j - i` is never used up. -/
def searchLoop (f : Nat → Bool) : Nat → Nat → Nat → Nat
  | 0, i, _ => i
  | rounds + 1, i, j =>
    if i < j then
      let h := (i + j) / 2
      if !f h then searchLoop f rounds (h + 1) j else searchLoop f rounds i h
    else i

/-- Go's `sort.Search(n, f)`. -/
def Search (n : Nat) (f : Nat → Bool) : Nat :=
  searchLoop f n 0 n

/-- Go's `sort.SearchStrings(a, x)`: `sort.Search(len(a), a[i] >= x)`. -/
def SearchStrings (a : List String) (x : String) : Nat :=
  Search a.length (fun i => !stringLess (a.getD i "") x)

end sort

namespace dynamodb

/-- What a run of a check of `*testing.T` ends with: the test goes on, the test is
skipped (`t.Skipf`), or the run panics. -/
inductive PreCheckResult where
  | proceed
  | skip (msg : String)
  | panic (msg : String)
  deriving DecidableEq, Repr

/-- The list `supportRegionsSort` of `testAccDynamoDBGlobalTablePreCheck`, with the
values of the constants of the SDK package `endpoints`. -/
def supportRegionsSort : List String :=
  ["ap-northeast-1", "ap-northeast-2", "ap-southeast-1", "ap-southeast-2",
    "eu-central-1", "eu-west-1", "eu-west-2", "us-east-1", "us-east-2", "us-west-1",
    "us-west-2"]

/-- The function `testAccDynamoDBGlobalTablePreCheck`; `region` is the result of
`acctest.Region()`.  An index outside the slice panics. -/
def testAccDynamoDBGlobalTablePreCheck (region : String) : PreCheckResult :=
  match supportRegionsSort[sort.SearchStrings supportRegionsSort region]? with
  | none => PreCheckResult.panic "runtime error: index out of range"
  | some supported =>
    if region != supported then
      PreCheckResult.skip
        ("skipping test; aws_dynamodb_global_table (DynamoDB v2017.11.29) not supported " ++
          "in region " ++ region)
    else PreCheckResult.proceed

end dynamodb

/-! ## `tags_gen.go`: the conversion from the tags of the service -/

namespace tftags

/-- Go's `m[k] = v` on a map: the entry of `k`, if there is one, is replaced. -/
def KeyValueTags.set (tags : KeyValueTags) (k v : String) : KeyValueTags :=
  ⟨tags.entries.filter (fun kv => kv.1 != k) ++ [(k, v)], by
    rw [List.map_append, List.nodup_append]
    refine ⟨tags.nodup.sublist ((List.filter_sublist _).map Prod.fst), by simp, ?_⟩
    intro a ha hb
    simp only [List.map_cons, List.map_nil, List.mem_singleton] at hb
    subst hb
    simp at ha⟩

end tftags

namespace xray

open tftags

/-- The function `KeyValueTags` of `tags_gen.go` (written with a small first letter
here: with the capital the name is the type of package `tftags`): the map `m` gets
`m[tag.Key] = tag.Value` for each tag, in order, and is handed to `tftags.New`. -/
def keyValueTags (tags : List Tag) : tftags.KeyValueTags :=
  New (tags.foldl (fun m tag => m.set tag.Key tag.Value) ⟨[], List.nodup_nil⟩)

end xray

/-! ## `resource_aws_redshift_parameter_group.go`: the hash of a parameter -/

namespace strings

/-- Go's `unicode.ToLower` for one character: a letter `A` to `Z` becomes `a` to `z`,
another character of ASCII stays, and a character outside ASCII is mapped by the case
tables of Unicode, which are given as `table`. -/
def toLowerRune (table : Char → Char) (c : Char) : Char :=
  if c.toNat ≤ 127 then
    if 'A'.toNat ≤ c.toNat ∧ c.toNat ≤ 'Z'.toNat then Char.ofNat (c.toNat + 32) else c
  else table c

/-- Go's `strings.ToLower`: every character is mapped by `unicode.ToLower`. -/
def ToLower (table : Char → Char) (s : String) : String :=
  String.mk (s.toList.map (toLowerRune table))

end strings

namespace redshift

/-- An element of the set `parameter`: the map with the keys `name` and `value`. -/
structure ParameterMap where
  name : String
  value : String
  deriving DecidableEq, Repr

/-- The content of the buffer `buf` of `resourceAwsRedshiftParameterHash` when it is
handed to `hashcode.String`: the name and a hyphen, then the value in lower case and a
hyphen. -/
def resourceAwsRedshiftParameterHashString (table : Char → Char) (m : ParameterMap) : String :=
  let buf := ""
  let buf := buf ++ (m.name ++ "-")
  let buf := buf ++ (strings.ToLower table m.value ++ "-")
  buf

/-- The function `resourceAwsRedshiftParameterHash`.  The function `hashcode.String` of
package `aws/internal/hashcode` is not among the sources: it is given as `hashcode`. -/
def resourceAwsRedshiftParameterHash (hashcode : String → Int) (table : Char → Char)
    (m : ParameterMap) : Int :=
  hashcode (resourceAwsRedshiftParameterHashString table m)

end redshift

/-! ## `resource_aws_dynamodb_global_table_test.go`: the destroy check -/

namespace dynamodb

/-- The SDK constant `dynamodb.ErrCodeGlobalTableNotFoundException`. -/
def ErrCodeGlobalTableNotFoundException : String := "GlobalTableNotFoundException"

/-- A resource of the state, `*terraform.ResourceState`, as far as the check reads it:
its type and the ID of its primary instance. -/
structure ResourceState where
  type : String
  id : String
  deriving DecidableEq, Repr

/-- The function `testAccCheckAwsDynamoDbGlobalTableDestroy`.  `resources` are the
resources of the root module in the order in which the loop visits them (the order of
a Go map is not fixed); `DescribeGlobalTable` is the error of the call for a table name,
`none` when the table is described. -/
def testAccCheckAwsDynamoDbGlobalTableDestroy (DescribeGlobalTable : String → Option AwsErr) :
    List ResourceState → Option GoError
  | [] => none
  | rs :: rest =>
    if rs.type != "aws_dynamodb_global_table" then
      testAccCheckAwsDynamoDbGlobalTableDestroy DescribeGlobalTable rest
    else
      match (DescribeGlobalTable rs.id).map AwsErr.toError with
      | some err =>
        if tfawserr.ErrMessageContains (some err) ErrCodeGlobalTableNotFoundException "" then
          none
        else some err
      | none =>
        some (GoError.message
          ("Expected DynamoDB Global Table to be destroyed, " ++ rs.id ++ " found"))

end dynamodb

/-! ## `data_source_aws_ec2_transit_gateway_route_table.go` -/

/-- The function `aws.StringValue`: the string a pointer points to, the empty string for
`nil`. -/
def StringValue (p : Option String) : String :=
  p.getD ""

/-- The method `String` of the SDK type `arn.ARN`. -/
def arnString (Partition Service Region AccountID Resource : String) : String :=
  "arn:" ++ Partition ++ ":" ++ Service ++ ":" ++ Region ++ ":" ++ AccountID ++ ":" ++
    Resource

namespace ec2

/-- The SDK constant `ec2.ServiceName`. -/
def ServiceName : String := "ec2"

/-- The SDK type `ec2.Filter`. -/
structure Filter where
  Name : String
  Values : List String
  deriving DecidableEq, Repr

/-- The SDK type `ec2.TransitGatewayRouteTable`, as far as the data source reads it. -/
structure TransitGatewayRouteTable where
  DefaultAssociationRouteTable : Option Bool
  DefaultPropagationRouteTable : Option Bool
  Tags : List (String × String)
  TransitGatewayId : Option String
  TransitGatewayRouteTableId : Option String
  deriving DecidableEq, Repr

/-- The SDK type `ec2.DescribeTransitGatewayRouteTablesInput`. -/
structure DescribeTransitGatewayRouteTablesInput where
  Filters : List Filter
  TransitGatewayRouteTableIds : List String
  deriving DecidableEq, Repr

/-- The SDK type `ec2.DescribeTransitGatewayRouteTablesOutput`: a slice of pointers,
each of which may be `nil`. -/
structure DescribeTransitGatewayRouteTablesOutput where
  TransitGatewayRouteTables : List (Option TransitGatewayRouteTable)
  deriving DecidableEq, Repr

/-- The `*schema.ResourceData` of the data source: its ID, the arguments `filter` and
`id` of the configuration, and the computed attributes. -/
structure ResourceData where
  id : String
  filterArg : List Filter
  idArg : String
  arn : String
  default_association_route_table : Option Bool
  default_propagation_route_table : Option Bool
  transit_gateway_id : Option String
  tags : List (String × String)
  deriving DecidableEq, Repr

/-- The `meta` of the data source: the answer of the connection to
`DescribeTransitGatewayRouteTables` (an output that may be `nil`, an error that may be
`nil`), the partition, region and account of the client, and the functions that are not
among the sources: `buildAwsDataSourceFilters`, the chain
`keyvaluetags.Ec2KeyValueTags(...).IgnoreAws().IgnoreConfig(...).Map()` as `tagsMap`,
and the error of `d.Set("tags", ...)` as `setTags`. -/
structure AWSClient where
  DescribeTransitGatewayRouteTables :
    DescribeTransitGatewayRouteTablesInput →
      Option DescribeTransitGatewayRouteTablesOutput × Option AwsErr
  Partition : String
  Region : String
  AccountID : String
  buildAwsDataSourceFilters : List Filter → List Filter
  tagsMap : List (String × String) → List (String × String)
  setTags : List (String × String) → Option GoError

/-- The outcome of the read: the resource data it leaves and the error it returns. -/
structure Run where
  d : ResourceData
  err : Option GoError
  deriving DecidableEq, Repr

/-- The input that `dataSourceTransitGatewayRouteTableRead` builds (lines 52 to 60);
`d.GetOk` is `ok` for a value that is not the zero value. -/
def describeInput (m : AWSClient) (d : ResourceData) :
    DescribeTransitGatewayRouteTablesInput :=
  { Filters := if d.filterArg ≠ [] then m.buildAwsDataSourceFilters d.filterArg else [],
    TransitGatewayRouteTableIds := if d.idArg ≠ "" then [d.idArg] else [] }

/-- The function `dataSourceTransitGatewayRouteTableRead`. -/
def dataSourceTransitGatewayRouteTableRead (m : AWSClient) (d : ResourceData) : Run :=
  let input := describeInput m d
  let (output, err) := m.DescribeTransitGatewayRouteTables input
  match err with
  | some e =>
    { d := d,
      err := some (GoError.wrapped
        ("error reading EC2 Transit Gateway Route Table: " ++ e.toError.Error) e.toError) }
  | none =>
    match output with
    | none =>
      { d := d,
        err := some (GoError.message
          "error reading EC2 Transit Gateway Route Table: no results found") }
    | some out =>
      if out.TransitGatewayRouteTables.length = 0 then
        { d := d,
          err := some (GoError.message
            "error reading EC2 Transit Gateway Route Table: no results found") }
      else if out.TransitGatewayRouteTables.length > 1 then
        { d := d,
          err := some (GoError.message
            ("error reading EC2 Transit Gateway Route Table: multiple results found, " ++
              "try adjusting search criteria")) }
      else
        match out.TransitGatewayRouteTables.head? with
        | none =>
          { d := d, err := some (GoError.message "runtime error: index out of range") }
        | some none =>
          { d := d,
            err := some (GoError.message
              "error reading EC2 Transit Gateway Route Table: empty result") }
        | some (some transitGatewayRouteTable) =>
          let d1 := { d with
            default_association_route_table :=
              transitGatewayRouteTable.DefaultAssociationRouteTable,
            default_propagation_route_table :=
              transitGatewayRouteTable.DefaultPropagationRouteTable }
          match m.setTags (m.tagsMap transitGatewayRouteTable.Tags) with
          | some e =>
            { d := d1,
              err := some (GoError.wrapped ("error setting tags: " ++ e.Error) e) }
          | none =>
            let d2 := { d1 with
              tags := m.tagsMap transitGatewayRouteTable.Tags,
              transit_gateway_id := transitGatewayRouteTable.TransitGatewayId }
            let d3 := { d2 with
              id := StringValue transitGatewayRouteTable.TransitGatewayRouteTableId }
            let arn := arnString m.Partition ServiceName m.Region m.AccountID
              ("transit-gateway-route-table/" ++ d3.id)
            { d := { d3 with arn := arn }, err := none }

end ec2

/-! ## Package `schema` of the plugin SDK: sets -/

namespace schema

/-- The key of an element in a `*schema.Set` with the hash function `F`: the code of the
element, without its sign. -/
def hashKey {α : Type} (F : α → Int) (item : α) : Nat :=
  (F item).natAbs

/-- The method `Contains` of `*schema.Set`: the set, given by its elements, has an
element with the key of `item`. -/
def Set.Contains {α : Type} (F : α → Int) (s : List α) (item : α) : Bool :=
  s.any (fun q => hashKey F q == hashKey F item)

/-- The method `Difference` of `*schema.Set` followed by `List`: the elements of `s`
whose key is not a key of `other`. -/
def Set.Difference {α : Type} (F : α → Int) (s other : List α) : List α :=
  s.filter (fun p => !Set.Contains F other p)

/-- The method `Equal` of `*schema.Set`: the two sets have the same elements. -/
def Set.Equal {α : Type} [DecidableEq α] (s other : List α) : Bool :=
  s.all (fun p => decide (p ∈ other)) && other.all (fun q => decide (q ∈ s))

end schema

/-! ## `resource_aws_redshift_parameter_group.go`: read and update -/

namespace redshift

/-- The SDK type `redshift.Parameter`, as far as the resource uses it. -/
structure Parameter where
  ParameterName : Option String
  ParameterValue : Option String
  deriving DecidableEq, Repr

/-- The SDK type `redshift.ClusterParameterGroup`. -/
structure ClusterParameterGroup where
  ParameterGroupName : Option String
  ParameterGroupFamily : Option String
  Description : Option String
  Tags : List (String × String)
  deriving DecidableEq, Repr

/-- The SDK type `redshift.DescribeClusterParameterGroupsInput`. -/
structure DescribeClusterParameterGroupsInput where
  ParameterGroupName : String
  deriving DecidableEq, Repr

/-- The SDK type `redshift.DescribeClusterParameterGroupsOutput`. -/
structure DescribeClusterParameterGroupsOutput where
  ParameterGroups : List ClusterParameterGroup
  deriving DecidableEq, Repr

/-- The SDK type `redshift.DescribeClusterParametersInput`. -/
structure DescribeClusterParametersInput where
  ParameterGroupName : String
  Source : String
  deriving DecidableEq, Repr

/-- The SDK type `redshift.DescribeClusterParametersOutput`. -/
structure DescribeClusterParametersOutput where
  Parameters : List Parameter
  deriving DecidableEq, Repr

/-- The SDK type `redshift.ModifyClusterParameterGroupInput`. -/
structure ModifyClusterParameterGroupInput where
  ParameterGroupName : String
  Parameters : List Parameter
  deriving DecidableEq, Repr

/-- The `*schema.ResourceData` of the resource: its ID, its attributes, and for an
update the old and the new value of `parameter` (each may be `nil`) and of `tags_all`,
as `d.GetChange` returns them. -/
structure ResourceData where
  id : String
  arn : String
  name : String
  family : String
  description : String
  tags : List (String × String)
  tags_all : List (String × String)
  parameter : List ParameterMap
  parameterChange : Option (List ParameterMap) × Option (List ParameterMap)
  tagsAllChange : List (String × String) × List (String × String)
  deriving DecidableEq, Repr

namespace ResourceData

/-- The method `d.Id()`. -/
def Id (d : ResourceData) : String := d.id

/-- The method `d.SetId(v)`. -/
def SetId (d : ResourceData) (v : String) : ResourceData := { d with id := v }

/-- The call `d.HasChange("parameter")`: the old and the new set are not equal. -/
def HasChangeParameter (d : ResourceData) : Bool :=
  match d.parameterChange with
  | (some o, some n) => !schema.Set.Equal o n
  | (none, none) => false
  | (some _, none) => true
  | (none, some _) => true

/-- The call `d.HasChange("tags_all")`: the old and the new map are not equal. -/
def HasChangeTagsAll (d : ResourceData) : Bool :=
  decide (d.tagsAllChange.1 ≠ d.tagsAllChange.2)

end ResourceData

/-- The `meta` of read and update.  The connection answers `DescribeClusterParameterGroups`
and `DescribeClusterParameters` with an output or an error (an output of the SDK is not
`nil` when the error is `nil`) and `ModifyClusterParameterGroup` with an error that may
be `nil`.  The other fields are what is not among the sources: the chain
`keyvaluetags.RedshiftKeyValueTags(...).IgnoreAws().IgnoreConfig(...)` as `tagsOf`,
`RemoveDefaultConfig(...).Map()` as `removeDefaultConfig`, the errors of the two
`d.Set` of tags, `flattenRedshiftParameters`, `expandRedshiftParameters`,
`keyvaluetags.RedshiftUpdateTags`, `hashcode.String`, the case tables of Unicode and
the text that `%#v` gives for the parameter groups. -/
structure AWSClient where
  DescribeClusterParameterGroups :
    DescribeClusterParameterGroupsInput → Except AwsErr DescribeClusterParameterGroupsOutput
  DescribeClusterParameters :
    DescribeClusterParametersInput → Except AwsErr DescribeClusterParametersOutput
  ModifyClusterParameterGroup : ModifyClusterParameterGroupInput → Option AwsErr
  Partition : String
  Region : String
  AccountID : String
  tagsOf : List (String × String) → List (String × String)
  removeDefaultConfig : List (String × String) → List (String × String)
  setTags : List (String × String) → Option GoError
  setTagsAll : List (String × String) → Option GoError
  flattenRedshiftParameters : List Parameter → List ParameterMap
  expandRedshiftParameters : List ParameterMap → List Parameter
  RedshiftUpdateTags :
    String → List (String × String) → List (String × String) → Option GoError
  hashcode : String → Int
  table : Char → Char
  goSyntax : List ClusterParameterGroup → String

/-- A remote operation started by read or update. -/
inductive Call where
  | describeGroups (input : DescribeClusterParameterGroupsInput)
  | describeParameters (input : DescribeClusterParametersInput)
  | modify (input : ModifyClusterParameterGroupInput)
  | updateTags (identifier : String)
  deriving DecidableEq, Repr

/-- Whether a call is a `ModifyClusterParameterGroup` call. -/
def Call.isModify : Call → Bool
  | Call.modify _ => true
  | _ => false

/-- The outcome of a callback: the resource data it leaves, the remote operations it
started, in order, and the error it returns (`none` for `nil`). -/
structure Run where
  d : ResourceData
  calls : List Call
  err : Option GoError
  deriving DecidableEq, Repr

/-- The function `resourceAwsRedshiftParameterGroupRead`. -/
def resourceAwsRedshiftParameterGroupRead (m : AWSClient) (d : ResourceData) : Run :=
  let describeOpts : DescribeClusterParameterGroupsInput := { ParameterGroupName := d.Id }
  match m.DescribeClusterParameterGroups describeOpts with
  | Except.error err =>
    { d := d, calls := [Call.describeGroups describeOpts], err := some err.toError }
  | Except.ok describeResp =>
    if describeResp.ParameterGroups.length != 1 ||
        StringValue (describeResp.ParameterGroups.head?.bind
          (fun g => g.ParameterGroupName)) != d.Id then
      { d := d.SetId "", calls := [Call.describeGroups describeOpts],
        err := some (GoError.message
          ("Unable to find Parameter Group: " ++ m.goSyntax describeResp.ParameterGroups)) }
    else
      match describeResp.ParameterGroups.head? with
      | none =>
        { d := d, calls := [Call.describeGroups describeOpts],
          err := some (GoError.message "runtime error: index out of range") }
      | some group =>
        let arn := arnString m.Partition "redshift" m.Region m.AccountID
          ("parametergroup:" ++ d.Id)
        let d1 := { d with
          arn := arn,
          name := StringValue group.ParameterGroupName,
          family := StringValue group.ParameterGroupFamily,
          description := StringValue group.Description }
        let tags := m.tagsOf group.Tags
        match m.setTags (m.removeDefaultConfig tags) with
        | some e =>
          { d := d1, calls := [Call.describeGroups describeOpts],
            err := some (GoError.wrapped ("error setting tags: " ++ e.Error) e) }
        | none =>
          let d2 := { d1 with tags := m.removeDefaultConfig tags }
          match m.setTagsAll tags with
          | some e =>
            { d := d2, calls := [Call.describeGroups describeOpts],
              err := some (GoError.wrapped ("error setting tags_all: " ++ e.Error) e) }
          | none =>
            let d3 := { d2 with tags_all := tags }
            let describeParametersOpts : DescribeClusterParametersInput :=
              { ParameterGroupName := d.Id, Source := "user" }
            let calls :=
              [Call.describeGroups describeOpts, Call.describeParameters describeParametersOpts]
            match m.DescribeClusterParameters describeParametersOpts with
            | Except.error err => { d := d3, calls := calls, err := some err.toError }
            | Except.ok describeParametersResp =>
              { d := { d3 with
                  parameter := m.flattenRedshiftParameters describeParametersResp.Parameters },
                calls := calls, err := none }

/-- The function `resourceAwsRedshiftParameterGroupUpdate`. -/
def resourceAwsRedshiftParameterGroupUpdate (m : AWSClient) (d : ResourceData) : Run :=
  -- the block `if d.HasChange("parameter")`: its calls and the error it returns with
  let parameterBlock : List Call × Option GoError :=
    if d.HasChangeParameter then
      let (o, n) := d.parameterChange
      let os := o.getD []
      let ns := n.getD []
      let parameters := m.expandRedshiftParameters
        (schema.Set.Difference (resourceAwsRedshiftParameterHash m.hashcode m.table) ns os)
      if parameters.length > 0 then
        let modifyOpts : ModifyClusterParameterGroupInput :=
          { ParameterGroupName := d.name, Parameters := parameters }
        match m.ModifyClusterParameterGroup modifyOpts with
        | some err =>
          ([Call.modify modifyOpts],
            some (GoError.message
              ("Error modifying Redshift Parameter Group: " ++ err.toError.Error)))
        | none => ([Call.modify modifyOpts], none)
      else ([], none)
    else ([], none)
  match parameterBlock with
  | (calls, some err) => { d := d, calls := calls, err := some err }
  | (calls, none) =>
    -- the block `if d.HasChange("tags_all")`
    let tagsBlock : List Call × Option GoError :=
      if d.HasChangeTagsAll then
        let (o, n) := d.tagsAllChange
        match m.RedshiftUpdateTags d.arn o n with
        | some err =>
          ([Call.updateTags d.arn],
            some (GoError.message
              ("error updating Redshift Parameter Group (" ++ d.arn ++ ") tags: " ++
                err.Error)))
        | none => ([Call.updateTags d.arn], none)
      else ([], none)
    match tagsBlock with
    | (calls', some err) => { d := d, calls := calls ++ calls', err := some err }
    | (calls', none) =>
      let r := resourceAwsRedshiftParameterGroupRead m d
      { r with calls := calls ++ calls' ++ r.calls }

end redshift

/-! ## Facts about the tag sets -/

namespace tftags

theorem lookup_eq_some_iff_mem (l : List (String × String)) (h : (l.map Prod.fst).Nodup)
    (k v : String) : l.lookup k = some v ↔ (k, v) ∈ l := by
  induction l with
  | nil => simp
  | cons p l ih =>
    obtain ⟨k', v'⟩ := p
    simp only [List.map_cons, List.nodup_cons, List.mem_map, Prod.exists, exists_and_right,
      exists_eq_right, not_exists] at h
    by_cases hk : k = k'
    · subst hk
      simp only [List.lookup_cons_self, Option.some.injEq, List.mem_cons, Prod.mk.injEq,
        true_and]
      constructor
      · intro e; exact Or.inl e.symm
      · rintro (e | e)
        · exact e.symm
        · exact absurd e (h.1 v)
    · have hb : (k == k') = false := by simpa using hk
      simp [List.lookup_cons, hb, ih h.2, hk]

theorem lookup_eq_none_iff_not_mem (l : List (String × String)) (k : String) :
    l.lookup k = none ↔ ∀ v, (k, v) ∉ l := by
  rw [List.lookup_eq_none_iff]
  constructor
  · intro h v hv
    simpa using h _ hv
  · rintro h ⟨k', v'⟩ hp
    simp only [bne_iff_ne, ne_eq]
    rintro rfl
    exact h _ hp

namespace KeyValueTags

theorem get_eq_some_iff (tags : KeyValueTags) (k v : String) :
    tags.get k = some v ↔ (k, v) ∈ tags.entries :=
  lookup_eq_some_iff_mem tags.entries tags.nodup k v

theorem get_eq_none_iff (tags : KeyValueTags) (k : String) :
    tags.get k = none ↔ ∀ v, (k, v) ∉ tags.entries :=
  lookup_eq_none_iff_not_mem tags.entries k

theorem mem_Removed (tags newTags : KeyValueTags) (k v : String) :
    (k, v) ∈ (tags.Removed newTags).entries ↔ tags.get k = some v ∧ newTags.get k = none := by
  simp [Removed, get_eq_some_iff]

theorem mem_Updated (tags newTags : KeyValueTags) (k v : String) :
    (k, v) ∈ (tags.Updated newTags).entries ↔
      newTags.get k = some v ∧ tags.get k ≠ some v := by
  simp [Updated, get_eq_some_iff]

theorem mem_IgnoreAWS (tags : KeyValueTags) (k v : String) :
    (k, v) ∈ tags.IgnoreAWS.entries ↔
      tags.get k = some v ∧ HasPrefix k AwsTagKeyPrefix = false := by
  simp [IgnoreAWS, get_eq_some_iff]

theorem get_IgnoreAWS (tags : KeyValueTags) (k : String) :
    tags.IgnoreAWS.get k = if HasPrefix k AwsTagKeyPrefix then none else tags.get k := by
  cases hg : tags.get k with
  | none =>
    have : tags.IgnoreAWS.get k = none := by
      rw [get_eq_none_iff] at hg ⊢
      intro v hv
      exact hg v (((mem_IgnoreAWS tags k v).1 hv).1 |> (get_eq_some_iff tags k v).1)
    simp [this]
  | some v =>
    by_cases hp : HasPrefix k AwsTagKeyPrefix = true
    · have : tags.IgnoreAWS.get k = none := by
        rw [get_eq_none_iff]
        intro w hw
        have := ((mem_IgnoreAWS tags k w).1 hw).2
        simp [hp] at this
      simp [this, hp]
    · have hp' : HasPrefix k AwsTagKeyPrefix = false := by simpa using hp
      have : tags.IgnoreAWS.get k = some v :=
        (get_eq_some_iff _ k v).2 ((mem_IgnoreAWS tags k v).2 ⟨hg, hp'⟩)
      simp [this, hp']

end KeyValueTags

end tftags

/-! ## The runs of `UpdateTags` -/

namespace xray

open tftags

/-- Every run of `UpdateTags` is one of seven: which of the two guards hold and what
the remote calls answer. -/
theorem UpdateTags_cases (conn : XRay) (identifier : String) (old new : KeyValueTags) :
    ((old.Removed new).len = 0 ∧ (old.Updated new).len = 0 ∧
        UpdateTags conn identifier old new = ([], none)) ∨
    ((old.Removed new).len = 0 ∧ 0 < (old.Updated new).len ∧
        conn.TagResource ⟨identifier, Tags (old.Updated new).IgnoreAWS⟩ = none ∧
        UpdateTags conn identifier old new =
          ([Call.tag ⟨identifier, Tags (old.Updated new).IgnoreAWS⟩], none)) ∨
    ((old.Removed new).len = 0 ∧ 0 < (old.Updated new).len ∧
        ∃ err, conn.TagResource ⟨identifier, Tags (old.Updated new).IgnoreAWS⟩ = some err ∧
        UpdateTags conn identifier old new =
          ([Call.tag ⟨identifier, Tags (old.Updated new).IgnoreAWS⟩],
            some (Errorf "error tagging resource " identifier err))) ∨
    (0 < (old.Removed new).len ∧
        ∃ err, conn.UntagResource ⟨identifier, (old.Removed new).IgnoreAWS.Keys⟩ = some err ∧
        UpdateTags conn identifier old new =
          ([Call.untag ⟨identifier, (old.Removed new).IgnoreAWS.Keys⟩],
            some (Errorf "error untagging resource " identifier err))) ∨
    (0 < (old.Removed new).len ∧
        conn.UntagResource ⟨identifier, (old.Removed new).IgnoreAWS.Keys⟩ = none ∧
        (old.Updated new).len = 0 ∧
        UpdateTags conn identifier old new =
          ([Call.untag ⟨identifier, (old.Removed new).IgnoreAWS.Keys⟩], none)) ∨
    (0 < (old.Removed new).len ∧
        conn.UntagResource ⟨identifier, (old.Removed new).IgnoreAWS.Keys⟩ = none ∧
        0 < (old.Updated new).len ∧
        conn.TagResource ⟨identifier, Tags (old.Updated new).IgnoreAWS⟩ = none ∧
        UpdateTags conn identifier old new =
          ([Call.untag ⟨identifier, (old.Removed new).IgnoreAWS.Keys⟩,
            Call.tag ⟨identifier, Tags (old.Updated new).IgnoreAWS⟩], none)) ∨
    (0 < (old.Removed new).len ∧
        conn.UntagResource ⟨identifier, (old.Removed new).IgnoreAWS.Keys⟩ = none ∧
        0 < (old.Updated new).len ∧
        ∃ err, conn.TagResource ⟨identifier, Tags (old.Updated new).IgnoreAWS⟩ = some err ∧
        UpdateTags conn identifier old new =
          ([Call.untag ⟨identifier, (old.Removed new).IgnoreAWS.Keys⟩,
            Call.tag ⟨identifier, Tags (old.Updated new).IgnoreAWS⟩],
            some (Errorf "error tagging resource " identifier err))) := by
  unfold UpdateTags
  simp only [New]
  by_cases hr : 0 < (old.Removed new).len
  · cases hu : conn.UntagResource ⟨identifier, (old.Removed new).IgnoreAWS.Keys⟩ with
    | some err => simp [hr, hu]
    | none =>
      by_cases hc : 0 < (old.Updated new).len
      · cases ht : conn.TagResource ⟨identifier, Tags (old.Updated new).IgnoreAWS⟩ with
        | some err => simp [hr, hu, hc, ht]
        | none => simp [hr, hu, hc, ht]
      · have hc0 : (old.Updated new).len = 0 := by omega
        simp [hr, hu, hc0]
  · have hr0 : (old.Removed new).len = 0 := by omega
    by_cases hc : 0 < (old.Updated new).len
    · cases ht : conn.TagResource ⟨identifier, Tags (old.Updated new).IgnoreAWS⟩ with
      | some err => simp [hr0, hc, ht]
      | none => simp [hr0, hc, ht]
    · have hc0 : (old.Updated new).len = 0 := by omega
      simp [hr0, hc0]

/-- Nothing was removed from a tag set that is compared with itself. -/
theorem Removed_self (tags : KeyValueTags) : (tags.Removed tags).len = 0 := by
  have h : (tags.Removed tags).entries = [] := by
    apply List.eq_nil_iff_forall_not_mem.2
    rintro ⟨k, v⟩ hm
    have := (KeyValueTags.mem_Removed tags tags k v).1 hm
    rw [this.1] at this
    simp at this
  simp [KeyValueTags.len, h]

/-- Nothing was added to or changed in a tag set that is compared with itself. -/
theorem Updated_self (tags : KeyValueTags) : (tags.Updated tags).len = 0 := by
  have h : (tags.Updated tags).entries = [] := by
    apply List.eq_nil_iff_forall_not_mem.2
    rintro ⟨k, v⟩ hm
    have := (KeyValueTags.mem_Updated tags tags k v).1 hm
    exact this.2 this.1
  simp [KeyValueTags.len, h]

/-- C3: for every tag set `old`, every connection and every identifier, `UpdateTags`
called with `old` as both the old and the new tags issues no call at all (neither an
untag call nor a tag call) and returns `nil`. -/
theorem UpdateTags_same_tags (conn : XRay) (identifier : String) (old : KeyValueTags) :
    UpdateTags conn identifier old old = ([], none) := by
  have hr := Removed_self old
  have hu := Updated_self old
  rcases UpdateTags_cases conn identifier old old with
    h | h | h | h | h | h | h
  · exact h.2.2
  · omega
  · omega
  · omega
  · omega
  · omega
  · omega

/-- C6: for all tag sets `old` and `new`, a run of `UpdateTags` issues at most one untag
call and at most one tag call, and no tag call comes before an untag call in the
sequence of the calls issued. -/
theorem UpdateTags_call_order (conn : XRay) (identifier : String) (old new : KeyValueTags) :
    (UpdateTags conn identifier old new).1.countP Call.isUntag ≤ 1 ∧
    (UpdateTags conn identifier old new).1.countP Call.isTag ≤ 1 ∧
    (UpdateTags conn identifier old new).1.Pairwise
      (fun first later => ¬ (first.isTag = true ∧ later.isUntag = true)) := by
  rcases UpdateTags_cases conn identifier old new with
    h | h | h | h | h | h | h
  · simp [h.2.2]
  · simp [h.2.2.2, Call.isTag, Call.isUntag]
  · obtain ⟨_, _, err, _, h⟩ := h
    simp [h, Call.isTag, Call.isUntag]
  · obtain ⟨_, err, _, h⟩ := h
    simp [h, Call.isTag, Call.isUntag]
  · simp [h.2.2.2, Call.isTag, Call.isUntag]
  · simp [h.2.2.2.2, Call.isTag, Call.isUntag]
  · obtain ⟨_, _, _, err, _, h⟩ := h
    simp [h, Call.isTag, Call.isUntag]

/-- C7: for all tag sets `old` and `new`, if `UpdateTags` issues an untag call and the
call fails with `err`, then `UpdateTags` returns the error that wraps `err`, the untag
call is the only call issued, and so no tag call is issued, whatever tags were added or
changed. -/
theorem UpdateTags_untag_error (conn : XRay) (identifier : String) (old new : KeyValueTags)
    (input : UntagResourceInput) (err : GoError)
    (hcall : Call.untag input ∈ (UpdateTags conn identifier old new).1)
    (herr : conn.UntagResource input = some err) :
    UpdateTags conn identifier old new =
      ([Call.untag input], some (Errorf "error untagging resource " identifier err)) ∧
    ∀ t, Call.tag t ∉ (UpdateTags conn identifier old new).1 := by
  rcases UpdateTags_cases conn identifier old new with
    h | h | h | h | h | h | h
  · simp [h.2.2] at hcall
  · simp [h.2.2.2] at hcall
  · obtain ⟨_, _, e, _, h⟩ := h
    simp [h] at hcall
  · obtain ⟨_, e, he, h⟩ := h
    rw [h] at hcall
    simp only [List.mem_singleton, Call.untag.injEq] at hcall
    subst hcall
    rw [he] at herr
    cases herr
    simp [h]
  · obtain ⟨_, he, _, h⟩ := h
    rw [h] at hcall
    simp only [List.mem_singleton, Call.untag.injEq] at hcall
    subst hcall
    rw [he] at herr
    cases herr
  · obtain ⟨_, he, _, _, h⟩ := h
    rw [h] at hcall
    simp only [List.mem_cons, Call.untag.injEq, List.mem_singleton, reduceCtorEq,
      List.not_mem_nil, or_false] at hcall
    subst hcall
    rw [he] at herr
    cases herr
  · obtain ⟨_, he, _, e, _, h⟩ := h
    rw [h] at hcall
    simp only [List.mem_cons, Call.untag.injEq, List.mem_singleton, reduceCtorEq,
      List.not_mem_nil, or_false] at hcall
    subst hcall
    rw [he] at herr
    cases herr

/-- The witness of C7: the example scenario of the spec with an untag call that is
answered with an error; there are changed and added tags, and no tag call is issued. -/
theorem UpdateTags_untag_error_witness :
    Call.untag ⟨"arn", ["temp"]⟩ ∈
      (UpdateTags ⟨fun _ => some (GoError.message "throttled"), fun _ => none⟩ "arn"
        ⟨[("env", "prod"), ("temp", "x")], by decide⟩
        ⟨[("env", "staging"), ("owner", "alice")], by decide⟩).1 ∧
    XRay.UntagResource ⟨fun _ => some (GoError.message "throttled"), fun _ => none⟩
      ⟨"arn", ["temp"]⟩ = some (GoError.message "throttled") ∧
    (UpdateTags ⟨fun _ => some (GoError.message "throttled"), fun _ => none⟩ "arn"
        ⟨[("env", "prod"), ("temp", "x")], by decide⟩
        ⟨[("env", "staging"), ("owner", "alice")], by decide⟩ =
      ([Call.untag ⟨"arn", ["temp"]⟩],
        some (Errorf "error untagging resource " "arn" (GoError.message "throttled"))) ∧
    ∀ t, Call.tag t ∉
      (UpdateTags ⟨fun _ => some (GoError.message "throttled"), fun _ => none⟩ "arn"
        ⟨[("env", "prod"), ("temp", "x")], by decide⟩
        ⟨[("env", "staging"), ("owner", "alice")], by decide⟩).1) :=
  ⟨by decide, rfl,
    UpdateTags_untag_error ⟨fun _ => some (GoError.message "throttled"), fun _ => none⟩ "arn"
      ⟨[("env", "prod"), ("temp", "x")], by decide⟩
      ⟨[("env", "staging"), ("owner", "alice")], by decide⟩
      ⟨"arn", ["temp"]⟩ (GoError.message "throttled") (by decide) rfl⟩

/-- C9: for all tag sets `old` and `new` and all outcomes of the remote calls,
`UpdateTags` returns `nil` exactly when every call it issued succeeded; an error it
returns wraps the error of a call it issued, and its message holds the resource
identifier in parentheses followed by the message of that error. -/
theorem UpdateTags_error_iff (conn : XRay) (identifier : String) (old new : KeyValueTags) :
    ((UpdateTags conn identifier old new).2 = none ↔
      ∀ c ∈ (UpdateTags conn identifier old new).1, outcome conn c = none) ∧
    ∀ e, (UpdateTags conn identifier old new).2 = some e →
      ∃ c ∈ (UpdateTags conn identifier old new).1, ∃ cause,
        outcome conn c = some cause ∧ e.Unwrap = some cause ∧
        ∃ pre, e.Error = pre ++ "(" ++ identifier ++ "): " ++ cause.Error := by
  rcases UpdateTags_cases conn identifier old new with
    h | h | h | h | h | h | h
  · simp [h.2.2]
  · obtain ⟨_, _, ht, h⟩ := h
    simp [h, outcome, ht]
  · obtain ⟨_, _, err, ht, h⟩ := h
    simp only [h, List.mem_singleton, forall_eq, outcome, ht, reduceCtorEq, Option.some.injEq,
      exists_eq_left, false_iff, not_false_eq_true, true_and]
    rintro e rfl
    exact ⟨err, rfl, rfl, "error tagging resource ", rfl⟩
  · obtain ⟨_, err, ht, h⟩ := h
    simp only [h, List.mem_singleton, forall_eq, outcome, ht, reduceCtorEq, Option.some.injEq,
      exists_eq_left, false_iff, not_false_eq_true, true_and]
    rintro e rfl
    exact ⟨err, rfl, rfl, "error untagging resource ", rfl⟩
  · obtain ⟨_, hu, _, h⟩ := h
    simp [h, outcome, hu]
  · obtain ⟨_, hu, _, ht, h⟩ := h
    simp [h, outcome, hu, ht]
  · obtain ⟨_, hu, _, err, ht, h⟩ := h
    simp only [h, List.mem_cons, List.mem_singleton, forall_eq_or_imp, outcome, hu, forall_eq,
      ht, reduceCtorEq, and_false, false_iff, not_false_eq_true, true_and, List.not_mem_nil,
      or_false, Option.some.injEq, exists_eq_or_imp, false_and, exists_false, exists_eq_left,
      false_or, IsEmpty.forall_iff, implies_true]
    rintro e rfl
    exact ⟨err, rfl, rfl, "error tagging resource ", rfl⟩

end xray

/-! ## The content of the requests -/

namespace xray

open tftags

/-- An untag call of a run carries the identifier and the keys of the removed tags
that are left by `IgnoreAWS`. -/
theorem eq_of_untag_mem (conn : XRay) (identifier : String) (old new : KeyValueTags)
    (u : UntagResourceInput) (h : Call.untag u ∈ (UpdateTags conn identifier old new).1) :
    u = ⟨identifier, (old.Removed new).IgnoreAWS.Keys⟩ := by
  rcases UpdateTags_cases conn identifier old new with
    c | c | c | c | c | c | c
  · simp [c.2.2] at h
  · simp [c.2.2.2] at h
  · obtain ⟨_, _, e, _, c⟩ := c
    simp [c] at h
  · obtain ⟨_, e, _, c⟩ := c
    simpa [c] using h
  · simpa [c.2.2.2] using h
  · simpa [c.2.2.2.2] using h
  · obtain ⟨_, _, _, e, _, c⟩ := c
    simpa [c] using h

/-- A tag call of a run carries the identifier and the added or changed tags that are
left by `IgnoreAWS`. -/
theorem eq_of_tag_mem (conn : XRay) (identifier : String) (old new : KeyValueTags)
    (t : TagResourceInput) (h : Call.tag t ∈ (UpdateTags conn identifier old new).1) :
    t = ⟨identifier, Tags (old.Updated new).IgnoreAWS⟩ := by
  rcases UpdateTags_cases conn identifier old new with
    c | c | c | c | c | c | c
  · simp [c.2.2] at h
  · simpa [c.2.2.2] using h
  · obtain ⟨_, _, e, _, c⟩ := c
    simpa [c] using h
  · obtain ⟨_, e, _, c⟩ := c
    simp [c] at h
  · simp [c.2.2.2] at h
  · simpa [c.2.2.2.2] using h
  · obtain ⟨_, _, _, e, _, c⟩ := c
    simpa [c] using h

/-- The keys of the untag request. -/
theorem mem_removed_keys (old new : KeyValueTags) (k : String) :
    k ∈ (old.Removed new).IgnoreAWS.Keys ↔
      old.get k ≠ none ∧ new.get k = none ∧ HasPrefix k AwsTagKeyPrefix = false := by
  simp only [KeyValueTags.Keys, List.mem_map, Prod.exists, exists_and_right, exists_eq_right]
  constructor
  · rintro ⟨v, hv⟩
    have h1 := (KeyValueTags.mem_IgnoreAWS _ k v).1 hv
    have h2 := (KeyValueTags.mem_Removed old new k v).1
      ((KeyValueTags.get_eq_some_iff _ k v).1 h1.1)
    exact ⟨by simp [h2.1], h2.2, h1.2⟩
  · rintro ⟨h1, h2, h3⟩
    obtain ⟨v, hv⟩ := Option.ne_none_iff_exists'.1 h1
    exact ⟨v, (KeyValueTags.mem_IgnoreAWS _ k v).2
      ⟨(KeyValueTags.get_eq_some_iff _ k v).2 ((KeyValueTags.mem_Removed old new k v).2 ⟨hv, h2⟩),
        h3⟩⟩

/-- The pairs of the tag request. -/
theorem mem_updated_tags (old new : KeyValueTags) (tag : Tag) :
    tag ∈ Tags (old.Updated new).IgnoreAWS ↔
      new.get tag.Key = some tag.Value ∧ old.get tag.Key ≠ some tag.Value ∧
        HasPrefix tag.Key AwsTagKeyPrefix = false := by
  obtain ⟨k, v⟩ := tag
  simp only [Tags, KeyValueTags.Map, List.mem_map, Prod.exists, Tag.mk.injEq]
  constructor
  · rintro ⟨k', v', hm, rfl, rfl⟩
    have h1 := (KeyValueTags.mem_IgnoreAWS _ k' v').1 hm
    have h2 := (KeyValueTags.mem_Updated old new k' v').1
      ((KeyValueTags.get_eq_some_iff _ k' v').1 h1.1)
    exact ⟨h2.1, h2.2, h1.2⟩
  · rintro ⟨h1, h2, h3⟩
    exact ⟨k, v, (KeyValueTags.mem_IgnoreAWS _ k v).2
      ⟨(KeyValueTags.get_eq_some_iff _ k v).2 ((KeyValueTags.mem_Updated old new k v).2 ⟨h1, h2⟩),
        h3⟩, rfl, rfl⟩

/-- C5: for all tag sets `old` and `new`, no key with the reserved prefix `aws:` is in
the key list of an untag request that `UpdateTags` sends, and none is the key of a pair
of a tag request that it sends. -/
theorem UpdateTags_no_reserved_key (conn : XRay) (identifier : String)
    (old new : KeyValueTags) :
    (∀ u, Call.untag u ∈ (UpdateTags conn identifier old new).1 →
      ∀ k ∈ u.TagKeys, HasPrefix k AwsTagKeyPrefix = false) ∧
    (∀ t, Call.tag t ∈ (UpdateTags conn identifier old new).1 →
      ∀ tag ∈ t.Tags, HasPrefix tag.Key AwsTagKeyPrefix = false) := by
  constructor
  · intro u hu k hk
    rw [eq_of_untag_mem conn identifier old new u hu] at hk
    exact ((mem_removed_keys old new k).1 hk).2.2
  · intro t ht tag htag
    rw [eq_of_tag_mem conn identifier old new t ht] at htag
    exact ((mem_updated_tags old new tag).1 htag).2.2

end xray

namespace xray

open tftags

/-- A tag set with an entry has positive length. -/
theorem len_pos_of_mem (tags : KeyValueTags) (k v : String) (h : (k, v) ∈ tags.entries) :
    0 < tags.len := by
  unfold KeyValueTags.len
  exact List.length_pos_of_mem h

/-- C2: for all tag sets `old` and `new` without a key of the reserved prefix: an untag
request of `UpdateTags` carries the identifier and exactly the keys present in `old`
and absent from `new`, and one is sent when there is such a key; a tag request carries
the identifier and exactly the pairs `(k, new[k])` whose value in `old` is absent or
different, and one is sent when there is such a pair and no untag call failed; a key
with the same value in `old` and `new` is in neither request.  For
`old = {env: prod, temp: x}` and `new = {env: staging, owner: alice}` and successful
calls the run is one untag call with the key `temp`, then one tag call with
`{env: staging, owner: alice}`. -/
theorem UpdateTags_requests (conn : XRay) (identifier : String) (old new : KeyValueTags)
    (hold : ∀ kv ∈ old.entries, HasPrefix kv.1 AwsTagKeyPrefix = false)
    (hnew : ∀ kv ∈ new.entries, HasPrefix kv.1 AwsTagKeyPrefix = false) :
    (∀ u, Call.untag u ∈ (UpdateTags conn identifier old new).1 →
      u.ResourceARN = identifier ∧
      ∀ k, k ∈ u.TagKeys ↔ old.get k ≠ none ∧ new.get k = none) ∧
    ((∃ k, old.get k ≠ none ∧ new.get k = none) →
      ∃ u, Call.untag u ∈ (UpdateTags conn identifier old new).1) ∧
    (∀ t, Call.tag t ∈ (UpdateTags conn identifier old new).1 →
      t.ResourceARN = identifier ∧
      ∀ tag, tag ∈ t.Tags ↔
        new.get tag.Key = some tag.Value ∧ old.get tag.Key ≠ some tag.Value) ∧
    ((∃ k v, new.get k = some v ∧ old.get k ≠ some v) →
      (∀ u, Call.untag u ∈ (UpdateTags conn identifier old new).1 →
        conn.UntagResource u = none) →
      ∃ t, Call.tag t ∈ (UpdateTags conn identifier old new).1) ∧
    (∀ k v, old.get k = some v → new.get k = some v →
      (∀ u, Call.untag u ∈ (UpdateTags conn identifier old new).1 → k ∉ u.TagKeys) ∧
      (∀ t, Call.tag t ∈ (UpdateTags conn identifier old new).1 →
        ∀ tag ∈ t.Tags, tag.Key ≠ k)) ∧
    UpdateTags ⟨fun _ => none, fun _ => none⟩ identifier
        ⟨[("env", "prod"), ("temp", "x")], by decide⟩
        ⟨[("env", "staging"), ("owner", "alice")], by decide⟩ =
      ([Call.untag ⟨identifier, ["temp"]⟩,
        Call.tag ⟨identifier, [⟨"env", "staging"⟩, ⟨"owner", "alice"⟩]⟩], none) := by
  have pold : ∀ k, old.get k ≠ none → HasPrefix k AwsTagKeyPrefix = false := by
    intro k hk
    obtain ⟨v, hv⟩ := Option.ne_none_iff_exists'.1 hk
    exact hold (k, v) ((KeyValueTags.get_eq_some_iff old k v).1 hv)
  have pnew : ∀ k v, new.get k = some v → HasPrefix k AwsTagKeyPrefix = false := by
    intro k v hv
    exact hnew (k, v) ((KeyValueTags.get_eq_some_iff new k v).1 hv)
  refine ⟨?_, ?_, ?_, ?_, ?_, ?_⟩
  · intro u hu
    rw [eq_of_untag_mem conn identifier old new u hu]
    refine ⟨rfl, fun k => ?_⟩
    rw [mem_removed_keys]
    exact ⟨fun h => ⟨h.1, h.2.1⟩, fun h => ⟨h.1, h.2, pold k h.1⟩⟩
  · rintro ⟨k, hk, hk'⟩
    obtain ⟨v, hv⟩ := Option.ne_none_iff_exists'.1 hk
    have hpos : 0 < (old.Removed new).len :=
      len_pos_of_mem _ k v ((KeyValueTags.mem_Removed old new k v).2 ⟨hv, hk'⟩)
    rcases UpdateTags_cases conn identifier old new with
      c | c | c | c | c | c | c
    · omega
    · omega
    · omega
    · obtain ⟨_, e, _, c⟩ := c
      exact ⟨_, by rw [c]; exact List.mem_singleton_self _⟩
    · exact ⟨_, by rw [c.2.2.2]; exact List.mem_singleton_self _⟩
    · exact ⟨_, by rw [c.2.2.2.2]; exact List.mem_cons_self _ _⟩
    · obtain ⟨_, _, _, e, _, c⟩ := c
      exact ⟨_, by rw [c]; exact List.mem_cons_self _ _⟩
  · intro t ht
    rw [eq_of_tag_mem conn identifier old new t ht]
    refine ⟨rfl, fun tag => ?_⟩
    rw [mem_updated_tags]
    exact ⟨fun h => ⟨h.1, h.2.1⟩, fun h => ⟨h.1, h.2, pnew _ _ h.1⟩⟩
  · rintro ⟨k, v, hk, hk'⟩ hok
    have hpos : 0 < (old.Updated new).len :=
      len_pos_of_mem _ k v ((KeyValueTags.mem_Updated old new k v).2 ⟨hk, hk'⟩)
    rcases UpdateTags_cases conn identifier old new with
      c | c | c | c | c | c | c
    · omega
    · exact ⟨_, by rw [c.2.2.2]; exact List.mem_singleton_self _⟩
    · obtain ⟨_, _, e, _, c⟩ := c
      exact ⟨_, by rw [c]; exact List.mem_singleton_self _⟩
    · obtain ⟨_, e, he, c⟩ := c
      have := hok _ (by rw [c]; exact List.mem_singleton_self _)
      rw [he] at this
      cases this
    · omega
    · exact ⟨⟨identifier, Tags (old.Updated new).IgnoreAWS⟩, by rw [c.2.2.2.2]; simp⟩
    · obtain ⟨_, _, _, e, _, c⟩ := c
      exact ⟨⟨identifier, Tags (old.Updated new).IgnoreAWS⟩, by rw [c]; simp⟩
  · intro k v hv hv'
    refine ⟨?_, ?_⟩
    · intro u hu hk
      rw [eq_of_untag_mem conn identifier old new u hu] at hk
      have h1 := (mem_removed_keys old new k).1 hk
      rw [hv'] at h1
      simp at h1
    · intro t ht tag htag hkey
      rw [eq_of_tag_mem conn identifier old new t ht] at htag
      have h2 := (mem_updated_tags old new tag).1 htag
      rw [hkey, hv, hv'] at h2
      exact h2.2.1 (by rw [← Option.some.inj h2.1])
  · rfl

/-- The witness of C2: the tag sets of the example scenario have no reserved key. -/
theorem UpdateTags_requests_witness :
    (∀ kv ∈ [("env", "prod"), ("temp", "x")], HasPrefix kv.1 AwsTagKeyPrefix = false) ∧
    (∀ kv ∈ [("env", "staging"), ("owner", "alice")],
      HasPrefix kv.1 AwsTagKeyPrefix = false) ∧
    ∃ u, Call.untag u ∈ (UpdateTags ⟨fun _ => none, fun _ => none⟩ "arn"
        ⟨[("env", "prod"), ("temp", "x")], by decide⟩
        ⟨[("env", "staging"), ("owner", "alice")], by decide⟩).1 :=
  ⟨by decide, by decide,
    (UpdateTags_requests ⟨fun _ => none, fun _ => none⟩ "arn"
      ⟨[("env", "prod"), ("temp", "x")], by decide⟩
      ⟨[("env", "staging"), ("owner", "alice")], by decide⟩
      (by decide) (by decide)).2.1 ⟨"temp", by decide, by decide⟩⟩

/-- C8, as the claim states it: for `old = {aws:x: 1}` and `new = {aws:x: 2}` the key
`aws:x` is in both tag sets, with different values; the run of `UpdateTags` is one tag
call that holds no tag, so the key is in no request of the run. -/
theorem UpdateTags_changed_reserved_key_not_sent :
    KeyValueTags.get ⟨[("aws:x", "1")], by decide⟩ "aws:x" = some "1" ∧
    KeyValueTags.get ⟨[("aws:x", "2")], by decide⟩ "aws:x" = some "2" ∧
    UpdateTags ⟨fun _ => none, fun _ => none⟩ "arn"
        ⟨[("aws:x", "1")], by decide⟩ ⟨[("aws:x", "2")], by decide⟩ =
      ([Call.tag ⟨"arn", []⟩], none) ∧
    (∀ t, Call.tag t ∈ (UpdateTags ⟨fun _ => none, fun _ => none⟩ "arn"
        ⟨[("aws:x", "1")], by decide⟩ ⟨[("aws:x", "2")], by decide⟩).1 →
      ∀ tag ∈ t.Tags, tag.Key ≠ "aws:x") := by
  have hrun : UpdateTags ⟨fun _ => none, fun _ => none⟩ "arn"
      ⟨[("aws:x", "1")], by decide⟩ ⟨[("aws:x", "2")], by decide⟩ =
      ([Call.tag ⟨"arn", []⟩], none) := by decide
  refine ⟨by decide, by decide, hrun, ?_⟩
  intro t ht tag htag
  rw [hrun] at ht
  simp only [List.mem_singleton, Call.tag.injEq] at ht
  subst ht
  simp at htag

/-- C8, amended: for all tag sets `old` and `new`, no key of an untag request of
`UpdateTags` is the key of a pair of a tag request of the same run.  A key that `old`
and `new` both hold, with different values, is in no untag request, and a pair of a tag
request with that key carries the new value.  When the key has no reserved prefix,
every tag request of the run holds the pair of the key and its new value, and, unless
an untag call of the run failed, the run has a tag request, for the identifier, that
holds this pair.  When the key has the reserved prefix, no tag request holds it. -/
theorem UpdateTags_requests_disjoint (conn : XRay) (identifier : String)
    (old new : KeyValueTags) :
    (∀ u t, Call.untag u ∈ (UpdateTags conn identifier old new).1 →
      Call.tag t ∈ (UpdateTags conn identifier old new).1 →
      ∀ k ∈ u.TagKeys, ∀ tag ∈ t.Tags, tag.Key ≠ k) ∧
    (∀ k v w, old.get k = some v → new.get k = some w → v ≠ w →
      (∀ u, Call.untag u ∈ (UpdateTags conn identifier old new).1 → k ∉ u.TagKeys) ∧
      (∀ t, Call.tag t ∈ (UpdateTags conn identifier old new).1 →
        ∀ tag ∈ t.Tags, tag.Key = k → tag.Value = w) ∧
      (HasPrefix k AwsTagKeyPrefix = false →
        (∀ t, Call.tag t ∈ (UpdateTags conn identifier old new).1 → ⟨k, w⟩ ∈ t.Tags) ∧
        ((∀ u, Call.untag u ∈ (UpdateTags conn identifier old new).1 →
            conn.UntagResource u = none) →
          ∃ t, Call.tag t ∈ (UpdateTags conn identifier old new).1 ∧
            t.ResourceARN = identifier ∧ ⟨k, w⟩ ∈ t.Tags)) ∧
      (HasPrefix k AwsTagKeyPrefix = true →
        ∀ t, Call.tag t ∈ (UpdateTags conn identifier old new).1 →
          ∀ tag ∈ t.Tags, tag.Key ≠ k)) := by
  refine ⟨?_, ?_⟩
  · intro u t hu ht k hk tag htag hkey
    rw [eq_of_untag_mem conn identifier old new u hu] at hk
    rw [eq_of_tag_mem conn identifier old new t ht] at htag
    have h1 := (mem_removed_keys old new k).1 hk
    have h2 := (mem_updated_tags old new tag).1 htag
    rw [hkey, h1.2.1] at h2
    simp at h2
  · intro k v w hv hw hne
    have hvw : old.get k ≠ some w := by
      simp only [hv, ne_eq, Option.some.injEq]
      exact hne
    refine ⟨?_, ?_, ?_, ?_⟩
    · intro u hu hk
      rw [eq_of_untag_mem conn identifier old new u hu] at hk
      have h1 := (mem_removed_keys old new k).1 hk
      rw [hw] at h1
      simp at h1
    · intro t ht tag htag hkey
      rw [eq_of_tag_mem conn identifier old new t ht] at htag
      have h2 := (mem_updated_tags old new tag).1 htag
      rw [hkey, hw] at h2
      exact (Option.some.inj h2.1).symm
    · intro hp
      have hmem : (⟨k, w⟩ : Tag) ∈ Tags (old.Updated new).IgnoreAWS :=
        (mem_updated_tags old new ⟨k, w⟩).2 ⟨hw, hvw, hp⟩
      refine ⟨?_, ?_⟩
      · intro t ht
        rw [eq_of_tag_mem conn identifier old new t ht]
        exact hmem
      · intro hok
        have hpos : 0 < (old.Updated new).len :=
          len_pos_of_mem _ k w ((KeyValueTags.mem_Updated old new k w).2 ⟨hw, hvw⟩)
        rcases UpdateTags_cases conn identifier old new with
          c | c | c | c | c | c | c
        · omega
        · exact ⟨⟨identifier, Tags (old.Updated new).IgnoreAWS⟩,
            by rw [c.2.2.2]; exact List.mem_singleton_self _, rfl, hmem⟩
        · obtain ⟨_, _, e, _, c⟩ := c
          exact ⟨⟨identifier, Tags (old.Updated new).IgnoreAWS⟩,
            by rw [c]; exact List.mem_singleton_self _, rfl, hmem⟩
        · obtain ⟨_, e, he, c⟩ := c
          have := hok _ (by rw [c]; exact List.mem_singleton_self _)
          rw [he] at this
          cases this
        · omega
        · exact ⟨⟨identifier, Tags (old.Updated new).IgnoreAWS⟩,
            by rw [c.2.2.2.2]; simp, rfl, hmem⟩
        · obtain ⟨_, _, _, e, _, c⟩ := c
          exact ⟨⟨identifier, Tags (old.Updated new).IgnoreAWS⟩,
            by rw [c]; simp, rfl, hmem⟩
    · intro hp t ht tag htag hkey
      rw [eq_of_tag_mem conn identifier old new t ht] at htag
      have h2 := (mem_updated_tags old new tag).1 htag
      rw [hkey, hp] at h2
      exact Bool.noConfusion h2.2.2

/-- The witness of C8, amended: in the run for the tag sets of the example scenario,
with successful calls, the untag request holds the key `temp`, and the changed key `env`
is in the tag request with its new value `staging`. -/
theorem UpdateTags_requests_disjoint_witness :
    Call.untag ⟨"arn", ["temp"]⟩ ∈ (UpdateTags ⟨fun _ => none, fun _ => none⟩ "arn"
        ⟨[("env", "prod"), ("temp", "x")], by decide⟩
        ⟨[("env", "staging"), ("owner", "alice")], by decide⟩).1 ∧
    ∃ t, Call.tag t ∈ (UpdateTags ⟨fun _ => none, fun _ => none⟩ "arn"
        ⟨[("env", "prod"), ("temp", "x")], by decide⟩
        ⟨[("env", "staging"), ("owner", "alice")], by decide⟩).1 ∧
      t.ResourceARN = "arn" ∧ ⟨"env", "staging"⟩ ∈ t.Tags :=
  ⟨by decide,
    ((((UpdateTags_requests_disjoint ⟨fun _ => none, fun _ => none⟩ "arn"
      ⟨[("env", "prod"), ("temp", "x")], by decide⟩
      ⟨[("env", "staging"), ("owner", "alice")], by decide⟩).2
        "env" "prod" "staging" (by decide) (by decide) (by decide)).2.2.1
          (by decide)).2 (fun _ _ => rfl))⟩

end xray

/-! ## The effect of the requests on the remote tag set -/

namespace xray

open tftags

/-- Setting the pairs of a list with distinct keys: a key of the list gets the value
of the list, every other key keeps its value. -/
theorem foldl_set_pairs (l : List (String × String)) (h : (l.map Prod.fst).Nodup)
    (remote : RemoteTags) (k : String) :
    (l.map (fun kv => ({ Key := kv.1, Value := kv.2 } : Tag))).foldl
        (fun r t k => if k = t.Key then some t.Value else r k) remote k =
      (l.lookup k).or (remote k) := by
  induction l generalizing remote with
  | nil => simp
  | cons p l ih =>
    obtain ⟨k', v'⟩ := p
    simp only [List.map_cons, List.nodup_cons] at h
    simp only [List.map_cons, List.foldl_cons]
    rw [ih h.2]
    by_cases hk : k = k'
    · subst hk
      have hn : l.lookup k = none := by
        rw [lookup_eq_none_iff_not_mem]
        intro v hv
        exact h.1 (List.mem_map_of_mem Prod.fst hv)
      simp [hn]
    · have hb : (k == k') = false := by simpa using hk
      simp [List.lookup_cons, hb, hk]

/-- The effect of the full tag request. -/
theorem applyTag_Tags (remote : RemoteTags) (identifier : String) (tags : KeyValueTags)
    (k : String) :
    applyTag remote ⟨identifier, Tags tags⟩ k = (tags.get k).or (remote k) :=
  foldl_set_pairs tags.entries tags.nodup remote k

/-- An empty tag set stays empty under `IgnoreAWS`. -/
theorem IgnoreAWS_entries_of_len_zero (tags : KeyValueTags) (h : tags.len = 0) :
    tags.IgnoreAWS.entries = [] := by
  have : tags.entries = [] := List.length_eq_zero.1 h
  simp [KeyValueTags.IgnoreAWS, this]

/-- The value of a key in the added or changed tags. -/
theorem get_Updated (old new : KeyValueTags) (k : String) :
    (old.Updated new).get k = if new.get k = old.get k then none else new.get k := by
  cases hn : new.get k with
  | none =>
    have : (old.Updated new).get k = none := by
      rw [KeyValueTags.get_eq_none_iff]
      intro v hv
      have := ((KeyValueTags.mem_Updated old new k v).1 hv).1
      rw [hn] at this
      cases this
    simp [this]
  | some v =>
    by_cases ho : old.get k = some v
    · have : (old.Updated new).get k = none := by
        rw [KeyValueTags.get_eq_none_iff]
        intro w hw
        have h2 := (KeyValueTags.mem_Updated old new k w).1 hw
        rw [hn] at h2
        have hvw := Option.some.inj h2.1
        subst hvw
        exact h2.2 ho
      simp [this, ho]
    · have : (old.Updated new).get k = some v :=
        (KeyValueTags.get_eq_some_iff _ k v).2
          ((KeyValueTags.mem_Updated old new k v).2 ⟨hn, ho⟩)
      have hne : ¬ (some v = old.get k) := fun e => ho e.symm
      simp [this, hne]

/-- Deleting the keys of the full untag request and then setting the pairs of the full
tag request turns the old tags into the new tags, reserved keys left out of both. -/
theorem apply_full_diff (identifier : String) (old new : KeyValueTags) (k : String) :
    applyTag (applyUntag old.IgnoreAWS.get ⟨identifier, (old.Removed new).IgnoreAWS.Keys⟩)
        ⟨identifier, Tags (old.Updated new).IgnoreAWS⟩ k =
      new.IgnoreAWS.get k := by
  rw [applyTag_Tags]
  simp only [applyUntag, KeyValueTags.get_IgnoreAWS, get_Updated, mem_removed_keys]
  by_cases hp : HasPrefix k AwsTagKeyPrefix = true
  · simp [hp]
  · have hp' : HasPrefix k AwsTagKeyPrefix = false := by simpa using hp
    simp only [hp', Bool.false_eq_true, if_false, and_true]
    cases hn : new.get k with
    | none =>
      cases ho : old.get k with
      | none => simp
      | some v => simp
    | some v =>
      by_cases ho : old.get k = some v
      · simp [ho]
      · have hne : ¬ (some v = old.get k) := fun e => ho e.symm
        simp [hne]

/-- C1: for all tag sets `old` and `new` and every run of `UpdateTags` on them in which
no untag call fails (after a failed untag call no tag request is sent): starting from
`old` without its reserved keys, deleting the keys of the untag request sent and then
setting the pairs of the tag request sent gives `new` without its reserved keys, as a
mapping from keys to values. -/
theorem UpdateTags_converges (conn : XRay) (identifier : String) (old new : KeyValueTags)
    (hun : ∀ u, Call.untag u ∈ (UpdateTags conn identifier old new).1 →
      conn.UntagResource u = none) :
    applyCalls old.IgnoreAWS.get (UpdateTags conn identifier old new).1 =
      new.IgnoreAWS.get := by
  funext k
  rw [← apply_full_diff identifier old new k]
  have hU : (old.Removed new).len = 0 → ∀ r : RemoteTags,
      applyUntag r ⟨identifier, (old.Removed new).IgnoreAWS.Keys⟩ = r := by
    intro h r
    funext j
    simp [applyUntag, KeyValueTags.Keys, IgnoreAWS_entries_of_len_zero _ h]
  have hT : (old.Updated new).len = 0 → ∀ r : RemoteTags,
      applyTag r ⟨identifier, Tags (old.Updated new).IgnoreAWS⟩ = r := by
    intro h r
    simp [applyTag, Tags, KeyValueTags.Map, IgnoreAWS_entries_of_len_zero _ h]
  rcases UpdateTags_cases conn identifier old new with
    c | c | c | c | c | c | c
  · rw [c.2.2, hU c.1, hT c.2.1]
    rfl
  · rw [c.2.2.2, hU c.1]
    rfl
  · obtain ⟨h0, _, e, _, c⟩ := c
    rw [c, hU h0]
    rfl
  · obtain ⟨_, e, he, c⟩ := c
    have := hun _ (by rw [c]; exact List.mem_singleton_self _)
    rw [he] at this
    cases this
  · rw [c.2.2.2, hT c.2.2.1]
    rfl
  · rw [c.2.2.2.2]
    rfl
  · obtain ⟨_, _, _, e, _, c⟩ := c
    rw [c]
    rfl

/-- The witness of C1: the example scenario of the spec, an untag call that
succeeds and a tag call that is answered with an error. -/
theorem UpdateTags_converges_witness :
    (∀ u, Call.untag u ∈ (UpdateTags ⟨fun _ => none, fun _ => some (GoError.message "throttled")⟩
        "arn" ⟨[("env", "prod"), ("temp", "x")], by decide⟩
        ⟨[("env", "staging"), ("owner", "alice")], by decide⟩).1 →
      XRay.UntagResource ⟨fun _ => none, fun _ => some (GoError.message "throttled")⟩ u = none) ∧
    applyCalls
        (KeyValueTags.IgnoreAWS ⟨[("env", "prod"), ("temp", "x")], by decide⟩).get
        (UpdateTags ⟨fun _ => none, fun _ => some (GoError.message "throttled")⟩ "arn"
          ⟨[("env", "prod"), ("temp", "x")], by decide⟩
          ⟨[("env", "staging"), ("owner", "alice")], by decide⟩).1 =
      (KeyValueTags.IgnoreAWS ⟨[("env", "staging"), ("owner", "alice")], by decide⟩).get :=
  ⟨fun _ _ => rfl,
    UpdateTags_converges ⟨fun _ => none, fun _ => some (GoError.message "throttled")⟩ "arn"
      ⟨[("env", "prod"), ("temp", "x")], by decide⟩
      ⟨[("env", "staging"), ("owner", "alice")], by decide⟩ (fun _ _ => rfl)⟩

/-- C4, on the code: the tag sets `old = {}` and `new = {aws:createdBy: me}` agree
on every key without the reserved prefix, and `UpdateTags` issues a tag call, with no
pair in it; for `old = {aws:createdBy: me}` and `new = {}` it issues an untag call
with no key in it. -/
theorem UpdateTags_reserved_only_issues_call :
    (∀ k, HasPrefix k AwsTagKeyPrefix = false →
      KeyValueTags.get ⟨[], by decide⟩ k =
        KeyValueTags.get ⟨[("aws:createdBy", "me")], by decide⟩ k) ∧
    UpdateTags ⟨fun _ => none, fun _ => none⟩ "arn"
        ⟨[], by decide⟩ ⟨[("aws:createdBy", "me")], by decide⟩ =
      ([Call.tag ⟨"arn", []⟩], none) ∧
    UpdateTags ⟨fun _ => none, fun _ => none⟩ "arn"
        ⟨[("aws:createdBy", "me")], by decide⟩ ⟨[], by decide⟩ =
      ([Call.untag ⟨"arn", []⟩], none) := by
  refine ⟨?_, by decide, by decide⟩
  intro k hk
  have hne : k ≠ "aws:createdBy" := by
    rintro rfl
    revert hk
    decide
  have hb : (k == "aws:createdBy") = false := by simpa using hne
  simp [KeyValueTags.get, List.lookup, hb]

end xray

/-! ## The composite identifier -/

namespace tfservicecatalog

/-- C10, as the claim states it: the budget name `a,b` holds the separator; the
identifier stored for it and the resource `c` is parsed into the budget name `a` and
the resource `b,c`.  The pairs (`a,b`, `c`) and (`a`, `b,c`) have the same identifier,
so no parse function gives back both. -/
theorem BudgetResourceAssociationParseID_not_inverse :
    BudgetResourceAssociationParseID (BudgetResourceAssociationID "a,b" "c") =
      Except.ok ("a", "b,c") ∧
    BudgetResourceAssociationID "a,b" "c" = BudgetResourceAssociationID "a" "b,c" ∧
    BudgetResourceAssociationParseID (BudgetResourceAssociationID "a,b" "c") ≠
      Except.ok ("a,b", "c") := by
  refine ⟨rfl, by decide, ?_⟩
  rw [show BudgetResourceAssociationParseID (BudgetResourceAssociationID "a,b" "c") =
    Except.ok ("a", "b,c") from rfl]
  intro h
  injection h with h
  exact absurd h (by decide)

/-- C10, amended: for every budget name without the separator and every resource ID,
parsing the identifier that create stores succeeds and gives back that budget name and
that resource ID. -/
theorem BudgetResourceAssociationParseID_ID (budgetName resourceID : String)
    (h : budgetResourceAssociationIDSeparator ∉ budgetName.toList) :
    BudgetResourceAssociationParseID (BudgetResourceAssociationID budgetName resourceID) =
      Except.ok (budgetName, resourceID) := by
  have hall : ∀ c ∈ budgetName.data,
      (fun c => c != budgetResourceAssociationIDSeparator) c = true := by
    intro c hc
    simp only [bne_iff_ne, ne_eq]
    rintro rfl
    exact h hc
  have hdata : (BudgetResourceAssociationID budgetName resourceID).toList =
      budgetName.data ++ budgetResourceAssociationIDSeparator :: resourceID.data := by
    simp [BudgetResourceAssociationID, String.toList, String.singleton]
  unfold BudgetResourceAssociationParseID
  rw [hdata, List.dropWhile_append_of_pos hall, List.takeWhile_append_of_pos hall]
  simp

/-- The witness of C10: the budget name `monthly` and the resource `prod-1234`. -/
theorem BudgetResourceAssociationParseID_ID_witness :
    budgetResourceAssociationIDSeparator ∉ "monthly".toList ∧
    BudgetResourceAssociationParseID (BudgetResourceAssociationID "monthly" "prod-1234") =
      Except.ok ("monthly", "prod-1234") :=
  ⟨by decide, BudgetResourceAssociationParseID_ID "monthly" "prod-1234" (by decide)⟩

end tfservicecatalog

/-! ## The callbacks of the budget resource association -/

/-- Every string contains the empty string. -/
theorem Contains_empty (s : String) : Contains s "" = true := by
  unfold Contains
  cases h : s.toList with
  | nil => simp [List.isPrefixOf]
  | cons c cs => simp [List.tails, List.isPrefixOf]

namespace servicecatalog

open tfservicecatalog

/-- C11: for every resource data whose ID parses into a budget name and a resource ID:
if the disassociate call fails with the code `ResourceNotFoundException`, delete
returns `nil` and the disassociate call is its only remote operation (it does not
wait); if the disassociate call succeeds and the wait for deletion returns an error
that is not found, delete returns `nil`. -/
theorem resourceBudgetResourceAssociationDelete_absent (m : AWSClient) (d : ResourceData)
    (budgetName resourceID : String)
    (hparse : BudgetResourceAssociationParseID d.Id = Except.ok (budgetName, resourceID)) :
    (∀ e, m.DisassociateBudgetFromResource ⟨resourceID, budgetName⟩ = some e →
      e.Code = ErrCodeResourceNotFoundException →
      (resourceBudgetResourceAssociationDelete m d).err = none ∧
      (resourceBudgetResourceAssociationDelete m d).calls =
        [Call.disassociate ⟨resourceID, budgetName⟩]) ∧
    (m.DisassociateBudgetFromResource ⟨resourceID, budgetName⟩ = none →
      tfresource.NotFound (m.WaitBudgetResourceAssociationDeleted budgetName resourceID) =
        true →
      (resourceBudgetResourceAssociationDelete m d).err = none ∧
      (resourceBudgetResourceAssociationDelete m d).calls =
        [Call.disassociate ⟨resourceID, budgetName⟩,
          Call.waitDeleted budgetName resourceID]) := by
  constructor
  · intro e he hcode
    simp [resourceBudgetResourceAssociationDelete, hparse, he, tfawserr.ErrCodeEquals,
      AwsErr.toError, asAwsErr, hcode]
  · intro hnone hnf
    cases hw : m.WaitBudgetResourceAssociationDeleted budgetName resourceID with
    | none => simp [hw, tfresource.NotFound] at hnf
    | some e =>
      rw [hw] at hnf
      simp [resourceBudgetResourceAssociationDelete, hparse, hnone, tfawserr.ErrCodeEquals,
        hw, hnf]

/-- The witness of C11: the ID `monthly,prod-1234` and a disassociate call that reports
that the resource is not found. -/
theorem resourceBudgetResourceAssociationDelete_absent_witness :
    BudgetResourceAssociationParseID
        (ResourceData.Id ⟨"monthly,prod-1234", false, "monthly", "prod-1234"⟩) =
      Except.ok ("monthly", "prod-1234") ∧
    (resourceBudgetResourceAssociationDelete
        ⟨fun _ _ => (none, none), fun _ => some ⟨"ResourceNotFoundException", "gone"⟩,
          fun _ _ => (none, none), fun _ _ => none, 3,
          fun r => r.getD (GoError.timeout "timeout")⟩
        ⟨"monthly,prod-1234", false, "monthly", "prod-1234"⟩).err = none ∧
    (resourceBudgetResourceAssociationDelete
        ⟨fun _ _ => (none, none), fun _ => some ⟨"ResourceNotFoundException", "gone"⟩,
          fun _ _ => (none, none), fun _ _ => none, 3,
          fun r => r.getD (GoError.timeout "timeout")⟩
        ⟨"monthly,prod-1234", false, "monthly", "prod-1234"⟩).calls =
      [Call.disassociate ⟨"prod-1234", "monthly"⟩] :=
  ⟨rfl,
    (resourceBudgetResourceAssociationDelete_absent
      ⟨fun _ _ => (none, none), fun _ => some ⟨"ResourceNotFoundException", "gone"⟩,
        fun _ _ => (none, none), fun _ _ => none, 3,
        fun r => r.getD (GoError.timeout "timeout")⟩
      ⟨"monthly,prod-1234", false, "monthly", "prod-1234"⟩ "monthly" "prod-1234" rfl).1
      ⟨"ResourceNotFoundException", "gone"⟩ rfl rfl⟩

/-- C12: for every resource data whose ID parses, when the wait for the association
returns an error that is not found: if the resource is not new, read returns `nil` and
leaves the resource data with the ID cleared; if the resource is new, read returns an
error (it wraps the error of the wait) and leaves the resource data, and so the ID, as
it was. -/
theorem resourceBudgetResourceAssociationRead_not_found (m : AWSClient) (d : ResourceData)
    (budgetName resourceID : String) (e : GoError)
    (hparse : BudgetResourceAssociationParseID d.Id = Except.ok (budgetName, resourceID))
    (herr : (m.WaitBudgetResourceAssociationReady budgetName resourceID).2 = some e)
    (hnf : tfresource.NotFound (some e) = true) :
    (d.IsNewResource = false →
      (resourceBudgetResourceAssociationRead m d).err = none ∧
      (resourceBudgetResourceAssociationRead m d).d = d.SetId "" ∧
      (resourceBudgetResourceAssociationRead m d).d.Id = "") ∧
    (d.IsNewResource = true →
      (resourceBudgetResourceAssociationRead m d).err =
        some (Errorf "error describing Service Catalog Budget Resource Association "
          d.Id e) ∧
      (resourceBudgetResourceAssociationRead m d).d = d) := by
  obtain ⟨assoc, disassoc, waitReady, waitDeleted, polls, onTimeout⟩ := m
  simp only at herr
  have hparse' : BudgetResourceAssociationParseID d.id = Except.ok (budgetName, resourceID) :=
    hparse
  rcases hw : waitReady budgetName resourceID with ⟨out, err⟩
  rw [hw] at herr
  simp only at herr
  subst herr
  constructor
  · intro hnew
    have hnew' : d.isNewResource = false := hnew
    simp [resourceBudgetResourceAssociationRead, hparse', hw, hnew', hnf, ResourceData.SetId,
      ResourceData.Id, ResourceData.IsNewResource]
  · intro hnew
    have hnew' : d.isNewResource = true := hnew
    simp [resourceBudgetResourceAssociationRead, hparse', hw, hnew', ResourceData.Id,
      ResourceData.IsNewResource]

/-- The witness of C12: a resource that is not new, with the ID `monthly,prod-1234`, and
a wait that reports not found. -/
theorem resourceBudgetResourceAssociationRead_not_found_witness :
    BudgetResourceAssociationParseID
        (ResourceData.Id ⟨"monthly,prod-1234", false, "monthly", "prod-1234"⟩) =
      Except.ok ("monthly", "prod-1234") ∧
    tfresource.NotFound (some (GoError.notFound "not found")) = true ∧
    (resourceBudgetResourceAssociationRead
        ⟨fun _ _ => (none, none), fun _ => none,
          fun _ _ => (none, some (GoError.notFound "not found")), fun _ _ => none, 3,
          fun r => r.getD (GoError.timeout "timeout")⟩
        ⟨"monthly,prod-1234", false, "monthly", "prod-1234"⟩).err = none ∧
    (resourceBudgetResourceAssociationRead
        ⟨fun _ _ => (none, none), fun _ => none,
          fun _ _ => (none, some (GoError.notFound "not found")), fun _ _ => none, 3,
          fun r => r.getD (GoError.timeout "timeout")⟩
        ⟨"monthly,prod-1234", false, "monthly", "prod-1234"⟩).d.Id = "" :=
  have h := (resourceBudgetResourceAssociationRead_not_found
    ⟨fun _ _ => (none, none), fun _ => none,
      fun _ _ => (none, some (GoError.notFound "not found")), fun _ _ => none, 3,
      fun r => r.getD (GoError.timeout "timeout")⟩
    ⟨"monthly,prod-1234", false, "monthly", "prod-1234"⟩ "monthly" "prod-1234"
    (GoError.notFound "not found") rfl rfl rfl).1 rfl
  ⟨rfl, rfl, h.1, h.2.2⟩

end servicecatalog

namespace redshift

/-- C17: `resourceAwsRedshiftParameterGroupDelete` returns `nil` exactly when the
delete call succeeded or failed with the code `RedshiftParameterGroupNotFoundFault`,
and it returns every other error of the delete call as it is. -/
theorem resourceAwsRedshiftParameterGroupDelete_result (conn : Redshift) (id : String) :
    (resourceAwsRedshiftParameterGroupDelete conn id = none ↔
      conn.DeleteClusterParameterGroup ⟨id⟩ = none ∨
      ∃ e, conn.DeleteClusterParameterGroup ⟨id⟩ = some e ∧
        e.Code = "RedshiftParameterGroupNotFoundFault") ∧
    (∀ e, conn.DeleteClusterParameterGroup ⟨id⟩ = some e →
      e.Code ≠ "RedshiftParameterGroupNotFoundFault" →
      resourceAwsRedshiftParameterGroupDelete conn id = some e.toError) := by
  cases h : conn.DeleteClusterParameterGroup ⟨id⟩ with
  | none => simp [resourceAwsRedshiftParameterGroupDelete, h]
  | some e =>
    by_cases hc : e.Code = "RedshiftParameterGroupNotFoundFault"
    · simp [resourceAwsRedshiftParameterGroupDelete, h, tfawserr.ErrMessageContains,
        AwsErr.toError, asAwsErr, hc, Contains_empty]
    · simp [resourceAwsRedshiftParameterGroupDelete, h, tfawserr.ErrMessageContains,
        AwsErr.toError, asAwsErr, hc]

end redshift

namespace servicecatalog

open tfservicecatalog

/-- An attempt that the connection answers with an error: the state after it and the
classification of the error. -/
theorem associateRetryFunc_error (m : AWSClient) (input : AssociateBudgetWithResourceInput)
    (s : CreateState) (out : Option AssociateBudgetWithResourceOutput) (e : AwsErr)
    (h : m.AssociateBudgetWithResource s.calls.length input = (out, some e)) :
    associateRetryFunc m input s =
      ({ calls := s.calls ++ [Call.associate input], output := out },
        some { Err := e.toError,
               Retryable := decide (e.Code = "InvalidParametersException") &&
                 Contains e.Message "profile does not exist" }) := by
  by_cases hc : (decide (e.Code = "InvalidParametersException") &&
      Contains e.Message "profile does not exist") = true
  · have hc' := hc
    simp only [Bool.and_eq_true, decide_eq_true_eq] at hc'
    simp [associateRetryFunc, associate, h, tfawserr.ErrMessageContains, AwsErr.toError,
      asAwsErr, ErrCodeInvalidParametersException, hc'.1, hc'.2, resource.RetryableError]
  · have hc' : (decide (e.Code = "InvalidParametersException") &&
        Contains e.Message "profile does not exist") = false := by simpa using hc
    simp only [associateRetryFunc, associate, h, tfawserr.ErrMessageContains, AwsErr.toError,
      asAwsErr, ErrCodeInvalidParametersException, Option.map_some', hc',
      resource.NonRetryableError]
    simp

/-- An attempt that the connection answers without an error. -/
theorem associateRetryFunc_ok (m : AWSClient) (input : AssociateBudgetWithResourceInput)
    (s : CreateState) (out : Option AssociateBudgetWithResourceOutput)
    (h : m.AssociateBudgetWithResource s.calls.length input = (out, none)) :
    associateRetryFunc m input s =
      ({ calls := s.calls ++ [Call.associate input], output := out }, none) := by
  simp [associateRetryFunc, associate, h, tfawserr.ErrMessageContains]

/-- The retry loop when every attempt is answered with the retryable error: all the
polls are used and the loop ends with the error of a timeout. -/
theorem retryLoop_all_pending (m : AWSClient) (input : AssociateBudgetWithResourceInput)
    (hall : ∀ n, ∃ out e, m.AssociateBudgetWithResource n input = (out, some e) ∧
      e.Code = "InvalidParametersException" ∧
      Contains e.Message "profile does not exist" = true)
    (polls : Nat) (s : CreateState) (r : Option GoError) :
    ∃ out r',
      resource.retryLoop m.onTimeout (associateRetryFunc m input) polls s r =
        ({ calls := s.calls ++ List.replicate polls (Call.associate input), output := out },
          some (m.onTimeout r')) := by
  induction polls generalizing s r with
  | zero => exact ⟨s.output, r, by simp [resource.retryLoop]⟩
  | succ p ih =>
    obtain ⟨out, e, he, hc1, hc2⟩ := hall s.calls.length
    obtain ⟨out', r', h'⟩ := ih { calls := s.calls ++ [Call.associate input], output := out }
      (some e.toError)
    refine ⟨out', r', ?_⟩
    rw [resource.retryLoop, associateRetryFunc_error m input s out e he]
    simp only [hc1, hc2, decide_True, Bool.and_self, if_true]
    rw [h']
    simp [List.replicate_succ]

/-- The retry loop when `k` attempts are answered with the retryable error and the next
one with an error that is not retryable: the loop ends after that attempt, with its
error. -/
theorem retryLoop_non_retryable (m : AWSClient) (input : AssociateBudgetWithResourceInput)
    (k : Nat) (polls : Nat) (s : CreateState) (r : Option GoError)
    (out : Option AssociateBudgetWithResourceOutput) (e : AwsErr)
    (hk : k < polls)
    (hpend : ∀ i, i < k → ∃ out' e',
      m.AssociateBudgetWithResource (s.calls.length + i) input = (out', some e') ∧
      e'.Code = "InvalidParametersException" ∧
      Contains e'.Message "profile does not exist" = true)
    (hlast : m.AssociateBudgetWithResource (s.calls.length + k) input = (out, some e))
    (hno : ¬ (e.Code = "InvalidParametersException" ∧
      Contains e.Message "profile does not exist" = true)) :
    resource.retryLoop m.onTimeout (associateRetryFunc m input) polls s r =
      ({ calls := s.calls ++ List.replicate (k + 1) (Call.associate input), output := out },
        some e.toError) := by
  induction k generalizing polls s r with
  | zero =>
    obtain ⟨p, rfl⟩ : ∃ p, polls = p + 1 := ⟨polls - 1, by omega⟩
    rw [resource.retryLoop, associateRetryFunc_error m input s out e (by simpa using hlast)]
    have hc : (decide (e.Code = "InvalidParametersException") &&
        Contains e.Message "profile does not exist") = false := by
      simpa using hno
    simp [hc]
  | succ k ih =>
    obtain ⟨p, rfl⟩ : ∃ p, polls = p + 1 := ⟨polls - 1, by omega⟩
    obtain ⟨out', e', he', hc1, hc2⟩ := hpend 0 (by omega)
    rw [resource.retryLoop, associateRetryFunc_error m input s out' e' (by simpa using he')]
    simp only [hc1, hc2, decide_True, Bool.and_self, if_true]
    rw [ih p { calls := s.calls ++ [Call.associate input], output := out' } (some e'.toError)
      (by omega)
      (by
        intro i hi
        have := hpend (i + 1) (by omega)
        simpa [Nat.add_assoc, Nat.add_comm 1 i] using this)
      (by simpa [Nat.add_assoc, Nat.add_comm 1 k] using hlast)]
    simp [List.replicate_succ]

end servicecatalog

/-- The message of `Errorf`: the phrase, the identifier in parentheses, the cause. -/
theorem Errorf_Error (pre identifier : String) (err : GoError) :
    (Errorf pre identifier err).Error =
      pre ++ "(" ++ identifier ++ ")" ++ (": " ++ err.Error) := by
  have h : "): " = ")" ++ ": " := by decide
  simp only [Errorf, GoError.Error, h, String.append_assoc]

namespace servicecatalog

open tfservicecatalog

/-- The remote operations of read: none, or one wait. -/
theorem resourceBudgetResourceAssociationRead_calls (m : AWSClient) (d : ResourceData) :
    (resourceBudgetResourceAssociationRead m d).calls = [] ∨
    ∃ b r, (resourceBudgetResourceAssociationRead m d).calls = [Call.waitReady b r] := by
  unfold resourceBudgetResourceAssociationRead
  split
  · exact Or.inl rfl
  · rename_i b r _
    refine Or.inr ⟨b, r, ?_⟩
    simp only
    split
    · rfl
    · split
      · rfl
      · split <;> rfl

/-- Read leaves the ID of a new resource as it is. -/
theorem resourceBudgetResourceAssociationRead_id_new (m : AWSClient) (d : ResourceData)
    (hnew : d.IsNewResource = true) :
    (resourceBudgetResourceAssociationRead m d).d.Id = d.Id := by
  unfold resourceBudgetResourceAssociationRead
  split
  · rfl
  · simp only [hnew, Bool.not_true, Bool.false_and, Bool.false_eq_true, if_false]
    split
    · rfl
    · split <;> rfl

/-- The errors of read: a phrase for the kind of failure, then the ID in parentheses. -/
theorem resourceBudgetResourceAssociationRead_error (m : AWSClient) (d : ResourceData)
    (e : GoError) (h : (resourceBudgetResourceAssociationRead m d).err = some e) :
    ∃ pre rest,
      pre ∈ ["could not parse ID ",
        "error describing Service Catalog Budget Resource Association ",
        "error getting Service Catalog Budget Resource Association "] ∧
      e.Error = pre ++ "(" ++ d.Id ++ ")" ++ rest := by
  unfold resourceBudgetResourceAssociationRead at h
  split at h
  · rename_i err _
    simp only [Option.some.injEq] at h
    subst h
    exact ⟨_, _, by simp, Errorf_Error _ _ _⟩
  · simp only at h
    split at h
    · simp at h
    · split at h
      · rename_i err _
        simp only [Option.some.injEq] at h
        subst h
        exact ⟨_, _, by simp, Errorf_Error _ _ _⟩
      · split at h
        · simp only [Option.some.injEq] at h
          subst h
          refine ⟨"error getting Service Catalog Budget Resource Association ",
            ": empty response", by simp, ?_⟩
          have h2 : "): empty response" = ")" ++ ": empty response" := by decide
          have h3 : "error getting Service Catalog Budget Resource Association (" =
              "error getting Service Catalog Budget Resource Association " ++ "(" := by
            decide
          simp only [GoError.Error, h2, h3, String.append_assoc]
        · simp at h

/-- The errors of delete: a phrase for the kind of failure, then the ID in
parentheses. -/
theorem resourceBudgetResourceAssociationDelete_error (m : AWSClient) (d : ResourceData)
    (e : GoError) (h : (resourceBudgetResourceAssociationDelete m d).err = some e) :
    ∃ pre rest,
      pre ∈ ["could not parse ID ",
        "error disassociating Service Catalog Budget from Resource ",
        "error waiting for Service Catalog Budget Resource Disassociation "] ∧
      e.Error = pre ++ "(" ++ d.Id ++ ")" ++ rest := by
  unfold resourceBudgetResourceAssociationDelete at h
  split at h
  · simp only [Option.some.injEq] at h
    subst h
    exact ⟨_, _, by simp, Errorf_Error _ _ _⟩
  · simp only at h
    split at h
    · simp at h
    · split at h
      · simp only [Option.some.injEq] at h
        subst h
        exact ⟨_, _, by simp, Errorf_Error _ _ _⟩
      · split at h
        · split at h
          · simp only [Option.some.injEq] at h
            subst h
            exact ⟨_, _, by simp, Errorf_Error _ _ _⟩
          · simp at h
        · simp at h

end servicecatalog

namespace servicecatalog

open tfservicecatalog

/-- Create after a retry that ended with an error that is no timeout: the error is
returned wrapped, the resource data is left as it was. -/
theorem resourceBudgetResourceAssociationCreate_of_error (m : AWSClient) (d : ResourceData)
    (s1 : CreateState) (e : GoError)
    (hR : resource.Retry m.polls m.onTimeout
      (associateRetryFunc m ⟨d.budget_name, d.resource_id⟩) { calls := [], output := none } =
        (s1, some e))
    (hT : tfresource.TimedOut (some e) = false) :
    resourceBudgetResourceAssociationCreate m d =
      { d := d, calls := s1.calls,
        err := some (GoError.wrapped
          ("error associating Service Catalog Budget with Resource: " ++ e.Error) e) } := by
  unfold resourceBudgetResourceAssociationCreate
  simp only [hR, hT, Bool.false_eq_true, if_false]

/-- Create after a retry that ended with a timeout and a last attempt that is answered
with an error. -/
theorem resourceBudgetResourceAssociationCreate_of_timeout (m : AWSClient)
    (d : ResourceData) (s1 : CreateState) (e : GoError)
    (out : Option AssociateBudgetWithResourceOutput) (e' : AwsErr)
    (hR : resource.Retry m.polls m.onTimeout
      (associateRetryFunc m ⟨d.budget_name, d.resource_id⟩) { calls := [], output := none } =
        (s1, some e))
    (hT : tfresource.TimedOut (some e) = true)
    (hlast : m.AssociateBudgetWithResource s1.calls.length ⟨d.budget_name, d.resource_id⟩ =
      (out, some e')) :
    resourceBudgetResourceAssociationCreate m d =
      { d := d, calls := s1.calls ++ [Call.associate ⟨d.budget_name, d.resource_id⟩],
        err := some (GoError.wrapped
          ("error associating Service Catalog Budget with Resource: " ++ e'.toError.Error)
          e'.toError) } := by
  unfold resourceBudgetResourceAssociationCreate
  simp only [hR, hT, if_true, associate, hlast, Option.map_some']

/-- C13: in `resourceBudgetResourceAssociationCreate`, the error of an attempt is
classified retryable exactly when its code is `InvalidParametersException` and its
message contains "profile does not exist".  When an attempt that the timeout leaves
room for is answered with any other error, after attempts that were all answered with
the retryable error, that attempt is the last associate call: create returns the error
wrapped and leaves the resource data as it was. -/
theorem resourceBudgetResourceAssociationCreate_classification (m : AWSClient)
    (d : ResourceData) :
    (∀ s out e,
      m.AssociateBudgetWithResource s.calls.length ⟨d.budget_name, d.resource_id⟩ =
        (out, some e) →
      ∃ rerr, (associateRetryFunc m ⟨d.budget_name, d.resource_id⟩ s).2 = some rerr ∧
        rerr.Err = e.toError ∧
        (rerr.Retryable = true ↔
          e.Code = "InvalidParametersException" ∧
          Contains e.Message "profile does not exist" = true)) ∧
    (∀ k out e, k < m.polls →
      (∀ i, i < k → ∃ out' e',
        m.AssociateBudgetWithResource i ⟨d.budget_name, d.resource_id⟩ = (out', some e') ∧
        e'.Code = "InvalidParametersException" ∧
        Contains e'.Message "profile does not exist" = true) →
      m.AssociateBudgetWithResource k ⟨d.budget_name, d.resource_id⟩ = (out, some e) →
      ¬ (e.Code = "InvalidParametersException" ∧
        Contains e.Message "profile does not exist" = true) →
      resourceBudgetResourceAssociationCreate m d =
        { d := d,
          calls := List.replicate (k + 1) (Call.associate ⟨d.budget_name, d.resource_id⟩),
          err := some (GoError.wrapped
            ("error associating Service Catalog Budget with Resource: " ++ e.toError.Error)
            e.toError) }) := by
  constructor
  · intro s out e h
    rw [associateRetryFunc_error m _ s out e h]
    exact ⟨_, rfl, rfl, by simp⟩
  · intro k out e hk hpend hlast hno
    have hR := retryLoop_non_retryable m ⟨d.budget_name, d.resource_id⟩ k m.polls
      { calls := [], output := none } none out e hk
      (by simpa using hpend) (by simpa using hlast) hno
    have := resourceBudgetResourceAssociationCreate_of_error m d _ e.toError hR rfl
    simpa using this

/-- C14: when every associate attempt is answered with the retryable error,
`resourceBudgetResourceAssociationCreate` makes as many associate calls as the timeout
leaves room for and at most one more, makes no other call, returns an error and leaves
the resource data, and so the ID, as it was. -/
theorem resourceBudgetResourceAssociationCreate_all_pending (m : AWSClient)
    (d : ResourceData)
    (hall : ∀ n, ∃ out e,
      m.AssociateBudgetWithResource n ⟨d.budget_name, d.resource_id⟩ = (out, some e) ∧
      e.Code = "InvalidParametersException" ∧
      Contains e.Message "profile does not exist" = true) :
    m.polls ≤ (resourceBudgetResourceAssociationCreate m d).calls.length ∧
    (resourceBudgetResourceAssociationCreate m d).calls.length ≤ m.polls + 1 ∧
    (∀ c ∈ (resourceBudgetResourceAssociationCreate m d).calls,
      c = Call.associate ⟨d.budget_name, d.resource_id⟩) ∧
    (∃ err, (resourceBudgetResourceAssociationCreate m d).err = some err) ∧
    (resourceBudgetResourceAssociationCreate m d).d = d := by
  obtain ⟨out, r', hR⟩ := retryLoop_all_pending m ⟨d.budget_name, d.resource_id⟩ hall
    m.polls { calls := [], output := none } none
  by_cases hT : tfresource.TimedOut (some (m.onTimeout r')) = true
  · obtain ⟨out', e', he', _, _⟩ := hall
      (([] : List Call) ++ List.replicate m.polls
        (Call.associate ⟨d.budget_name, d.resource_id⟩)).length
    rw [resourceBudgetResourceAssociationCreate_of_timeout m d _ _ out' e' hR hT he']
    refine ⟨by simp, by simp, ?_, ⟨_, rfl⟩, rfl⟩
    intro c hc
    simp only [List.nil_append, List.mem_append, List.mem_singleton] at hc
    rcases hc with hc | hc
    · exact List.eq_of_mem_replicate hc
    · exact hc
  · have hT' : tfresource.TimedOut (some (m.onTimeout r')) = false := by simpa using hT
    rw [resourceBudgetResourceAssociationCreate_of_error m d _ _ hR hT']
    refine ⟨by simp, by simp, ?_, ⟨_, rfl⟩, rfl⟩
    intro c hc
    simp only [List.nil_append] at hc
    exact List.eq_of_mem_replicate hc

/-- The witness of C14: a connection that answers every attempt with the retryable
error, and a timeout that leaves room for three attempts. -/
theorem resourceBudgetResourceAssociationCreate_all_pending_witness :
    (3 ≤ (resourceBudgetResourceAssociationCreate
        ⟨fun _ _ => (none, some ⟨"InvalidParametersException", "profile does not exist"⟩),
          fun _ => none, fun _ _ => (none, none), fun _ _ => none, 3,
          fun r => r.getD (GoError.timeout "timeout")⟩
        ⟨"", true, "monthly", "prod-1234"⟩).calls.length) ∧
    (∃ err, (resourceBudgetResourceAssociationCreate
        ⟨fun _ _ => (none, some ⟨"InvalidParametersException", "profile does not exist"⟩),
          fun _ => none, fun _ _ => (none, none), fun _ _ => none, 3,
          fun r => r.getD (GoError.timeout "timeout")⟩
        ⟨"", true, "monthly", "prod-1234"⟩).err = some err) :=
  have h := resourceBudgetResourceAssociationCreate_all_pending
    ⟨fun _ _ => (none, some ⟨"InvalidParametersException", "profile does not exist"⟩),
      fun _ => none, fun _ _ => (none, none), fun _ _ => none, 3,
      fun r => r.getD (GoError.timeout "timeout")⟩
    ⟨"", true, "monthly", "prod-1234"⟩
    (fun _ => ⟨none, ⟨"InvalidParametersException", "profile does not exist"⟩, rfl, rfl,
      by decide⟩)
  ⟨h.1, h.2.2.2.1⟩

/-- C15: when the timeout leaves room for an attempt and the first
`AssociateBudgetWithResource` attempt is answered with an output and no error, create
makes exactly one associate call, sets the ID to
`BudgetResourceAssociationID(budget_name, resource_id)` and goes on with read on the
resource data with that ID; the ID of a new resource is still that one when create
returns. -/
theorem resourceBudgetResourceAssociationCreate_first_attempt (m : AWSClient)
    (d : ResourceData) (out : AssociateBudgetWithResourceOutput)
    (hpolls : 0 < m.polls)
    (hfirst : m.AssociateBudgetWithResource 0 ⟨d.budget_name, d.resource_id⟩ =
      (some out, none)) :
    (resourceBudgetResourceAssociationCreate m d).calls =
      Call.associate ⟨d.budget_name, d.resource_id⟩ ::
        (resourceBudgetResourceAssociationRead m
          (d.SetId (BudgetResourceAssociationID d.budget_name d.resource_id))).calls ∧
    (resourceBudgetResourceAssociationCreate m d).calls.countP Call.isAssociate = 1 ∧
    (resourceBudgetResourceAssociationCreate m d).d =
      (resourceBudgetResourceAssociationRead m
        (d.SetId (BudgetResourceAssociationID d.budget_name d.resource_id))).d ∧
    (resourceBudgetResourceAssociationCreate m d).err =
      (resourceBudgetResourceAssociationRead m
        (d.SetId (BudgetResourceAssociationID d.budget_name d.resource_id))).err ∧
    (d.IsNewResource = true →
      (resourceBudgetResourceAssociationCreate m d).d.Id =
        BudgetResourceAssociationID d.budget_name d.resource_id) := by
  obtain ⟨p, hp⟩ : ∃ p, m.polls = p + 1 := ⟨m.polls - 1, by omega⟩
  have hR : resource.Retry m.polls m.onTimeout
      (associateRetryFunc m ⟨d.budget_name, d.resource_id⟩) { calls := [], output := none } =
      ({ calls := [Call.associate ⟨d.budget_name, d.resource_id⟩], output := some out },
        none) := by
    rw [hp, resource.Retry, resource.retryLoop,
      associateRetryFunc_ok m _ _ (some out) (by simpa using hfirst)]
    simp
  have hrun : resourceBudgetResourceAssociationCreate m d =
      { resourceBudgetResourceAssociationRead m
          (d.SetId (BudgetResourceAssociationID d.budget_name d.resource_id)) with
        calls := Call.associate ⟨d.budget_name, d.resource_id⟩ ::
          (resourceBudgetResourceAssociationRead m
            (d.SetId (BudgetResourceAssociationID d.budget_name d.resource_id))).calls } := by
    unfold resourceBudgetResourceAssociationCreate
    simp [hR, tfresource.TimedOut]
  rw [hrun]
  refine ⟨rfl, ?_, rfl, rfl, ?_⟩
  · rcases resourceBudgetResourceAssociationRead_calls m
      (d.SetId (BudgetResourceAssociationID d.budget_name d.resource_id)) with h | ⟨b, r, h⟩
    · simp [h, Call.isAssociate]
    · simp [h, Call.isAssociate]
  · intro hnew
    exact resourceBudgetResourceAssociationRead_id_new m
      (d.SetId (BudgetResourceAssociationID d.budget_name d.resource_id)) hnew

/-- The witness of C15: the first attempt is answered with an output, the wait finds
the budget. -/
theorem resourceBudgetResourceAssociationCreate_first_attempt_witness :
    (0 < 3) ∧
    (resourceBudgetResourceAssociationCreate
        ⟨fun _ _ => (some {}, none), fun _ => none,
          fun b _ => (some ⟨b⟩, none), fun _ _ => none, 3,
          fun r => r.getD (GoError.timeout "timeout")⟩
        ⟨"", true, "monthly", "prod-1234"⟩).calls.countP Call.isAssociate = 1 :=
  ⟨by decide,
    (resourceBudgetResourceAssociationCreate_first_attempt
      ⟨fun _ _ => (some {}, none), fun _ => none,
        fun b _ => (some ⟨b⟩, none), fun _ _ => none, 3,
        fun r => r.getD (GoError.timeout "timeout")⟩
      ⟨"", true, "monthly", "prod-1234"⟩ {} (by decide) rfl).2.1⟩

end servicecatalog

namespace servicecatalog

open tfservicecatalog

/-- The errors of create: the association error with its cause, the constant message
for an empty response, or an error of the read that create ends with. -/
theorem resourceBudgetResourceAssociationCreate_error (m : AWSClient) (d : ResourceData)
    (e : GoError) (h : (resourceBudgetResourceAssociationCreate m d).err = some e) :
    (∃ cause, e.Error =
      "error associating Service Catalog Budget with Resource: " ++ cause) ∨
    e.Error =
      "error creating Service Catalog Budget Resource Association: empty response" ∨
    (resourceBudgetResourceAssociationRead m
      (d.SetId (BudgetResourceAssociationID d.budget_name d.resource_id))).err = some e := by
  unfold resourceBudgetResourceAssociationCreate at h
  rcases hR : resource.Retry m.polls m.onTimeout
    (associateRetryFunc m ⟨d.budget_name, d.resource_id⟩) { calls := [], output := none }
    with ⟨s1, err1⟩
  simp only [hR] at h
  split at h
  · simp only [Option.some.injEq] at h
    subst h
    exact Or.inl ⟨_, rfl⟩
  · split at h
    · simp only [Option.some.injEq] at h
      subst h
      exact Or.inr (Or.inl rfl)
    · exact Or.inr (Or.inr h)

/-- C16, as the claim states it: create for the budget `monthly` and the resource
`prod-1234`, with an associate call that is answered with an empty response, returns
an error whose message holds neither the ID in parentheses nor the budget name nor the
resource ID; so does create with an associate call that is refused. -/
theorem resourceBudgetResourceAssociationCreate_error_without_identity :
    (resourceBudgetResourceAssociationCreate
        ⟨fun _ _ => (none, none), fun _ => none, fun _ _ => (none, none), fun _ _ => none,
          3, fun r => r.getD (GoError.timeout "timeout")⟩
        ⟨"", true, "monthly", "prod-1234"⟩).err =
      some (GoError.message
        "error creating Service Catalog Budget Resource Association: empty response") ∧
    identifiesResource
      "error creating Service Catalog Budget Resource Association: empty response"
      "" "monthly" "prod-1234" = false ∧
    Contains "error creating Service Catalog Budget Resource Association: empty response"
      "monthly" = false ∧
    Contains "error creating Service Catalog Budget Resource Association: empty response"
      "prod-1234" = false ∧
    (resourceBudgetResourceAssociationCreate
        ⟨fun _ _ => (none, some ⟨"AccessDeniedException", "not authorized"⟩),
          fun _ => none, fun _ _ => (none, none), fun _ _ => none,
          3, fun r => r.getD (GoError.timeout "timeout")⟩
        ⟨"", true, "monthly", "prod-1234"⟩).err.map GoError.Error =
      some ("error associating Service Catalog Budget with Resource: " ++
        "AccessDeniedException: not authorized") ∧
    identifiesResource
      ("error associating Service Catalog Budget with Resource: " ++
        "AccessDeniedException: not authorized")
      "" "monthly" "prod-1234" = false := by
  refine ⟨by decide, by decide, by decide, by decide, by decide, by decide⟩

/-- C16, amended: every error that read returns and every error that delete returns
has a message that starts with a phrase for the kind of failure, followed by the
resource ID in parentheses; an error that create returns is the association error
followed by its cause, or the constant message for an empty response (neither holds
the identity), or an error of the read on the resource data with the ID that create
has set, whose message holds that ID in parentheses. -/
theorem callbacks_error_messages (m : AWSClient) (d : ResourceData) :
    (∀ e, (resourceBudgetResourceAssociationRead m d).err = some e →
      ∃ pre rest,
        pre ∈ ["could not parse ID ",
          "error describing Service Catalog Budget Resource Association ",
          "error getting Service Catalog Budget Resource Association "] ∧
        e.Error = pre ++ "(" ++ d.Id ++ ")" ++ rest) ∧
    (∀ e, (resourceBudgetResourceAssociationDelete m d).err = some e →
      ∃ pre rest,
        pre ∈ ["could not parse ID ",
          "error disassociating Service Catalog Budget from Resource ",
          "error waiting for Service Catalog Budget Resource Disassociation "] ∧
        e.Error = pre ++ "(" ++ d.Id ++ ")" ++ rest) ∧
    (∀ e, (resourceBudgetResourceAssociationCreate m d).err = some e →
      (∃ cause, e.Error =
        "error associating Service Catalog Budget with Resource: " ++ cause) ∨
      e.Error =
        "error creating Service Catalog Budget Resource Association: empty response" ∨
      ∃ pre rest,
        pre ∈ ["could not parse ID ",
          "error describing Service Catalog Budget Resource Association ",
          "error getting Service Catalog Budget Resource Association "] ∧
        e.Error = pre ++ "(" ++
          BudgetResourceAssociationID d.budget_name d.resource_id ++ ")" ++ rest) := by
  refine ⟨fun e h => resourceBudgetResourceAssociationRead_error m d e h,
    fun e h => resourceBudgetResourceAssociationDelete_error m d e h, fun e h => ?_⟩
  rcases resourceBudgetResourceAssociationCreate_error m d e h with h1 | h2 | h3
  · exact Or.inl h1
  · exact Or.inr (Or.inl h2)
  · exact Or.inr (Or.inr (resourceBudgetResourceAssociationRead_error m _ e h3))

end servicecatalog

/-! ## The validators -/

theorem u32_le_iff (a b : UInt32) : a ≤ b ↔ a.toNat ≤ b.toNat := Iff.rfl

theorem char_eq_iff_toNat (c d : Char) : c = d ↔ c.val.toNat = d.val.toNat := by
  constructor
  · rintro rfl; rfl
  · intro h
    apply Char.ext
    exact UInt32.ext (by simpa [UInt32.toNat] using h)

/-- A string of characters of one byte each has as many bytes as characters. -/
theorem utf8ByteSize_go_eq_length (cs : List Char) (h : ∀ c ∈ cs, c.utf8Size = 1) :
    String.utf8ByteSize.go cs = cs.length := by
  induction cs with
  | nil => rfl
  | cons c cs ih =>
    simp only [String.utf8ByteSize.go, List.length_cons]
    rw [ih (fun d hd => h d (List.mem_cons_of_mem _ hd)), h c (List.mem_cons_self _ _)]

/-- A string of characters of one byte each has as many bytes as characters. -/
theorem utf8ByteSize_eq_length (s : String) (h : ∀ c ∈ s.toList, c.utf8Size = 1) :
    s.utf8ByteSize = s.length := by
  cases s with
  | mk cs => exact utf8ByteSize_go_eq_length cs h

namespace regexp

/-- The expression `^...` matches nowhere but at the beginning of the text. -/
theorem matchFrom_bol_false (re : Regexp) (cs : List Char) :
    matchFrom (Item.bol :: re) false cs = false := by
  induction cs with
  | nil => simp [matchFrom, matchHere]
  | cons c cs ih => simp [matchFrom, matchHere, ih]

/-- A repetition without upper bound that is followed by the end of the text: the rest
of the text is made of characters of the class, at least `min` of them. -/
theorem matchRep_end (p : Char → Bool) (k : Bool → List Char → Bool)
    (hk : ∀ a cs, k a cs = cs.isEmpty) (min : Nat) (atStart : Bool) (cs : List Char) :
    matchRep p k min none atStart cs = true ↔
      min ≤ cs.length ∧ ∀ c ∈ cs, p c = true := by
  induction cs generalizing min atStart with
  | nil => simp [matchRep, hk]
  | cons c cs ih =>
    simp only [matchRep, hk, List.isEmpty_cons, Bool.and_false,
      Bool.false_or, ne_eq, reduceCtorEq, not_false_eq_true, decide_True, Bool.true_and,
      Option.map_none', Bool.and_eq_true, ih, List.length_cons, List.mem_cons, forall_eq_or_imp]
    constructor
    · rintro ⟨h1, h2, h3⟩
      exact ⟨by omega, h1, h3⟩
    · rintro ⟨h1, h2, h3⟩
      exact ⟨h2, by omega, h3⟩

/-- The expression `^[...]+$`: the text is not empty and made of characters of the
class. -/
theorem MatchString_bol_plus_eol (p : Char → Bool) (s : String) :
    MatchString [Item.bol, Item.rep p 1 none, Item.eol] s = true ↔
      s.toList ≠ [] ∧ ∀ c ∈ s.toList, p c = true := by
  have hk : ∀ (a : Bool) (cs : List Char), matchHere [Item.eol] a cs = cs.isEmpty := by
    intro a cs
    simp [matchHere]
  have hhere : ∀ cs, matchHere [Item.bol, Item.rep p 1 none, Item.eol] true cs =
      matchRep p (matchHere [Item.eol]) 1 none true cs := by
    intro cs
    rw [matchHere, matchHere, Bool.true_and]
  unfold MatchString
  cases s.toList with
  | nil =>
    rw [matchFrom, hhere, matchRep_end p _ hk]
    simp
  | cons c cs =>
    rw [matchFrom, matchFrom_bol_false, Bool.or_false, hhere, matchRep_end p _ hk]
    simp only [List.length_cons, ne_eq, reduceCtorEq, not_false_eq_true, true_and]
    constructor
    · exact fun h => h.2
    · exact fun h => ⟨by omega, h⟩

/-- The expression `^[...]`: the first character of the text is of the class. -/
theorem MatchString_bol_cls (p : Char → Bool) (s : String) :
    MatchString [Item.bol, Item.cls p] s = true ↔
      ∃ c rest, s.toList = c :: rest ∧ p c = true := by
  unfold MatchString
  cases s.toList with
  | nil => simp [matchFrom, matchHere]
  | cons c cs => simp [matchFrom, matchFrom_bol_false, matchHere]

/-- The expression of two literals `x` and `y`: the text contains `xy`. -/
theorem matchFrom_two_literals (p q : Char → Bool) (x y : Char)
    (hp : ∀ c, p c = true ↔ c = x) (hq : ∀ c, q c = true ↔ c = y)
    (atStart : Bool) (cs : List Char) :
    matchFrom [Item.cls p, Item.cls q] atStart cs = true ↔ [x, y] <:+: cs := by
  induction cs generalizing atStart with
  | nil => simp [matchFrom, matchHere]
  | cons c cs ih =>
    simp only [matchFrom, Bool.or_eq_true, ih, List.infix_cons_iff]
    apply or_congr_left
    cases cs with
    | nil => simp [matchHere, List.cons_prefix_cons]
    | cons d cs =>
      simp only [matchHere, Bool.and_true, Bool.and_eq_true, hp, hq, List.cons_prefix_cons,
        List.nil_prefix, and_true]
      constructor
      · rintro ⟨rfl, rfl⟩
        exact ⟨rfl, rfl⟩
      · rintro ⟨rfl, rfl⟩
        exact ⟨rfl, rfl⟩

/-- The expression of two literals, for a string. -/
theorem MatchString_two_literals (p q : Char → Bool) (x y : Char)
    (hp : ∀ c, p c = true ↔ c = x) (hq : ∀ c, q c = true ↔ c = y) (s : String) :
    MatchString [Item.cls p, Item.cls q] s = true ↔ [x, y] <:+: s.toList :=
  matchFrom_two_literals p q x y hp hq true s.toList

/-- The expression of a literal `x` followed by `$`: the text ends with `x`. -/
theorem matchFrom_literal_eol (p : Char → Bool) (x : Char) (hp : ∀ c, p c = true ↔ c = x)
    (atStart : Bool) (cs : List Char) :
    matchFrom [Item.cls p, Item.eol] atStart cs = true ↔ cs.getLast? = some x := by
  induction cs generalizing atStart with
  | nil => simp [matchFrom, matchHere]
  | cons c cs ih =>
    simp only [matchFrom, Bool.or_eq_true, ih]
    cases cs with
    | nil =>
      simp only [matchHere, List.isEmpty_nil, Bool.and_self, Bool.and_true, hp,
        List.getLast?_nil, reduceCtorEq, or_false, List.getLast?_singleton,
        Option.some.injEq]
    | cons d cs =>
      simp [matchHere, List.getLast?_cons_cons]

/-- The expression of a literal followed by `$`, for a string. -/
theorem MatchString_literal_eol (p : Char → Bool) (x : Char) (hp : ∀ c, p c = true ↔ c = x)
    (s : String) :
    MatchString [Item.cls p, Item.eol] s = true ↔ s.toList.getLast? = some x :=
  matchFrom_literal_eol p x hp true s.toList

end regexp

/-- A validator that returns one error under a condition returns none exactly when the
condition fails. -/
theorem ite_singleton_eq_nil (b : Bool) (x : String) :
    (if b = true then [x] else []) = [] ↔ b = false := by
  cases b <;> simp

namespace redshift

theorem lowerAlnumHyphen_iff (c : Char) :
    lowerAlnumHyphen c = true ↔ c.isLower = true ∨ c.isDigit = true ∨ c = '-' := by
  simp only [lowerAlnumHyphen, Char.isLower, Char.isDigit, Bool.or_eq_true, Bool.and_eq_true,
    decide_eq_true_eq, beq_iff_eq, Char.le_def, ge_iff_le]
  constructor
  · rintro ((h | h) | h)
    · exact Or.inr (Or.inl h)
    · exact Or.inl h
    · exact Or.inr (Or.inr h)
  · rintro (h | h | h)
    · exact Or.inl (Or.inr h)
    · exact Or.inl (Or.inl h)
    · exact Or.inr h

theorem utf8Size_of_class (c : Char) (h : lowerAlnumHyphen c = true) : c.utf8Size = 1 := by
  simp only [lowerAlnumHyphen, Bool.or_eq_true, Bool.and_eq_true, decide_eq_true_eq,
    beq_iff_eq, Char.le_def, u32_le_iff, char_eq_iff_toNat] at h
  simp only [Char.utf8Size, u32_le_iff]
  have h1 : ('0' : Char).val.toNat = 48 := by decide
  have h2 : ('9' : Char).val.toNat = 57 := by decide
  have h3 : ('a' : Char).val.toNat = 97 := by decide
  have h4 : ('z' : Char).val.toNat = 122 := by decide
  have h5 : ('-' : Char).val.toNat = 45 := by decide
  have h6 : (UInt32.ofNatCore 127 (by decide)).toNat = 127 := by decide
  rw [h1, h2, h3, h4, h5] at h
  rw [if_pos]
  rw [h6]
  omega

theorem letter_of_class (c : Char) (h : lowerAlnumHyphen c = true) :
    letterFold c = true ↔ c.isAlpha = true := by
  simp only [lowerAlnumHyphen, Bool.or_eq_true, Bool.and_eq_true, decide_eq_true_eq,
    beq_iff_eq, Char.le_def, u32_le_iff, char_eq_iff_toNat] at h
  simp only [letterFold, Char.isAlpha, Char.isUpper, Char.isLower, Bool.or_eq_true,
    Bool.and_eq_true, decide_eq_true_eq, beq_iff_eq, Char.le_def, u32_le_iff,
    char_eq_iff_toNat, ge_iff_le]
  have h1 : ('0' : Char).val.toNat = 48 := by decide
  have h2 : ('9' : Char).val.toNat = 57 := by decide
  have h3 : ('a' : Char).val.toNat = 97 := by decide
  have h4 : ('z' : Char).val.toNat = 122 := by decide
  have h5 : ('-' : Char).val.toNat = 45 := by decide
  have h7 : ('A' : Char).val.toNat = 65 := by decide
  have h8 : ('Z' : Char).val.toNat = 90 := by decide
  have h9 : (Char.ofNat 0x17F).val.toNat = 383 := by decide
  have h10 : (Char.ofNat 0x212A).val.toNat = 8490 := by decide
  have h11 : (97 : UInt32).toNat = 97 := by decide
  have h12 : (122 : UInt32).toNat = 122 := by decide
  have h13 : (65 : UInt32).toNat = 65 := by decide
  have h14 : (90 : UInt32).toNat = 90 := by decide
  rw [h1, h2, h3, h4, h5] at h
  rw [h3, h4, h7, h8, h9, h10, h11, h12, h13, h14]
  omega

/-- C18: the validator of the `name` of a Redshift parameter group returns no error for
a string exactly when the string has 1 to 255 characters, each of them a lowercase
letter, a digit or a hyphen, its first character is a letter, it does not contain two
consecutive hyphens and it does not end with a hyphen. -/
theorem nameValidateFunc_accepts (v k : String) :
    nameValidateFunc v k = [] ↔
      (1 ≤ v.length ∧ v.length ≤ 255) ∧
      (∀ c ∈ v.toList, c.isLower = true ∨ c.isDigit = true ∨ c = '-') ∧
      (∃ c rest, v.toList = c :: rest ∧ c.isAlpha = true) ∧
      ¬ (['-', '-'] <:+: v.toList) ∧
      v.toList.getLast? ≠ some '-' := by
  have hh : ∀ c, hyphen c = true ↔ c = '-' := by
    intro c
    simp [hyphen]
  have hrun : nameValidateFunc v k = [] ↔
      (1 ≤ v.utf8ByteSize ∧ v.utf8ByteSize ≤ 255) ∧
      (v.toList ≠ [] ∧ ∀ c ∈ v.toList, lowerAlnumHyphen c = true) ∧
      (∃ c rest, v.toList = c :: rest ∧ letterFold c = true) ∧
      ¬ (['-', '-'] <:+: v.toList) ∧
      v.toList.getLast? ≠ some '-' := by
    simp only [nameValidateFunc, validation.All, validation.StringLenBetween,
      validation.StringMatch, validation.StringDoesNotMatch,
      List.flatMap_cons, List.flatMap_nil, List.append_eq_nil, ite_singleton_eq_nil,
      and_true]
    rw [Bool.or_eq_false_iff, decide_eq_false_iff_not, decide_eq_false_iff_not,
      Bool.not_eq_false', Bool.not_eq_false', regexp.MatchString_bol_plus_eol,
      regexp.MatchString_bol_cls]
    simp only [Bool.eq_false_iff, ne_eq,
      regexp.MatchString_two_literals hyphen hyphen '-' '-' hh hh,
      regexp.MatchString_literal_eol hyphen '-' hh]
    constructor
    · rintro ⟨⟨h1, h2⟩, h3, h4, h5, h6⟩
      exact ⟨⟨by omega, by omega⟩, h3, h4, h5, h6⟩
    · rintro ⟨⟨h1, h2⟩, h3, h4, h5, h6⟩
      exact ⟨⟨by omega, by omega⟩, h3, h4, h5, h6⟩
  rw [hrun]
  constructor
  · rintro ⟨⟨h1, h2⟩, ⟨_, h3⟩, ⟨c, rest, h4, h5⟩, h6, h7⟩
    have hlen : v.utf8ByteSize = v.length :=
      utf8ByteSize_eq_length v (fun c hc => utf8Size_of_class c (h3 c hc))
    have hc : c ∈ v.toList := by rw [h4]; exact List.mem_cons_self _ _
    exact ⟨⟨by omega, by omega⟩, fun c hc => (lowerAlnumHyphen_iff c).1 (h3 c hc),
      ⟨c, rest, h4, (letter_of_class c (h3 c hc)).1 h5⟩, h6, h7⟩
  · rintro ⟨⟨h1, h2⟩, h3, ⟨c, rest, h4, h5⟩, h6, h7⟩
    have h3' : ∀ c ∈ v.toList, lowerAlnumHyphen c = true :=
      fun c hc => (lowerAlnumHyphen_iff c).2 (h3 c hc)
    have hlen : v.utf8ByteSize = v.length :=
      utf8ByteSize_eq_length v (fun c hc => utf8Size_of_class c (h3' c hc))
    have hc : c ∈ v.toList := by rw [h4]; exact List.mem_cons_self _ _
    exact ⟨⟨by omega, by omega⟩, ⟨by rw [h4]; simp, h3'⟩,
      ⟨c, rest, h4, (letter_of_class c (h3' c hc)).2 h5⟩, h6, h7⟩

end redshift

namespace cloudcontrol

/-- C19, on the code: the validator of `type_name` returns no error for
`!AWS::EC2::Instance!`, which has characters that are not alphanumeric before and after
the three sections, for a string of five sections, and for a string whose first section
has 70 characters; it does return an error for a string without three sections. -/
theorem typeNameValidateFunc_accepts_more :
    typeNameValidateFunc "!AWS::EC2::Instance!" "type_name" = [] ∧
    alnum '!' = false ∧
    typeNameValidateFunc "AWS::EC2::Instance::Extra::More" "type_name" = [] ∧
    typeNameValidateFunc
      "aaaaaaaaaaaaaaaaaaaaaaaaaaaaaaaaaaaaaaaaaaaaaaaaaaaaaaaaaaaaaaaaaaaaaa::EC2::Instance"
      "type_name" = [] ∧
    ("aaaaaaaaaaaaaaaaaaaaaaaaaaaaaaaaaaaaaaaaaaaaaaaaaaaaaaaaaaaaaaaaaaaaaa").length = 70 ∧
    typeNameValidateFunc "AWS::EC2::Instance" "type_name" = [] ∧
    typeNameValidateFunc "AWS::EC2" "type_name" ≠ [] := by
  refine ⟨by decide, by decide, by decide, by decide, by decide, by decide, by decide⟩

end cloudcontrol

namespace sort

/-- The bound on the rounds of the binary search is never used up: any two bounds of
at least `j - i` give the same result. -/
theorem searchLoop_rounds (f : Nat → Bool) (r1 r2 i j : Nat) (h1 : j - i ≤ r1)
    (h2 : j - i ≤ r2) : searchLoop f r1 i j = searchLoop f r2 i j := by
  induction r1 generalizing r2 i j with
  | zero =>
    cases r2 with
    | zero => rfl
    | succ r2 =>
      have : ¬ i < j := by omega
      simp [searchLoop, this]
  | succ r1 ih =>
    cases r2 with
    | zero =>
      have : ¬ i < j := by omega
      simp [searchLoop, this]
    | succ r2 =>
      by_cases hij : i < j
      · simp only [searchLoop, hij, if_true]
        split
        · exact ih r2 _ _ (by omega) (by omega)
        · exact ih r2 _ _ (by omega) (by omega)
      · simp [searchLoop, hij]

end sort

namespace dynamodb

/-- C20, on the code: for the region `us-west-3`, which is not in the list, the search
returns 11, the length of the list, and the check panics instead of skipping the test;
for the eleven regions of the list the test goes on, and for `ca-central-1` and for the
empty string the test is skipped. -/
theorem testAccDynamoDBGlobalTablePreCheck_out_of_range :
    "us-west-3" ∉ supportRegionsSort ∧
    sort.SearchStrings supportRegionsSort "us-west-3" = supportRegionsSort.length ∧
    testAccDynamoDBGlobalTablePreCheck "us-west-3" =
      PreCheckResult.panic "runtime error: index out of range" ∧
    (∀ region ∈ supportRegionsSort,
      testAccDynamoDBGlobalTablePreCheck region = PreCheckResult.proceed) ∧
    testAccDynamoDBGlobalTablePreCheck "ca-central-1" =
      PreCheckResult.skip
        ("skipping test; aws_dynamodb_global_table (DynamoDB v2017.11.29) not supported " ++
          "in region ca-central-1") ∧
    testAccDynamoDBGlobalTablePreCheck "" =
      PreCheckResult.skip
        ("skipping test; aws_dynamodb_global_table (DynamoDB v2017.11.29) not supported " ++
          "in region ") := by
  refine ⟨by decide, by decide, by decide, by decide, by decide, by decide⟩

end dynamodb

/-! ## The conversions of the xray tags -/

namespace xray

open tftags

/-- Assigning the pairs of a list with distinct keys, none of them a key of the map, adds
the pairs at the end of the map. -/
theorem foldl_set_entries (l : List (String × String)) (acc : tftags.KeyValueTags)
    (hl : (l.map Prod.fst).Nodup)
    (hdisj : ∀ k, k ∈ acc.entries.map Prod.fst → k ∉ l.map Prod.fst) :
    ((l.map (fun kv => ({ Key := kv.1, Value := kv.2 } : Tag))).foldl
        (fun m tag => m.set tag.Key tag.Value) acc).entries = acc.entries ++ l := by
  induction l generalizing acc with
  | nil => simp
  | cons p l ih =>
    obtain ⟨k, v⟩ := p
    simp only [List.map_cons, List.nodup_cons] at hl
    simp only [List.map_cons, List.foldl_cons]
    have hk : k ∉ acc.entries.map Prod.fst := by
      intro hmem
      exact hdisj k hmem (by simp)
    have hset : (acc.set k v).entries = acc.entries ++ [(k, v)] := by
      simp only [KeyValueTags.set]
      congr 1
      rw [List.filter_eq_self]
      rintro ⟨a, b⟩ hab
      simp only [bne_iff_ne, ne_eq]
      rintro rfl
      exact hk (List.mem_map_of_mem Prod.fst hab)
    rw [ih (acc.set k v) hl.2, hset]
    · simp
    · intro a ha
      rw [hset] at ha
      simp only [List.map_append, List.map_cons, List.map_nil, List.mem_append,
        List.mem_singleton] at ha
      rcases ha with ha | rfl
      · intro hmem
        exact hdisj a ha (by simp [List.mem_map] at hmem ⊢; exact Or.inr hmem)
      · exact hl.1

/-- C26: for every tag map `t`, `KeyValueTags(Tags(t))` is `t`, with the same value for
every key; `Tags(t)` has as many tags as `t` has keys, and every key of `t` is the key
of exactly one tag of `Tags(t)`, every other string the key of none. -/
theorem keyValueTags_Tags (t : tftags.KeyValueTags) :
    keyValueTags (Tags t) = t ∧
    (∀ k, (keyValueTags (Tags t)).get k = t.get k) ∧
    (Tags t).length = t.len ∧
    (∀ k, ((Tags t).map Tag.Key).count k = if k ∈ t.Keys then 1 else 0) ∧
    (∀ tag, tag ∈ Tags t ↔ t.get tag.Key = some tag.Value) := by
  have hentries : (keyValueTags (Tags t)).entries = t.entries := by
    have := foldl_set_entries t.entries ⟨[], List.nodup_nil⟩ t.nodup (by simp)
    simpa [keyValueTags, Tags, KeyValueTags.Map, New] using this
  have heq : keyValueTags (Tags t) = t := by
    cases h : keyValueTags (Tags t) with
    | mk e n =>
      cases t with
      | mk e' n' =>
        rw [h] at hentries
        simp only at hentries
        subst hentries
        rfl
  have hkeys : (Tags t).map Tag.Key = t.Keys := by
    simp [Tags, KeyValueTags.Map, KeyValueTags.Keys, List.map_map, Function.comp_def]
  refine ⟨heq, fun k => by rw [heq], by simp [Tags, KeyValueTags.Map, KeyValueTags.len],
    fun k => ?_, fun tag => ?_⟩
  · rw [hkeys]
    exact List.count_eq_of_nodup t.nodup
  · obtain ⟨k, v⟩ := tag
    rw [KeyValueTags.get_eq_some_iff]
    simp only [Tags, KeyValueTags.Map, List.mem_map, Prod.exists, Tag.mk.injEq]
    constructor
    · rintro ⟨a, b, hab, rfl, rfl⟩
      exact hab
    · intro h
      exact ⟨k, v, h, rfl, rfl⟩

end xray

/-! ## The hash of a Redshift parameter -/

namespace redshift

/-- C21: for every parameter name and every two values with the same lower-case form,
the two parameters have the same hash, the key of the set. -/
theorem resourceAwsRedshiftParameterHash_ignores_case (hashcode : String → Int)
    (table : Char → Char) (name value1 value2 : String)
    (h : strings.ToLower table value1 = strings.ToLower table value2) :
    resourceAwsRedshiftParameterHash hashcode table ⟨name, value1⟩ =
      resourceAwsRedshiftParameterHash hashcode table ⟨name, value2⟩ := by
  simp only [resourceAwsRedshiftParameterHash, resourceAwsRedshiftParameterHashString, h]

/-- The witness of C21: the values `TRUE` and `true` of the parameter
`require_ssl`. -/
theorem resourceAwsRedshiftParameterHash_ignores_case_witness :
    strings.ToLower id "TRUE" = strings.ToLower id "true" ∧
    resourceAwsRedshiftParameterHash (fun s => (s.length : Int)) id
        ⟨"require_ssl", "TRUE"⟩ =
      resourceAwsRedshiftParameterHash (fun s => (s.length : Int)) id
        ⟨"require_ssl", "true"⟩ :=
  ⟨by decide,
    resourceAwsRedshiftParameterHash_ignores_case (fun s => (s.length : Int)) id
      "require_ssl" "TRUE" "true" (by decide)⟩

/-- The characters of the string that is hashed. -/
theorem resourceAwsRedshiftParameterHashString_toList (table : Char → Char)
    (m : ParameterMap) :
    (resourceAwsRedshiftParameterHashString table m).toList =
      m.name.toList ++ '-' :: ((strings.ToLower table m.value).toList ++ ['-']) := by
  simp [resourceAwsRedshiftParameterHashString, String.toList]

/-- C27, as the claim states it: the parameters with the name `a` and the value `b-c`
and with the name `a-b` and the value `c` have different names (and different values in
lower case), and the same string is hashed for both. -/
theorem resourceAwsRedshiftParameterHashString_collision :
    ("a" : String) ≠ "a-b" ∧
    strings.ToLower id "b-c" ≠ strings.ToLower id "c" ∧
    resourceAwsRedshiftParameterHashString id ⟨"a", "b-c"⟩ =
      resourceAwsRedshiftParameterHashString id ⟨"a-b", "c"⟩ := by
  refine ⟨by decide, by decide, by decide⟩

/-- C27, amended: for every two parameters whose names hold no hyphen, if the names
differ or the values in lower case differ, the two strings that are hashed are
different. -/
theorem resourceAwsRedshiftParameterHashString_injective (table : Char → Char)
    (m1 m2 : ParameterMap) (h1 : '-' ∉ m1.name.toList) (h2 : '-' ∉ m2.name.toList)
    (hne : m1.name ≠ m2.name ∨
      strings.ToLower table m1.value ≠ strings.ToLower table m2.value) :
    resourceAwsRedshiftParameterHashString table m1 ≠
      resourceAwsRedshiftParameterHashString table m2 := by
  intro heq
  have hl := congrArg String.toList heq
  rw [resourceAwsRedshiftParameterHashString_toList,
    resourceAwsRedshiftParameterHashString_toList] at hl
  have ha1 : ∀ c ∈ m1.name.toList, (fun c => c != '-') c = true := by
    intro c hc
    simp only [bne_iff_ne, ne_eq]
    rintro rfl
    exact h1 hc
  have ha2 : ∀ c ∈ m2.name.toList, (fun c => c != '-') c = true := by
    intro c hc
    simp only [bne_iff_ne, ne_eq]
    rintro rfl
    exact h2 hc
  have ht := congrArg (List.takeWhile (fun c => c != '-')) hl
  rw [List.takeWhile_append_of_pos ha1, List.takeWhile_append_of_pos ha2] at ht
  simp only [List.takeWhile_cons, bne_self_eq_false, Bool.false_eq_true, if_false,
    List.append_nil] at ht
  have hd := congrArg (List.dropWhile (fun c => c != '-')) hl
  rw [List.dropWhile_append_of_pos ha1, List.dropWhile_append_of_pos ha2] at hd
  simp only [List.dropWhile_cons, bne_self_eq_false, Bool.false_eq_true, if_false,
    List.cons.injEq, true_and] at hd
  have hv := List.append_cancel_right hd
  rcases hne with hn | hv'
  · exact hn (String.ext ht)
  · exact hv' (String.ext hv)

/-- The witness of C27, amended: the parameters `require_ssl` and
`enable_user_activity_logging`, both with the value `true`. -/
theorem resourceAwsRedshiftParameterHashString_injective_witness :
    '-' ∉ ("require_ssl" : String).toList ∧
    '-' ∉ ("enable_user_activity_logging" : String).toList ∧
    resourceAwsRedshiftParameterHashString id ⟨"require_ssl", "true"⟩ ≠
      resourceAwsRedshiftParameterHashString id ⟨"enable_user_activity_logging", "true"⟩ :=
  ⟨by decide, by decide,
    resourceAwsRedshiftParameterHashString_injective id ⟨"require_ssl", "true"⟩
      ⟨"enable_user_activity_logging", "true"⟩ (by decide) (by decide)
      (Or.inl (by decide))⟩

end redshift

/-! ## The checks of the DynamoDB global table test -/

namespace dynamodb

/-- C28, on the code: a state with the global tables `a` and `b`, visited in this
order, where `a` is reported as not found and `b` can still be described: the check
returns `nil`.  Visited in the other order, the same state gives the error. -/
theorem testAccCheckAwsDynamoDbGlobalTableDestroy_first_only :
    (if "b" = "a" then some (⟨"GlobalTableNotFoundException", "gone"⟩ : AwsErr)
      else none) = none ∧
    testAccCheckAwsDynamoDbGlobalTableDestroy
        (fun name =>
          if name = "a" then some ⟨"GlobalTableNotFoundException", "gone"⟩ else none)
        [⟨"aws_dynamodb_global_table", "a"⟩, ⟨"aws_dynamodb_global_table", "b"⟩] = none ∧
    testAccCheckAwsDynamoDbGlobalTableDestroy
        (fun name =>
          if name = "a" then some ⟨"GlobalTableNotFoundException", "gone"⟩ else none)
        [⟨"aws_dynamodb_global_table", "b"⟩, ⟨"aws_dynamodb_global_table", "a"⟩] =
      some (GoError.message "Expected DynamoDB Global Table to be destroyed, b found") := by
  refine ⟨by decide, by decide, by decide⟩

/-- C29: the list `supportRegionsSort` is in strictly ascending order, every region
before every later one, and for every index of the list the search for the region at
that index returns the index. -/
theorem supportRegionsSort_sorted :
    supportRegionsSort.Pairwise (fun a b => stringLess a b = true) ∧
    (∀ i, i < supportRegionsSort.length →
      sort.SearchStrings supportRegionsSort (supportRegionsSort.getD i "") = i) ∧
    (∀ region ∈ supportRegionsSort,
      supportRegionsSort[sort.SearchStrings supportRegionsSort region]? = some region) := by
  refine ⟨by decide, by decide, by decide⟩

end dynamodb

/-! ## Create sets the ID after a successful association only -/

namespace servicecatalog

open tfservicecatalog

/-- The retry loop makes associate calls only, and when it ends with `nil` the last of
them was answered without an error, with the output that is left in `output`. -/
theorem retryLoop_calls (m : AWSClient) (input : AssociateBudgetWithResourceInput)
    (polls : Nat) (s : CreateState) (r : Option GoError) :
    ∃ k,
      (resource.retryLoop m.onTimeout (associateRetryFunc m input) polls s r).1.calls =
        s.calls ++ List.replicate k (Call.associate input) ∧
      ((resource.retryLoop m.onTimeout (associateRetryFunc m input) polls s r).2 = none →
        1 ≤ k ∧
        m.AssociateBudgetWithResource (s.calls.length + k - 1) input =
          ((resource.retryLoop m.onTimeout (associateRetryFunc m input) polls s r).1.output,
            none)) := by
  induction polls generalizing s r with
  | zero => exact ⟨0, by simp [resource.retryLoop], by simp [resource.retryLoop]⟩
  | succ p ih =>
    rcases h : m.AssociateBudgetWithResource s.calls.length input with ⟨out, err⟩
    cases err with
    | none =>
      refine ⟨1, ?_, ?_⟩
      · rw [resource.retryLoop, associateRetryFunc_ok m input s out h]
        simp
      · intro _
        rw [resource.retryLoop, associateRetryFunc_ok m input s out h]
        simpa using h
    | some e =>
      rw [resource.retryLoop, associateRetryFunc_error m input s out e h]
      by_cases hc : (decide (e.Code = "InvalidParametersException") &&
          Contains e.Message "profile does not exist") = true
      · simp only [hc, if_true]
        obtain ⟨k, hk1, hk2⟩ :=
          ih { calls := s.calls ++ [Call.associate input], output := out } (some e.toError)
        refine ⟨k + 1, ?_, ?_⟩
        · rw [hk1]
          simp [List.replicate_succ]
        · intro hnone
          obtain ⟨hk, hlast⟩ := hk2 hnone
          refine ⟨by omega, ?_⟩
          simp only [List.length_append, List.length_singleton] at hlast
          have hidx : s.calls.length + (k + 1) - 1 = s.calls.length + 1 + k - 1 := by omega
          rw [hidx]
          exact hlast
      · have hc' : (decide (e.Code = "InvalidParametersException") &&
            Contains e.Message "profile does not exist") = false := by simpa using hc
        simp only [hc', Bool.false_eq_true, if_false]
        exact ⟨1, by simp, by simp⟩

/-- The two ways in which create ends: with an error and the resource data as it was,
or, after a last associate call that was answered with an output and no error, with the
result of the read on the resource data with the ID set. -/
theorem resourceBudgetResourceAssociationCreate_cases (m : AWSClient) (d : ResourceData) :
    ((∃ e, (resourceBudgetResourceAssociationCreate m d).err = some e) ∧
      (resourceBudgetResourceAssociationCreate m d).d = d) ∨
    (∃ k out,
      (resourceBudgetResourceAssociationCreate m d).calls =
        List.replicate (k + 1) (Call.associate ⟨d.budget_name, d.resource_id⟩) ++
          (resourceBudgetResourceAssociationRead m
            (d.SetId (BudgetResourceAssociationID d.budget_name d.resource_id))).calls ∧
      m.AssociateBudgetWithResource k ⟨d.budget_name, d.resource_id⟩ = (some out, none)) := by
  unfold resourceBudgetResourceAssociationCreate
  obtain ⟨k, hk1, hk2⟩ := retryLoop_calls m ⟨d.budget_name, d.resource_id⟩ m.polls
    { calls := [], output := none } none
  rcases hR : resource.Retry m.polls m.onTimeout
    (associateRetryFunc m ⟨d.budget_name, d.resource_id⟩) { calls := [], output := none }
    with ⟨s1, err1⟩
  have hR' : resource.retryLoop m.onTimeout
      (associateRetryFunc m ⟨d.budget_name, d.resource_id⟩) m.polls
      { calls := [], output := none } none = (s1, err1) := hR
  rw [hR'] at hk1 hk2
  simp only [List.nil_append, List.length_nil, Nat.zero_add] at hk1 hk2
  simp only [hR]
  by_cases hT : tfresource.TimedOut err1 = true
  · simp only [hT, if_true]
    rcases hlast : m.AssociateBudgetWithResource s1.calls.length
      ⟨d.budget_name, d.resource_id⟩ with ⟨out, err⟩
    simp only [associate, hlast]
    cases err with
    | some e => exact Or.inl ⟨⟨_, rfl⟩, rfl⟩
    | none =>
      cases out with
      | none => exact Or.inl ⟨⟨_, rfl⟩, rfl⟩
      | some o =>
        refine Or.inr ⟨k, o, ?_, ?_⟩
        · simp [hk1, List.replicate_succ', List.append_assoc]
        · rw [hk1, List.length_replicate] at hlast
          exact hlast
  · have hT' : tfresource.TimedOut err1 = false := by simpa using hT
    simp only [hT', Bool.false_eq_true, if_false]
    cases err1 with
    | some e => exact Or.inl ⟨⟨_, rfl⟩, rfl⟩
    | none =>
      obtain ⟨hk, hlast⟩ := hk2 rfl
      cases hout : s1.output with
      | none => exact Or.inl ⟨⟨_, rfl⟩, rfl⟩
      | some o =>
        obtain ⟨j, rfl⟩ : ∃ j, k = j + 1 := ⟨k - 1, by omega⟩
        refine Or.inr ⟨j, o, ?_, ?_⟩
        · simp [hk1]
        · rw [hout] at hlast
          simpa using hlast

/-- C22: let `n` be the number of associate calls of a run of create.  If there was no
associate call, or the last one was answered with an error, or it was answered with an
empty response, create returns an error and leaves the resource data, and so the ID,
as it was.  If create changes the resource data, or returns `nil`, there was an
associate call and the last one was answered with an output and no error. -/
theorem resourceBudgetResourceAssociationCreate_sets_id_after_success (m : AWSClient)
    (d : ResourceData) :
    (((resourceBudgetResourceAssociationCreate m d).calls.countP Call.isAssociate = 0 ∨
        (m.AssociateBudgetWithResource
          ((resourceBudgetResourceAssociationCreate m d).calls.countP Call.isAssociate - 1)
          ⟨d.budget_name, d.resource_id⟩).2 ≠ none ∨
        (m.AssociateBudgetWithResource
          ((resourceBudgetResourceAssociationCreate m d).calls.countP Call.isAssociate - 1)
          ⟨d.budget_name, d.resource_id⟩).1 = none) →
      (∃ e, (resourceBudgetResourceAssociationCreate m d).err = some e) ∧
      (resourceBudgetResourceAssociationCreate m d).d = d) ∧
    (((resourceBudgetResourceAssociationCreate m d).d ≠ d ∨
        (resourceBudgetResourceAssociationCreate m d).err = none) →
      1 ≤ (resourceBudgetResourceAssociationCreate m d).calls.countP Call.isAssociate ∧
      ∃ out, m.AssociateBudgetWithResource
        ((resourceBudgetResourceAssociationCreate m d).calls.countP Call.isAssociate - 1)
        ⟨d.budget_name, d.resource_id⟩ = (some out, none)) := by
  have hcount : ∀ k, (List.replicate (k + 1) (Call.associate ⟨d.budget_name, d.resource_id⟩) ++
        (resourceBudgetResourceAssociationRead m
          (d.SetId (BudgetResourceAssociationID d.budget_name d.resource_id))).calls).countP
        Call.isAssociate = k + 1 := by
    intro k
    rcases resourceBudgetResourceAssociationRead_calls m
      (d.SetId (BudgetResourceAssociationID d.budget_name d.resource_id)) with h | ⟨b, r, h⟩
    · rw [h]
      simp [List.countP_replicate, Call.isAssociate]
    · rw [h]
      simp [List.countP_replicate, Call.isAssociate]
  rcases resourceBudgetResourceAssociationCreate_cases m d with ⟨⟨e, he⟩, hd⟩ | ⟨k, out, hc, hlast⟩
  · constructor
    · intro _
      exact ⟨⟨e, he⟩, hd⟩
    · rintro (h | h)
      · exact absurd hd h
      · rw [he] at h
        cases h
  · have hn := hcount k
    rw [← hc] at hn
    constructor
    · rintro (h | h | h)
      · omega
      · rw [hn] at h
        simp [hlast] at h
      · rw [hn] at h
        simp [hlast] at h
    · intro _
      rw [hn]
      exact ⟨by omega, out, by simpa using hlast⟩

end servicecatalog

/-! ## The read of the transit gateway route table data source -/

namespace ec2

/-- C25: `dataSourceTransitGatewayRouteTableRead` returns `nil` only if the describe
call returned no error and exactly one route table that is not `nil`.  After a describe
call without error, a `nil` output or an output without route table gives the error
"no results found", more than one route table the error "multiple results found", a
single `nil` entry the error "empty result"; in each of these cases the resource data
is left as it was, and so its ID is not set. -/
theorem dataSourceTransitGatewayRouteTableRead_single (m : AWSClient) (d : ResourceData) :
    ((dataSourceTransitGatewayRouteTableRead m d).err = none →
      ∃ table, m.DescribeTransitGatewayRouteTables (describeInput m d) =
        (some ⟨[some table]⟩, none)) ∧
    (m.DescribeTransitGatewayRouteTables (describeInput m d) = (none, none) →
      dataSourceTransitGatewayRouteTableRead m d =
        { d := d,
          err := some (GoError.message
            "error reading EC2 Transit Gateway Route Table: no results found") }) ∧
    (m.DescribeTransitGatewayRouteTables (describeInput m d) = (some ⟨[]⟩, none) →
      dataSourceTransitGatewayRouteTableRead m d =
        { d := d,
          err := some (GoError.message
            "error reading EC2 Transit Gateway Route Table: no results found") }) ∧
    (∀ t1 t2 rest,
      m.DescribeTransitGatewayRouteTables (describeInput m d) =
        (some ⟨t1 :: t2 :: rest⟩, none) →
      dataSourceTransitGatewayRouteTableRead m d =
        { d := d,
          err := some (GoError.message
            ("error reading EC2 Transit Gateway Route Table: multiple results found, " ++
              "try adjusting search criteria")) }) ∧
    (m.DescribeTransitGatewayRouteTables (describeInput m d) = (some ⟨[none]⟩, none) →
      dataSourceTransitGatewayRouteTableRead m d =
        { d := d,
          err := some (GoError.message
            "error reading EC2 Transit Gateway Route Table: empty result") }) ∧
    ((dataSourceTransitGatewayRouteTableRead m d).err ≠ none →
      (dataSourceTransitGatewayRouteTableRead m d).d.id = d.id) := by
  rcases h : m.DescribeTransitGatewayRouteTables (describeInput m d) with ⟨output, err⟩
  refine ⟨?_, ?_, ?_, ?_, ?_, ?_⟩
  · intro hnil
    unfold dataSourceTransitGatewayRouteTableRead at hnil
    simp only [h] at hnil
    cases err with
    | some e => simp at hnil
    | none =>
      cases output with
      | none => simp at hnil
      | some out =>
        obtain ⟨tables⟩ := out
        cases tables with
        | nil => simp at hnil
        | cons t rest =>
          cases rest with
          | cons t2 rest2 => simp at hnil
          | nil =>
            cases t with
            | none => simp at hnil
            | some table => exact ⟨table, rfl⟩
  · intro heq
    cases heq
    simp [dataSourceTransitGatewayRouteTableRead, h]
  · intro heq
    cases heq
    simp [dataSourceTransitGatewayRouteTableRead, h]
  · intro t1 t2 rest heq
    cases heq
    simp [dataSourceTransitGatewayRouteTableRead, h]
  · intro heq
    cases heq
    simp [dataSourceTransitGatewayRouteTableRead, h]
  · intro hne
    unfold dataSourceTransitGatewayRouteTableRead at hne ⊢
    simp only [h] at hne ⊢
    cases err with
    | some e => rfl
    | none =>
      cases output with
      | none => rfl
      | some out =>
        obtain ⟨tables⟩ := out
        cases tables with
        | nil => rfl
        | cons t rest =>
          cases rest with
          | cons t2 rest2 => simp
          | nil =>
            cases t with
            | none => simp
            | some table =>
              simp only [List.length_singleton, one_ne_zero, if_false, gt_iff_lt,
                lt_self_iff_false, List.head?_cons] at hne ⊢
              cases hs : m.setTags (m.tagsMap table.Tags) with
              | some e => simp
              | none => simp [hs] at hne

end ec2

/-! ## Read and update of the Redshift parameter group -/

namespace redshift

/-- C24: after a describe call without error, `resourceAwsRedshiftParameterGroupRead`
goes on to set the attributes exactly when the response holds one parameter group whose
name is the resource ID: then the ID stays and `arn`, `name`, `family` and
`description` are set from the group; for every other response (no group, several
groups, one group with another name) the ID is cleared, `d.Id()` is the empty string
afterwards, nothing else of the resource data is changed, and the error "Unable to find
Parameter Group" is returned after the one describe call.  So read returns `nil` only
in the first case. -/
theorem resourceAwsRedshiftParameterGroupRead_single (m : AWSClient) (d : ResourceData)
    (resp : DescribeClusterParameterGroupsOutput)
    (h : m.DescribeClusterParameterGroups ⟨d.Id⟩ = Except.ok resp) :
    (∀ g, resp.ParameterGroups = [g] → StringValue g.ParameterGroupName = d.Id →
      (resourceAwsRedshiftParameterGroupRead m d).d.id = d.id ∧
      (resourceAwsRedshiftParameterGroupRead m d).d.arn =
        arnString m.Partition "redshift" m.Region m.AccountID ("parametergroup:" ++ d.Id) ∧
      (resourceAwsRedshiftParameterGroupRead m d).d.name =
        StringValue g.ParameterGroupName ∧
      (resourceAwsRedshiftParameterGroupRead m d).d.family =
        StringValue g.ParameterGroupFamily ∧
      (resourceAwsRedshiftParameterGroupRead m d).d.description =
        StringValue g.Description) ∧
    ((¬ ∃ g, resp.ParameterGroups = [g] ∧ StringValue g.ParameterGroupName = d.Id) →
      resourceAwsRedshiftParameterGroupRead m d =
        { d := d.SetId "", calls := [Call.describeGroups ⟨d.Id⟩],
          err := some (GoError.message
            ("Unable to find Parameter Group: " ++ m.goSyntax resp.ParameterGroups)) } ∧
      (resourceAwsRedshiftParameterGroupRead m d).d.Id = "" ∧
      (resourceAwsRedshiftParameterGroupRead m d).d.id = "" ∧
      (resourceAwsRedshiftParameterGroupRead m d).d =
        { d with id := "" } ∧
      (∃ e, (resourceAwsRedshiftParameterGroupRead m d).err = some e)) ∧
    ((resourceAwsRedshiftParameterGroupRead m d).err = none →
      ∃ g, resp.ParameterGroups = [g] ∧ StringValue g.ParameterGroupName = d.Id) := by
  have hbad : (¬ ∃ g, resp.ParameterGroups = [g] ∧ StringValue g.ParameterGroupName = d.Id) →
      resourceAwsRedshiftParameterGroupRead m d =
        { d := d.SetId "", calls := [Call.describeGroups ⟨d.Id⟩],
          err := some (GoError.message
            ("Unable to find Parameter Group: " ++ m.goSyntax resp.ParameterGroups)) } := by
    intro hno
    unfold resourceAwsRedshiftParameterGroupRead
    simp only [h]
    obtain ⟨groups⟩ := resp
    cases groups with
    | nil => simp
    | cons g rest =>
      cases rest with
      | cons g2 rest2 => simp
      | nil =>
        have hne : StringValue g.ParameterGroupName ≠ d.Id := by
          intro heq
          exact hno ⟨g, rfl, heq⟩
        simp [hne]
  refine ⟨?_, ?_, ?_⟩
  · intro g hg hname
    unfold resourceAwsRedshiftParameterGroupRead
    simp only [h, hg, List.length_singleton, bne_self_eq_false, List.head?_cons,
      Option.some_bind, hname, Bool.or_self, Bool.false_eq_true, if_false]
    cases m.setTags (m.removeDefaultConfig (m.tagsOf g.Tags)) with
    | some e => exact ⟨rfl, rfl, rfl, rfl, rfl⟩
    | none =>
      cases m.setTagsAll (m.tagsOf g.Tags) with
      | some e => exact ⟨rfl, rfl, rfl, rfl, rfl⟩
      | none =>
        cases m.DescribeClusterParameters ⟨d.Id, "user"⟩ with
        | error e => exact ⟨rfl, rfl, rfl, rfl, rfl⟩
        | ok r => exact ⟨rfl, rfl, rfl, rfl, rfl⟩
  · intro hno
    refine ⟨hbad hno, ?_, ?_, ?_, ?_⟩
    · rw [hbad hno]
      rfl
    · rw [hbad hno]
      rfl
    · rw [hbad hno]
      rfl
    · rw [hbad hno]
      exact ⟨_, rfl⟩
  · intro hnil
    by_contra hno
    rw [hbad hno] at hnil
    cases hnil

/-- The witness of C24: a response with the one group `pg1` for the resource `pg1`:
read keeps the ID and sets the family; and a response without a group for the resource
`pg1`: read leaves the empty ID. -/
theorem resourceAwsRedshiftParameterGroupRead_single_witness :
    ((fun _ => Except.ok ⟨[⟨some "pg1", some "redshift-1.0", some "test", []⟩]⟩ :
        DescribeClusterParameterGroupsInput →
          Except AwsErr DescribeClusterParameterGroupsOutput) ⟨"pg1"⟩ =
      Except.ok ⟨[⟨some "pg1", some "redshift-1.0", some "test", []⟩]⟩) ∧
    (resourceAwsRedshiftParameterGroupRead
        ⟨fun _ => Except.ok ⟨[⟨some "pg1", some "redshift-1.0", some "test", []⟩]⟩,
          fun _ => Except.ok ⟨[]⟩, fun _ => none, "aws", "us-west-2", "123456789012",
          id, id, fun _ => none, fun _ => none, fun _ => [], fun _ => [],
          fun _ _ _ => none, fun s => (s.length : Int), id, fun _ => ""⟩
        ⟨"pg1", "", "", "", "", [], [], [], (none, none), ([], [])⟩).d.id = "pg1" ∧
    (resourceAwsRedshiftParameterGroupRead
        ⟨fun _ => Except.ok ⟨[⟨some "pg1", some "redshift-1.0", some "test", []⟩]⟩,
          fun _ => Except.ok ⟨[]⟩, fun _ => none, "aws", "us-west-2", "123456789012",
          id, id, fun _ => none, fun _ => none, fun _ => [], fun _ => [],
          fun _ _ _ => none, fun s => (s.length : Int), id, fun _ => ""⟩
        ⟨"pg1", "", "", "", "", [], [], [], (none, none), ([], [])⟩).d.family =
      "redshift-1.0" ∧
    (resourceAwsRedshiftParameterGroupRead
        ⟨fun _ => Except.ok ⟨[]⟩,
          fun _ => Except.ok ⟨[]⟩, fun _ => none, "aws", "us-west-2", "123456789012",
          id, id, fun _ => none, fun _ => none, fun _ => [], fun _ => [],
          fun _ _ _ => none, fun s => (s.length : Int), id, fun _ => ""⟩
        ⟨"pg1", "", "", "", "", [], [], [], (none, none), ([], [])⟩).d.Id = "" :=
  ⟨rfl,
    ((resourceAwsRedshiftParameterGroupRead_single
      ⟨fun _ => Except.ok ⟨[⟨some "pg1", some "redshift-1.0", some "test", []⟩]⟩,
        fun _ => Except.ok ⟨[]⟩, fun _ => none, "aws", "us-west-2", "123456789012",
        id, id, fun _ => none, fun _ => none, fun _ => [], fun _ => [],
        fun _ _ _ => none, fun s => (s.length : Int), id, fun _ => ""⟩
      ⟨"pg1", "", "", "", "", [], [], [], (none, none), ([], [])⟩
      ⟨[⟨some "pg1", some "redshift-1.0", some "test", []⟩]⟩ rfl).1
      ⟨some "pg1", some "redshift-1.0", some "test", []⟩ rfl rfl).1,
    ((resourceAwsRedshiftParameterGroupRead_single
      ⟨fun _ => Except.ok ⟨[⟨some "pg1", some "redshift-1.0", some "test", []⟩]⟩,
        fun _ => Except.ok ⟨[]⟩, fun _ => none, "aws", "us-west-2", "123456789012",
        id, id, fun _ => none, fun _ => none, fun _ => [], fun _ => [],
        fun _ _ _ => none, fun s => (s.length : Int), id, fun _ => ""⟩
      ⟨"pg1", "", "", "", "", [], [], [], (none, none), ([], [])⟩
      ⟨[⟨some "pg1", some "redshift-1.0", some "test", []⟩]⟩ rfl).1
      ⟨some "pg1", some "redshift-1.0", some "test", []⟩ rfl rfl).2.2.2.1,
    ((resourceAwsRedshiftParameterGroupRead_single
      ⟨fun _ => Except.ok ⟨[]⟩,
        fun _ => Except.ok ⟨[]⟩, fun _ => none, "aws", "us-west-2", "123456789012",
        id, id, fun _ => none, fun _ => none, fun _ => [], fun _ => [],
        fun _ _ _ => none, fun s => (s.length : Int), id, fun _ => ""⟩
      ⟨"pg1", "", "", "", "", [], [], [], (none, none), ([], [])⟩
      ⟨[]⟩ rfl).2.1 (by simp)).2.1⟩

/-- Read makes no modify call. -/
theorem resourceAwsRedshiftParameterGroupRead_no_modify (m : AWSClient) (d : ResourceData) :
    (resourceAwsRedshiftParameterGroupRead m d).calls.filter Call.isModify = [] := by
  unfold resourceAwsRedshiftParameterGroupRead
  simp only
  split
  · rfl
  · split
    · rfl
    · split
      · rfl
      · split
        · rfl
        · split
          · rfl
          · split <;> rfl

/-- Two sets that are equal have an empty difference. -/
theorem Difference_of_not_HasChange (F : ParameterMap → Int) (d : ResourceData)
    (h : d.HasChangeParameter = false) :
    schema.Set.Difference F (d.parameterChange.2.getD []) (d.parameterChange.1.getD []) =
      [] := by
  unfold ResourceData.HasChangeParameter at h
  rcases hc : d.parameterChange with ⟨o, n⟩
  rw [hc] at h
  cases o with
  | none =>
    cases n with
    | none => simp [schema.Set.Difference]
    | some n => simp at h
  | some o =>
    cases n with
    | none => simp at h
    | some n =>
      simp only [Bool.not_eq_false', schema.Set.Equal, Bool.and_eq_true, List.all_eq_true,
        decide_eq_true_eq] at h
      simp only [Option.getD_some, schema.Set.Difference, List.filter_eq_nil_iff,
        Bool.not_eq_true', Bool.not_eq_false, schema.Set.Contains, List.any_eq_true,
        beq_iff_eq]
      intro p hp
      exact ⟨p, h.2 p hp, rfl⟩

/-- The modify calls of update: one call with the expanded difference when the set has
changed and the expanded difference is not empty, none otherwise. -/
theorem resourceAwsRedshiftParameterGroupUpdate_modify_calls (m : AWSClient)
    (d : ResourceData) :
    (resourceAwsRedshiftParameterGroupUpdate m d).calls.filter Call.isModify =
      if d.HasChangeParameter = true ∧
          0 < (m.expandRedshiftParameters
            (schema.Set.Difference (resourceAwsRedshiftParameterHash m.hashcode m.table)
              (d.parameterChange.2.getD []) (d.parameterChange.1.getD []))).length then
        [Call.modify ⟨d.name, m.expandRedshiftParameters
          (schema.Set.Difference (resourceAwsRedshiftParameterHash m.hashcode m.table)
            (d.parameterChange.2.getD []) (d.parameterChange.1.getD []))⟩]
      else [] := by
  obtain ⟨id, arn, name, family, description, tags, tags_all, parameter, ⟨o, n⟩,
    ⟨tagsOld, tagsNew⟩⟩ := d
  have hread := resourceAwsRedshiftParameterGroupRead_no_modify m
    ⟨id, arn, name, family, description, tags, tags_all, parameter, (o, n),
      (tagsOld, tagsNew)⟩
  unfold resourceAwsRedshiftParameterGroupUpdate
  simp only []
  by_cases hc : ResourceData.HasChangeParameter
      ⟨id, arn, name, family, description, tags, tags_all, parameter, (o, n),
        (tagsOld, tagsNew)⟩ = true
  · by_cases hl : 0 < (m.expandRedshiftParameters
        (schema.Set.Difference (resourceAwsRedshiftParameterHash m.hashcode m.table)
          (n.getD []) (o.getD []))).length
    · cases hM : m.ModifyClusterParameterGroup ⟨name, m.expandRedshiftParameters
          (schema.Set.Difference (resourceAwsRedshiftParameterHash m.hashcode m.table)
            (n.getD []) (o.getD []))⟩ with
      | some e => simp [hc, hl, hM, Call.isModify]
      | none =>
        by_cases hT : ResourceData.HasChangeTagsAll
            ⟨id, arn, name, family, description, tags, tags_all, parameter, (o, n),
              (tagsOld, tagsNew)⟩ = true
        · cases hU : m.RedshiftUpdateTags arn tagsOld tagsNew with
          | some e => simp [hc, hl, hM, hT, hU, Call.isModify]
          | none => simp [hc, hl, hM, hT, hU, hread, Call.isModify]
        · simp [hc, hl, hM, hT, hread, Call.isModify]
    · by_cases hT : ResourceData.HasChangeTagsAll
          ⟨id, arn, name, family, description, tags, tags_all, parameter, (o, n),
            (tagsOld, tagsNew)⟩ = true
      · cases hU : m.RedshiftUpdateTags arn tagsOld tagsNew with
        | some e => simp [hc, hl, hT, hU, Call.isModify]
        | none => simp [hc, hl, hT, hU, hread, Call.isModify]
      · simp [hc, hl, hT, hread, Call.isModify]
  · by_cases hT : ResourceData.HasChangeTagsAll
        ⟨id, arn, name, family, description, tags, tags_all, parameter, (o, n),
          (tagsOld, tagsNew)⟩ = true
    · cases hU : m.RedshiftUpdateTags arn tagsOld tagsNew with
      | some e => simp [hc, hT, hU, Call.isModify]
      | none => simp [hc, hT, hU, hread, Call.isModify]
    · simp [hc, hT, hread, Call.isModify]

/-- C23: for all old and new `parameter` sets, with the helper
`expandRedshiftParameters` giving no parameter for no element: the difference that
update computes holds exactly the elements of the new set whose key is not the key of
an element of the old set; update makes one `ModifyClusterParameterGroup` call, with
the group name and the expanded difference, when the expanded difference is not empty,
and no modify call otherwise; so it makes none when the difference is empty, and none
when every element of the new set is in the old set (parameters were removed only).
Where the keys tell the elements of the two sets apart, the difference holds exactly the
elements of the new set that are not elements of the old set. -/
theorem resourceAwsRedshiftParameterGroupUpdate_modify (m : AWSClient) (d : ResourceData)
    (hexpand : m.expandRedshiftParameters [] = []) :
    (∀ p, p ∈ schema.Set.Difference (resourceAwsRedshiftParameterHash m.hashcode m.table)
        (d.parameterChange.2.getD []) (d.parameterChange.1.getD []) ↔
      p ∈ d.parameterChange.2.getD [] ∧
      schema.Set.Contains (resourceAwsRedshiftParameterHash m.hashcode m.table)
        (d.parameterChange.1.getD []) p = false) ∧
    ((resourceAwsRedshiftParameterGroupUpdate m d).calls.filter Call.isModify =
      if m.expandRedshiftParameters
          (schema.Set.Difference (resourceAwsRedshiftParameterHash m.hashcode m.table)
            (d.parameterChange.2.getD []) (d.parameterChange.1.getD [])) = [] then []
      else
        [Call.modify ⟨d.name, m.expandRedshiftParameters
          (schema.Set.Difference (resourceAwsRedshiftParameterHash m.hashcode m.table)
            (d.parameterChange.2.getD []) (d.parameterChange.1.getD []))⟩]) ∧
    (schema.Set.Difference (resourceAwsRedshiftParameterHash m.hashcode m.table)
        (d.parameterChange.2.getD []) (d.parameterChange.1.getD []) = [] →
      (resourceAwsRedshiftParameterGroupUpdate m d).calls.filter Call.isModify = []) ∧
    ((∀ p ∈ d.parameterChange.2.getD [],
        schema.Set.Contains (resourceAwsRedshiftParameterHash m.hashcode m.table)
          (d.parameterChange.1.getD []) p = true) →
      (resourceAwsRedshiftParameterGroupUpdate m d).calls.filter Call.isModify = []) ∧
    ((∀ p ∈ d.parameterChange.2.getD [], ∀ q ∈ d.parameterChange.1.getD [],
        schema.hashKey (resourceAwsRedshiftParameterHash m.hashcode m.table) q =
          schema.hashKey (resourceAwsRedshiftParameterHash m.hashcode m.table) p → q = p) →
      ∀ p, p ∈ schema.Set.Difference (resourceAwsRedshiftParameterHash m.hashcode m.table)
          (d.parameterChange.2.getD []) (d.parameterChange.1.getD []) ↔
        p ∈ d.parameterChange.2.getD [] ∧ p ∉ d.parameterChange.1.getD []) := by
  have hmain : (resourceAwsRedshiftParameterGroupUpdate m d).calls.filter Call.isModify =
      if m.expandRedshiftParameters
          (schema.Set.Difference (resourceAwsRedshiftParameterHash m.hashcode m.table)
            (d.parameterChange.2.getD []) (d.parameterChange.1.getD [])) = [] then []
      else
        [Call.modify ⟨d.name, m.expandRedshiftParameters
          (schema.Set.Difference (resourceAwsRedshiftParameterHash m.hashcode m.table)
            (d.parameterChange.2.getD []) (d.parameterChange.1.getD []))⟩] := by
    rw [resourceAwsRedshiftParameterGroupUpdate_modify_calls]
    by_cases hc : d.HasChangeParameter = true
    · by_cases he : m.expandRedshiftParameters
          (schema.Set.Difference (resourceAwsRedshiftParameterHash m.hashcode m.table)
            (d.parameterChange.2.getD []) (d.parameterChange.1.getD [])) = []
      · simp [he]
      · have hl : 0 < (m.expandRedshiftParameters
            (schema.Set.Difference (resourceAwsRedshiftParameterHash m.hashcode m.table)
              (d.parameterChange.2.getD []) (d.parameterChange.1.getD []))).length :=
          List.length_pos.2 he
        simp [hc, he, hl]
    · have hc' : d.HasChangeParameter = false := by simpa using hc
      have hd := Difference_of_not_HasChange
        (resourceAwsRedshiftParameterHash m.hashcode m.table) d hc'
      simp [hc', hd, hexpand]
  have hempty : schema.Set.Difference (resourceAwsRedshiftParameterHash m.hashcode m.table)
        (d.parameterChange.2.getD []) (d.parameterChange.1.getD []) = [] →
      (resourceAwsRedshiftParameterGroupUpdate m d).calls.filter Call.isModify = [] := by
    intro h0
    rw [hmain, h0, hexpand]
    rfl
  refine ⟨?_, hmain, hempty, ?_, ?_⟩
  · intro p
    simp [schema.Set.Difference, List.mem_filter]
  · intro hall
    apply hempty
    simp only [schema.Set.Difference, List.filter_eq_nil_iff, Bool.not_eq_true',
      Bool.not_eq_false]
    exact hall
  · intro hinj p
    simp only [schema.Set.Difference, List.mem_filter, Bool.not_eq_true',
      schema.Set.Contains, List.any_eq_false, beq_iff_eq]
    constructor
    · rintro ⟨hp, hkeys⟩
      exact ⟨hp, fun hmem => hkeys p hmem rfl⟩
    · rintro ⟨hp, hnot⟩
      refine ⟨hp, fun q hq hkey => hnot ?_⟩
      rw [← hinj p hp q hq hkey]
      exact hq

/-- The witness of C23: the old set holds `require_ssl` with the value `true`, the new
set holds it with the value `false`; `expandRedshiftParameters` makes one parameter of
each element. -/
theorem resourceAwsRedshiftParameterGroupUpdate_modify_witness :
    (List.map (fun p : ParameterMap => (⟨some p.name, some p.value⟩ : Parameter))
      [] = []) ∧
    (resourceAwsRedshiftParameterGroupUpdate
        ⟨fun _ => Except.ok ⟨[⟨some "pg1", some "redshift-1.0", some "test", []⟩]⟩,
          fun _ => Except.ok ⟨[]⟩, fun _ => none, "aws", "us-west-2", "123456789012",
          id, id, fun _ => none, fun _ => none, fun _ => [],
          List.map (fun p => ⟨some p.name, some p.value⟩),
          fun _ _ _ => none, fun s => (s.length : Int), id, fun _ => ""⟩
        ⟨"pg1", "", "pg1", "", "", [], [], [],
          (some [⟨"require_ssl", "true"⟩], some [⟨"require_ssl", "false"⟩]),
          ([], [])⟩).calls.filter Call.isModify =
      [Call.modify ⟨"pg1", [⟨some "require_ssl", some "false"⟩]⟩] :=
  ⟨rfl,
    ((resourceAwsRedshiftParameterGroupUpdate_modify
      ⟨fun _ => Except.ok ⟨[⟨some "pg1", some "redshift-1.0", some "test", []⟩]⟩,
        fun _ => Except.ok ⟨[]⟩, fun _ => none, "aws", "us-west-2", "123456789012",
        id, id, fun _ => none, fun _ => none, fun _ => [],
        List.map (fun p => ⟨some p.name, some p.value⟩),
        fun _ _ _ => none, fun s => (s.length : Int), id, fun _ => ""⟩
      ⟨"pg1", "", "pg1", "", "", [], [], [],
        (some [⟨"require_ssl", "true"⟩], some [⟨"require_ssl", "false"⟩]),
        ([], [])⟩ rfl).2.1).trans (by decide)⟩

end redshift
